import Mathlib

/-!
# LC Maths Studio: the request handlers of `backend/worker.js`

A shallow embedding of the Cloudflare worker: the answer evaluation
(`handleCreateAttempt`, `maybeRunGemini`, `extractGeminiText`,
`parseGeminiFeedback`, `clampMarks`), the session and registration handlers,
the catalogue handlers and the admin guard, over an explicit store, together
with the properties the specification states about them.

Conventions of the embedding.

* A JavaScript number is a `JNum`: `NaN`, the two infinities, or a finite value
  held as a rational.  The arithmetic operators round their result to binary64
  (`binary64`: nearest value, ties to even, overflow to an infinity); negative
  zero is not told apart from zero.  `Math.round`, `Math.min` and `Math.max`
  are exact, as they are on binary64 values.  The arithmetic inside the SQL
  statements (`sqlPct`, `sqlAvg`) is that of the store and is kept exact.
* A JavaScript value is a `JVal`; `JVal.undefined` is the result of reading a
  property that is not there.
* A JavaScript string is a Lean `String`; `jsLength` counts UTF-16 code units,
  which is what `.length` returns.
* `JSON.parse` and `fetch` are platform services: the first is a parameter
  `String → Option JVal` (`none` when it throws), the second is a field of `Env`.
* The D1 database is a `Store` of row lists; a handler takes the store and
  returns its response with the store it leaves.  The D1 client refuses to bind
  `undefined` and plain objects (`d1BindError`), and the object its `run()`
  resolves to carries the new row id under `meta.last_row_id` (`d1RunResult`).
  The other platform services (digest, lower-casing, serialiser, random token,
  clock) are fields of `Platform`.
-/

namespace LCMaths

/-! ## Numbers -/

/-- A JavaScript number: not-a-number, an infinity, or a finite rational. -/
inductive JNum where
  | nan
  | negInf
  | posInf
  | fin (q : ℚ)
  deriving DecidableEq

/-- Round to the nearest integer, a tie going to the even one. -/
def roundHalfEven (t : ℚ) : ℤ :=
  let f := Rat.floor t
  if t - f < 1 / 2 then f
  else if 1 / 2 < t - f then f + 1
  else if f % 2 = 0 then f
  else f + 1

/-- The binary64 value of a rational, the rounding every arithmetic operator
applies to its exact result: the nearest multiple of `2^(e-52)`, where `2^e` is
the power of two at or below the magnitude (`e` at least `-1022`, the
subnormal range), a tie going to the even multiple, and an infinity when the
rounded magnitude reaches `2^1024`. -/
def binary64 (q : ℚ) : JNum :=
  if q = 0 then .fin 0
  else
    let e := max (Int.log 2 |q|) (-1022)
    let ulp : ℚ := 2 ^ (e - 52)
    let r : ℚ := roundHalfEven (q / ulp) * ulp
    if (2 : ℚ) ^ (1024 : ℤ) ≤ |r| then (if 0 < q then .posInf else .negInf) else .fin r

/-- The binary64 value of a number that was read exactly. -/
def JNum.toBinary64 : JNum → JNum
  | .fin q => binary64 q
  | n => n

namespace Math

/-- Round half up, the finite case of `Math.round`: the floor of `q + 1/2`. -/
def roundQ (q : ℚ) : ℤ := Rat.floor (q + 1 / 2)

/-- The function `Math.round`: infinities and `NaN` are returned unchanged. -/
def round : JNum → JNum
  | .fin q => .fin (roundQ q)
  | n => n

/-- The function `Math.min` on two arguments: `NaN` if either is `NaN`. -/
def min : JNum → JNum → JNum
  | .nan, _ => .nan
  | _, .nan => .nan
  | .negInf, _ => .negInf
  | _, .negInf => .negInf
  | .posInf, b => b
  | a, .posInf => a
  | .fin a, .fin b => .fin (Min.min a b)

/-- The function `Math.max` on two arguments: `NaN` if either is `NaN`. -/
def max : JNum → JNum → JNum
  | .nan, _ => .nan
  | _, .nan => .nan
  | .posInf, _ => .posInf
  | _, .posInf => .posInf
  | .negInf, b => b
  | a, .negInf => a
  | .fin a, .fin b => .fin (Max.max a b)

end Math

/-- Sign of a number for the multiplication table: `none` for `NaN`. -/
def JNum.sign : JNum → Option ℤ
  | .nan => none
  | .negInf => some (-1)
  | .posInf => some 1
  | .fin q => some (SignType.sign q : ℤ)

/-- The operator `*` on numbers: the binary64 value of the product of two
binary64 values, an infinity times zero is `NaN`, otherwise an infinity with
the product of the signs.  A finite operand that is not a binary64 value is no
JavaScript number; the product is then left as it is. -/
def JNum.mul : JNum → JNum → JNum
  | .fin a, .fin b =>
    if binary64 a = .fin a ∧ binary64 b = .fin b then binary64 (a * b) else .fin (a * b)
  | a, b =>
    match a.sign, b.sign with
    | some s, some t =>
      if s * t = 0 then .nan else if 0 < s * t then .posInf else .negInf
    | _, _ => .nan

/-- The digits `s` and the exponent `n` of the decimal `s * 10^(n-k)` with `k`
digits next to the binary64 value `v` (of order `n0`, that is
`10^(n0-1) ≤ v < 10^n0`), when one of the two `k`-digit neighbours of `v`
reads back as `v`: of two that do, the nearer, and of two equally near the
even one. -/
def digitsFor (v : ℚ) (n0 : ℤ) (k : Nat) : Option (Nat × ℤ) :=
  let scale : ℚ := 10 ^ (n0 - k)
  let lo : ℤ := Rat.floor (v / scale)
  let hi : ℤ := lo + 1
  let okLo : Bool := decide (binary64 (lo * scale) = .fin v)
  let okHi : Bool := decide (binary64 (hi * scale) = .fin v)
  let pick : Option ℤ :=
    if okLo && okHi then
      (if v - lo * scale < hi * scale - v then some lo
       else if hi * scale - v < v - lo * scale then some hi
       else if lo % 2 = 0 then some lo
       else some hi)
    else if okLo then some lo
    else if okHi then some hi
    else none
  pick.map fun s => if s = 10 ^ k then ((10 ^ (k - 1) : Nat), n0 + 1) else (s.toNat, n0)

/-- The shortest digits that read back as `v`: the first count of digits from
`k` on, within `fuel` steps, for which `digitsFor` finds digits. -/
def shortestDigits (v : ℚ) (n0 : ℤ) : Nat → Nat → Option (Nat × ℤ)
  | 0, _ => none
  | fuel + 1, k =>
    match digitsFor v n0 k with
    | some r => some r
    | none => shortestDigits v n0 fuel (k + 1)

/-- The layout rules of `Number.prototype.toString` for the digits `ds` of a
positive value and its exponent `n`: plain digits with trailing zeros or a
decimal point for `n` up to 21, leading zeros down to `n = -5`, and the
exponent form otherwise. -/
def layoutDigits (ds : List Char) (n : ℤ) : String :=
  let k : ℤ := ds.length
  if k ≤ n ∧ n ≤ 21 then String.mk (ds ++ List.replicate (n - k).toNat (Char.ofNat 48))
  else if 0 < n ∧ n ≤ 21 then String.mk (ds.take n.toNat ++ [Char.ofNat 46] ++ ds.drop n.toNat)
  else if -6 < n ∧ n ≤ 0 then
    String.mk ([Char.ofNat 48, Char.ofNat 46] ++ List.replicate (-n).toNat (Char.ofNat 48) ++ ds)
  else
    let e := n - 1
    let sign := if 0 ≤ e then "+" else "-"
    let mant := if ds.length = 1 then ds else ds.take 1 ++ [Char.ofNat 46] ++ ds.drop 1
    String.mk mant ++ "e" ++ sign ++ toString e.natAbs

/-- The text of a magnitude as a number prints: its binary64 value in the
shortest digits that read back as that value (seventeen always do). -/
def magnitudeToStr (a : ℚ) : String :=
  match binary64 a with
  | .fin v =>
    if v = 0 then "0"
    else
      match shortestDigits v (Int.log 10 v + 1) 17 1 with
      | some (s, n) => layoutDigits (toString s).toList n
      | none => "NaN"
  | _ => "Infinity"

/-- Decimal rendering of a number as a template literal and `String` print it.
An integer up to `2^53` in magnitude prints as its decimal digits; any other
finite value prints the shortest digits that read back as its binary64 value,
in exponent form from `1e21` up and below `1e-6`. -/
def JNum.toStr : JNum → String
  | .nan => "NaN"
  | .posInf => "Infinity"
  | .negInf => "-Infinity"
  | .fin q =>
    if q.den = 1 ∧ q.num.natAbs ≤ 9007199254740992 then toString q.num
    else if q < 0 ∧ binary64 q ≠ .fin 0 then "-" ++ magnitudeToStr |q|
    else magnitudeToStr |q|

/-! ## Values and strings -/

/-- A JavaScript value as `JSON.parse` builds it, plus `undefined`.  The fields
of an object are its own properties, each key once. -/
inductive JVal where
  | undefined
  | null
  | bool (b : Bool)
  | num (n : JNum)
  | str (s : String)
  | arr (items : List JVal)
  | obj (fields : List (String × JVal))

/-- The value of a variable that holds a number or `null`. -/
def JVal.ofMark : Option JNum → JVal
  | none => .null
  | some n => .num n

/-- Truthiness: `undefined`, `null`, `false`, `0`, `NaN` and the empty string
are falsy, everything else is truthy. -/
def JVal.truthy : JVal → Bool
  | .undefined => false
  | .null => false
  | .bool b => b
  | .num .nan => false
  | .num (.fin q) => decide (q ≠ 0)
  | .num _ => true
  | .str s => decide (s ≠ "")
  | .arr _ => true
  | .obj _ => true

/-- The test `v == null`: true of `null` and `undefined` only. -/
def JVal.isNullish : JVal → Bool
  | .undefined => true
  | .null => true
  | _ => false

/-- The operator `a || b`. -/
def JVal.or (a b : JVal) : JVal := if a.truthy then a else b

/-- Number of UTF-16 code units of a string, the value of `.length`. -/
def jsLength (s : String) : Nat :=
  (s.toList.map fun c => if c.toNat < 65536 then 1 else 2).sum

/-- White space and line terminators, the characters `trim` strips. -/
def isJsSpace (c : Char) : Bool :=
  let n := c.toNat
  n = 9 || n = 10 || n = 11 || n = 12 || n = 13 || n = 32 || n = 160 ||
  n = 5760 || (8192 ≤ n && n ≤ 8202) || n = 8232 || n = 8233 || n = 8239 ||
  n = 8287 || n = 12288 || n = 65279

/-- The method `String.prototype.trim` on a list of characters. -/
def trimChars (cs : List Char) : List Char :=
  ((cs.dropWhile isJsSpace).reverse.dropWhile isJsSpace).reverse

/-- The method `String.prototype.trim`. -/
def jsTrim (s : String) : String := String.mk (trimChars s.toList)

/-- Reading property `k` of a value that is neither `null` nor `undefined`:
own properties of an object, `length` of an array or string, else `undefined`. -/
def JVal.getProp (v : JVal) (k : String) : JVal :=
  match v with
  | .obj fields => (fields.lookup k).getD .undefined
  | .arr items => if k = "length" then .num (.fin items.length) else .undefined
  | .str s => if k = "length" then .num (.fin (jsLength s)) else .undefined
  | _ => .undefined

/-- Reading index `i` of a value that is neither `null` nor `undefined`. -/
def JVal.getIdx (v : JVal) (i : Nat) : JVal :=
  match v with
  | .arr items => items.getD i .undefined
  | .str s => if i < s.length then .str (String.mk ((s.toList.drop i).take 1)) else .undefined
  | .obj fields => (fields.lookup (toString i)).getD .undefined
  | _ => .undefined

/-- Optional chaining `v?.k`. -/
def JVal.optProp (v : JVal) (k : String) : JVal :=
  if v.isNullish then .undefined else v.getProp k

/-- Optional chaining `v?.[i]`. -/
def JVal.optIdx (v : JVal) (i : Nat) : JVal :=
  if v.isNullish then .undefined else v.getIdx i

/-- Plain member access `v.k`: `none` stands for the `TypeError` raised when
`v` is `null` or `undefined`. -/
def JVal.prop? (v : JVal) (k : String) : Option JVal :=
  if v.isNullish then none else some (v.getProp k)

/-! ## `clampMarks` -/

/-- The function `clampMarks(value, max)`: `null` unless `value` is a number
other than `NaN`, else `Math.max(0, Math.min(max, Math.round(value)))`. -/
def clampMarks (value : JVal) (max : JNum) : Option JNum :=
  match value with
  | .num n =>
    if n = .nan then none
    else some (Math.max (.fin 0) (Math.min max (Math.round n)))
  | _ => none

/-! ## Tier 2: the external model -/

/-- The two marking modes; anything but `"explain"` in the request is `mark`. -/
inductive Mode where
  | mark
  | explain
  deriving DecidableEq

/-- The expression `body.mode === "explain" ? "explain" : "mark"`. -/
def modeOf : JVal → Mode
  | .str s => if s = "explain" then .explain else .mark
  | _ => .mark

/-- A row of `questions` as `handleCreateAttempt` selects it. -/
structure Question where
  id : Nat
  text : String
  marking_scheme : String
  max_marks : JNum

/-- Outcome of the single outbound `fetch`: the call rejects, or it answers
with `resp.ok` false, or with `resp.ok` true and a body that `resp.json()`
either fails to read (`none`) or reads as `data`. -/
inductive FetchResult where
  | rejected
  | notOk (status : Nat)
  | ok (data : Option JVal)

/-- The part of the worker environment the evaluator reads: the credential
(`none` when not configured) and the behaviour of `fetch` on a request URL and
prompt (the request body is a fixed JSON envelope around the prompt). -/
structure Env where
  GOOGLE_API_KEY : Option String
  fetch : String → String → FetchResult

/-- The object `maybeRunGemini` returns when it does not return `null`. -/
structure AiFeedback where
  marksAwarded : Option JNum
  summary : JVal
  steps : List String

/-- The function `buildGeminiPrompt`. -/
def buildGeminiPrompt (mode : Mode) (question : Question) (answerText : String) : String :=
  let instructions :=
    if mode = .mark then
      "Score the learner\x27s answer for a Leaving Cert maths question.\n" ++
      "Return JSON with keys: marks_awarded (integer 0-" ++ question.max_marks.toStr ++
      "), summary (1-2 calm sentences), and steps (array of 3-6 short bullet points).\n" ++
      "Keep the tone factual and supportive."
    else
      "Give a short walkthrough for a Leaving Cert maths question.\n" ++
      "Return JSON with keys: summary (1-2 calm sentences) and steps (array of 3-6 short bullet points)."
  let markingScheme :=
    if question.marking_scheme ≠ "" then "Marking scheme: " ++ question.marking_scheme else ""
  instructions ++ "\n\nQuestion (max " ++ question.max_marks.toStr ++ " marks): " ++
    question.text ++ "\n" ++ markingScheme ++ "\n\nLearner answer:\n" ++ answerText

/-- The callback of `parts.map` in `extractGeminiText`: `p.text` when it is a
string, else the empty string; `none` when reading `p.text` throws. -/
def partText (p : JVal) : Option String :=
  (p.prop? "text").map fun t =>
    match t with
    | .str s => s
    | _ => ""

/-- The call `parts.map(...)` in `extractGeminiText`, left to right; `none`
as soon as the callback throws. -/
def partTexts : List JVal → Option (List String)
  | [] => some []
  | p :: ps =>
    match partText p with
    | none => none
    | some t => (partTexts ps).map fun ts => t :: ts

/-- The function `extractGeminiText`; `none` when it throws. -/
def extractGeminiText (data : JVal) : Option String :=
  match (((data.optProp "candidates").optIdx 0).optProp "content").optProp "parts" with
  | .arr parts => (partTexts parts).map fun texts => jsTrim ("\n".intercalate texts)
  | _ => some ""

/-- The character that opens a JSON object. -/
def openBrace : Char := Char.ofNat 123

/-- The character that closes a JSON object. -/
def closeBrace : Char := Char.ofNat 125

/-- The match of the regular expression `\{[\s\S]*\}` in a text: it starts at
the first opening brace and, the star being greedy, ends at the last closing
brace after it; there is no match when no closing brace follows. -/
def matchBraces (cs : List Char) : Option (List Char) :=
  match cs.dropWhile (fun c => c != openBrace) with
  | [] => none
  | c :: rest =>
    match (rest.reverse.dropWhile (fun d => d != closeBrace)).reverse with
    | [] => none
    | body => some (c :: body)

/-- The function `parseGeminiFeedback`, over the platform parser `parse`
(`JSON.parse`, `none` when it throws). -/
def parseGeminiFeedback (parse : String → Option JVal) (text : String) : Option JVal :=
  if text = "" then none
  else
    match matchBraces text.toList with
    | none => none
    | some m => parse (String.mk m)

/-- The callback of `filter` on the steps: a string whose trimmed form is not
empty is kept as it is, anything else is dropped. -/
def keepStep : JVal → Option String
  | .str s => if jsTrim s ≠ "" then some s else none
  | _ => none

/-- The expression for `steps` in `maybeRunGemini`:
`Array.isArray(v) ? v.slice(0, 6).filter(...) : []`. -/
def validSteps : JVal → List String
  | .arr items => (items.take 6).filterMap keepStep
  | _ => []

/-- The endpoint of the external model. -/
def geminiUrl : String :=
  "https://generativelanguage.googleapis.com/v1beta/models/gemini-1.5-flash-latest:generateContent"

/-- The function `maybeRunGemini`; `none` is its `null`.  Every exception
inside the `try` block ends in the `catch`, which returns `null`. -/
def maybeRunGemini (parse : String → Option JVal) (env : Env) (mode : Mode)
    (question : Question) (answerText : String) : Option AiFeedback :=
  match env.GOOGLE_API_KEY with
  | none => none
  | some key =>
    if key = "" then none
    else
      let prompt := buildGeminiPrompt mode question answerText
      match env.fetch (geminiUrl ++ "?key=" ++ key) prompt with
      | .rejected => none
      | .notOk _ => none
      | .ok none => none
      | .ok (some data) =>
        match extractGeminiText data with
        | none => none
        | some text =>
          match parseGeminiFeedback parse text with
          | none => none
          | some parsed =>
            if !parsed.truthy then none
            else
              some {
                marksAwarded :=
                  if mode = .mark then clampMarks (parsed.getProp "marks_awarded") question.max_marks
                  else none
                summary := (parsed.getProp "summary").or (parsed.getProp "comment")
                steps := validSteps (parsed.getProp "steps") }

/-! ## Tier 1 and the final result, from `handleCreateAttempt` -/

/-- The record `feedback` that is stored and returned. -/
structure Feedback where
  scoreText : String
  summary : JVal
  steps : List String

/-- What `handleCreateAttempt` computes between loading the question and
writing the attempt: the `marksAwarded` it binds into the insert and the
`feedback` it serialises and returns. -/
structure Evaluation where
  marksAwarded : Option JNum
  feedback : Feedback

/-- The expression `Math.min(answerText.length / 120, 1)`, the quotient being
a binary64 value. -/
def lengthScore (answerText : String) : JNum :=
  Math.min (binary64 ((jsLength answerText : ℚ) / 120)) (.fin 1)

/-- The first value of `marksAwarded`:
`mode === "mark" ? Math.round(question.max_marks * lengthScore) : null`. -/
def tier1Marks (mode : Mode) (question : Question) (answerText : String) : Option JNum :=
  if mode = .mark then some (Math.round (question.max_marks.mul (lengthScore answerText)))
  else none

/-- The first value of `feedback`, built from the first `marksAwarded`. -/
def tier1Feedback (mode : Mode) (question : Question) (marksAwarded : Option JNum) : Feedback where
  scoreText :=
    match mode, marksAwarded with
    | .mark, some m => m.toStr ++ "/" ++ question.max_marks.toStr
    | _, _ => "Explanation only"
  summary :=
    if mode = .mark then
      .str "This prototype gives a rough score based on how complete your answer looks."
    else .str "Here is a straightforward outline of how to approach the question."
  steps :=
    [ "State what the question is asking you to find.",
      "Write down the key formula or relationship you will use.",
      "Substitute in the values and simplify carefully.",
      "Check that your final answer makes sense." ]

/-- The reassignment under `if (aiFeedback)`: the new `feedback` and the new
`marksAwarded` (`aiFeedback.marksAwarded ?? marksAwarded`). -/
def applyAiFeedback (question : Question) (ai : AiFeedback) (marksAwarded : Option JNum)
    (feedback : Feedback) : Evaluation where
  marksAwarded :=
    match ai.marksAwarded with
    | some m => some m
    | none => marksAwarded
  feedback :=
    { scoreText :=
        match ai.marksAwarded with
        | some m => m.toStr ++ "/" ++ question.max_marks.toStr
        | none => "Explanation only"
      summary := ai.summary.or feedback.summary
      steps := if ai.steps.length ≠ 0 then ai.steps else feedback.steps }

/-- The evaluation in `handleCreateAttempt`: Tier 1 first, then the optional
override by what `maybeRunGemini` returns. -/
def evaluateAttempt (parse : String → Option JVal) (env : Env) (mode : Mode)
    (question : Question) (answerText : String) : Evaluation :=
  let marksAwarded := tier1Marks mode question answerText
  let feedback := tier1Feedback mode question marksAwarded
  match maybeRunGemini parse env mode question answerText with
  | some ai => applyAiFeedback question ai marksAwarded feedback
  | none => { marksAwarded := marksAwarded, feedback := feedback }

/-! ## Vocabulary of the specification -/

/-- The request URL `maybeRunGemini` builds for a credential. -/
def requestUrl (key : String) : String := geminiUrl ++ "?key=" ++ key

/-- The ways Tier 2 is unavailable: no credential (unset or empty), the call
rejects, the response is not ok, reading the body throws, extracting the text
throws, or the text holds no JSON object that `parseGeminiFeedback` can return. -/
inductive Tier2Unavailable (parse : String → Option JVal) (env : Env) (mode : Mode)
    (question : Question) (answerText : String) : Prop where
  | noKey : env.GOOGLE_API_KEY = none → Tier2Unavailable parse env mode question answerText
  | emptyKey : env.GOOGLE_API_KEY = some "" → Tier2Unavailable parse env mode question answerText
  | fetchThrows (key : String) :
      env.GOOGLE_API_KEY = some key →
      env.fetch (requestUrl key) (buildGeminiPrompt mode question answerText) = .rejected →
      Tier2Unavailable parse env mode question answerText
  | notOk (key : String) (status : Nat) :
      env.GOOGLE_API_KEY = some key →
      env.fetch (requestUrl key) (buildGeminiPrompt mode question answerText) = .notOk status →
      Tier2Unavailable parse env mode question answerText
  | bodyThrows (key : String) :
      env.GOOGLE_API_KEY = some key →
      env.fetch (requestUrl key) (buildGeminiPrompt mode question answerText) = .ok none →
      Tier2Unavailable parse env mode question answerText
  | extractThrows (key : String) (data : JVal) :
      env.GOOGLE_API_KEY = some key →
      env.fetch (requestUrl key) (buildGeminiPrompt mode question answerText) = .ok (some data) →
      extractGeminiText data = none →
      Tier2Unavailable parse env mode question answerText
  | noJson (key : String) (data : JVal) (text : String) :
      env.GOOGLE_API_KEY = some key →
      env.fetch (requestUrl key) (buildGeminiPrompt mode question answerText) = .ok (some data) →
      extractGeminiText data = some text →
      parseGeminiFeedback parse text = none →
      Tier2Unavailable parse env mode question answerText

/-- Tier 2 yields the parsed object `parsed`: a credential is configured, the
call answers ok with a readable body, and the text extracted from it parses to
`parsed`, a truthy value. -/
def Tier2Yields (parse : String → Option JVal) (env : Env) (mode : Mode)
    (question : Question) (answerText : String) (parsed : JVal) : Prop :=
  ∃ key data text,
    env.GOOGLE_API_KEY = some key ∧ key ≠ "" ∧
    env.fetch (requestUrl key) (buildGeminiPrompt mode question answerText) = .ok (some data) ∧
    extractGeminiText data = some text ∧
    parseGeminiFeedback parse text = some parsed ∧
    parsed.truthy = true

/-- The string of a step entry, trimmed; `none` for an entry that is not a string. -/
def trimmedString : JVal → Option String
  | .str s => some (jsTrim s)
  | _ => none

/-- Steps validation as the specification words it: keep only the string
entries, trim each, drop the empty ones, then keep the first 6. -/
def specSteps (items : List JVal) : List String :=
  ((items.filterMap trimmedString).filter fun s => decide (s ≠ "")).take 6

/-- The characters up to and including the closing brace that brings the
nesting depth `depth` back to zero; `none` when the text ends first. -/
def balancedPrefix : Nat → List Char → Option (List Char)
  | _, [] => none
  | depth, c :: cs =>
    if c = closeBrace then
      if depth ≤ 1 then some [c] else (balancedPrefix (depth - 1) cs).map fun b => c :: b
    else if c = openBrace then (balancedPrefix (depth + 1) cs).map fun b => c :: b
    else (balancedPrefix depth cs).map fun b => c :: b

/-- The first balanced `{...}` substring of a text, as the specification words
the extraction: the earliest opening brace that is closed, up to its closing brace. -/
def firstBalanced : List Char → Option (List Char)
  | [] => none
  | c :: cs =>
    if c = openBrace then
      match balancedPrefix 1 cs with
      | some b => some (c :: b)
      | none => firstBalanced cs
    else firstBalanced cs

/-! ## Sample data -/

/-- A question worth 10 marks. -/
def sampleQuestion : Question := ⟨1, "Solve 2x + 3 = 11.", "x = 4", .fin 10⟩

/-- An answer of 60 characters. -/
def sampleAnswer : String := String.mk (List.replicate 60 (Char.ofNat 120))

/-- An environment with no credential configured. -/
def envNoKey : Env := ⟨none, fun _ _ => .rejected⟩

/-- The response payload of the external model carrying one text part. -/
def geminiPayload (text : String) : JVal :=
  .obj [("candidates", .arr [.obj [("content", .obj [("parts", .arr [.obj [("text", .str text)]])])]])]

/-- An environment with a credential whose call answers ok with `text`. -/
def envAnswering (text : String) : Env := ⟨some "k", fun _ _ => .ok (some (geminiPayload text))⟩

/-- A stand-in for `JSON.parse` that reads exactly one text as one value. -/
def parseOnly (source : String) (value : JVal) : String → Option JVal :=
  fun s => if s = source then some value else none

/-- A model reply holding an object with a summary only. -/
def summaryOnlyText : String := "\x7b\"summary\":\"Good start.\"\x7d"

/-- The value `JSON.parse` gives for `summaryOnlyText`. -/
def summaryOnlyValue : JVal := .obj [("summary", .str "Good start.")]

/-- A model reply holding an object with a comment only. -/
def commentOnlyText : String := "\x7b\"comment\":\"Check the sign.\"\x7d"

/-- The value `JSON.parse` gives for `commentOnlyText`. -/
def commentOnlyValue : JVal := .obj [("comment", .str "Check the sign.")]

/-- A model reply holding an object with a mark above the maximum. -/
def overMarksText : String := "\x7b\"marks_awarded\":42\x7d"

/-- The value `JSON.parse` gives for `overMarksText`. -/
def overMarksValue : JVal := .obj [("marks_awarded", .num (.fin 42))]

/-- A model reply that wraps the object of `summaryOnlyText` in prose. -/
def wrappedText : String := "Sure: \x7b\"summary\":\"Good start.\"\x7d Hope it helps."

/-- A model reply with the object of `summaryOnlyText` followed by prose that
holds a second object. -/
def twoObjectsText : String := "\x7b\"summary\":\"Good start.\"\x7d and \x7b\"x\":1\x7d"

/-- A steps array of seven entries whose first is not a string and whose
second has surrounding blanks. -/
def sevenSteps : List JVal :=
  [.num (.fin 1), .str " a ", .str "b", .str "c", .str "d", .str "e", .str "f"]

/-! ## Conversions -/

mutual
/-- The conversion `String(v)`: numbers print as in a template literal, an
array joins the conversions of its entries with commas (`null` and `undefined`
entries as empty text), any other object is `[object Object]`. -/
def jsString : JVal → String
  | .undefined => "undefined"
  | .null => "null"
  | .bool b => if b then "true" else "false"
  | .num n => n.toStr
  | .str s => s
  | .arr items => ",".intercalate (jsStringItems items)
  | .obj _ => "[object Object]"
/-- The texts of the entries of an array, as `Array.prototype.join` takes them. -/
def jsStringItems : List JVal → List String
  | [] => []
  | .undefined :: rest => "" :: jsStringItems rest
  | .null :: rest => "" :: jsStringItems rest
  | v :: rest => jsString v :: jsStringItems rest
end

/-- The value of a decimal digit character, `none` for any other character. -/
def decimalDigit (c : Char) : Option Nat :=
  if 48 ≤ c.toNat ∧ c.toNat ≤ 57 then some (c.toNat - 48) else none

/-- The value of a digit character in a base up to 16, `none` when it is not
a digit of that base. -/
def digitInBase (base : Nat) (c : Char) : Option Nat :=
  let n := c.toNat
  let v :=
    if 48 ≤ n ∧ n ≤ 57 then some (n - 48)
    else if 97 ≤ n ∧ n ≤ 102 then some (n - 87)
    else if 65 ≤ n ∧ n ≤ 70 then some (n - 55)
    else none
  v.bind fun d => if d < base then some d else none

/-- The number written by a non-empty run of digits of a base; `none` when
the run is empty or holds another character. -/
def digitsValue (base : Nat) (cs : List Char) : Option Nat :=
  if cs = [] then none
  else cs.foldl (fun acc c => acc.bind fun n => (digitInBase base c).map fun d => base * n + d)
    (some 0)

/-- The exponent part after `e` or `E`: an optional sign and digits. -/
def exponentValue : List Char → Option ℤ
  | [] => none
  | c :: cs =>
    if c = Char.ofNat 43 then (digitsValue 10 cs).map fun n => (n : ℤ)
    else if c = Char.ofNat 45 then (digitsValue 10 cs).map fun n => -(n : ℤ)
    else (digitsValue 10 (c :: cs)).map fun n => (n : ℤ)

/-- An unsigned decimal literal: digits, an optional fraction, an optional
exponent, with at least one digit before the exponent. -/
def unsignedDecimal (cs : List Char) : Option ℚ :=
  let isDigit := fun c : Char => (decimalDigit c).isSome
  let ip := cs.takeWhile isDigit
  let r1 := cs.dropWhile isDigit
  let fp := if r1.head? = some (Char.ofNat 46) then r1.tail.takeWhile isDigit else []
  let r2 := if r1.head? = some (Char.ofNat 46) then r1.tail.dropWhile isDigit else r1
  if ip = [] ∧ fp = [] then none
  else
    let mant : ℚ :=
      ((digitsValue 10 ip).getD 0 : ℚ) + ((digitsValue 10 fp).getD 0 : ℚ) / (10 : ℚ) ^ fp.length
    match r2 with
    | [] => some mant
    | e :: t =>
      if e = Char.ofNat 101 ∨ e = Char.ofNat 69 then
        (exponentValue t).map fun k => mant * (10 : ℚ) ^ k
      else none

/-- A signed decimal literal or a signed `Infinity`. -/
def signedDecimal (cs : List Char) : JNum :=
  let neg := cs.head? = some (Char.ofNat 45)
  let body := if cs.head? = some (Char.ofNat 45) ∨ cs.head? = some (Char.ofNat 43) then cs.tail else cs
  if body = "Infinity".toList then (if neg then .negInf else .posInf)
  else
    match unsignedDecimal body with
    | some q => .fin (if neg then -q else q)
    | none => .nan

/-- The exact value a text denotes as a numeric literal: white space is
trimmed, the empty text is `0`, then a `0x`, `0o` or `0b` integer or a signed
decimal literal is read; anything else is `NaN`. -/
def numericLiteral (s : String) : JNum :=
  let cs := trimChars s.toList
  match cs with
  | [] => .fin 0
  | a :: b :: rest =>
    if a = Char.ofNat 48 ∧ (b = Char.ofNat 120 ∨ b = Char.ofNat 88) then
      match digitsValue 16 rest with
      | some n => .fin n
      | none => .nan
    else if a = Char.ofNat 48 ∧ (b = Char.ofNat 111 ∨ b = Char.ofNat 79) then
      match digitsValue 8 rest with
      | some n => .fin n
      | none => .nan
    else if a = Char.ofNat 48 ∧ (b = Char.ofNat 98 ∨ b = Char.ofNat 66) then
      match digitsValue 2 rest with
      | some n => .fin n
      | none => .nan
    else signedDecimal cs
  | _ => signedDecimal cs

/-- The conversion of a string to a number: the binary64 value of the literal
it denotes. -/
def stringToNumber (s : String) : JNum := (numericLiteral s).toBinary64

/-- The conversion `Number(v)`. -/
def jsNumber : JVal → JNum
  | .undefined => .nan
  | .null => .fin 0
  | .bool b => if b then .fin 1 else .fin 0
  | .num n => n
  | .str s => stringToNumber s
  | v => stringToNumber (jsString v)

/-- The method `String.prototype.includes`. -/
def jsIncludes (s sub : String) : Bool :=
  s.toList.tails.any fun t => sub.toList.isPrefixOf t

/-! ## The store

The tables of the D1 database.  The schema is not among the sources; it is
taken from the statements the worker issues and from the data model of the
specification. -/

/-- A row of `users`. -/
structure UserRow where
  id : Nat
  email : String
  password_hash : String
  is_admin : Bool
  deriving DecidableEq

/-- A row of `sessions`. -/
structure SessionRow where
  id : String
  user_id : Nat
  deriving DecidableEq

/-- A row of `topics`. -/
structure TopicRow where
  id : Nat
  title : String
  slug : String
  level : String
  paper : JNum
  order_index : JNum
  notes_html : String
  deriving DecidableEq

/-- A row of `questions`. -/
structure QuestionRow where
  id : Nat
  topic_id : JNum
  text : String
  marking_scheme : String
  max_marks : JNum
  source_ref : Option String
  deriving DecidableEq

/-- A row of `attempts`; `created_at` is set by the store when the row is
inserted. -/
structure AttemptRow where
  id : Nat
  user_id : Nat
  question_id : Nat
  answer_text : String
  marks_awarded : Option JNum
  feedback_json : String
  created_at : Nat
  deriving DecidableEq

/-- Modelled from the spec: the relational store behind `env.DB`, whose schema
is not among the sources.  Row ids are assigned by the store; `users.email`,
`sessions.id` and `topics.slug` are unique. -/
structure Store where
  users : List UserRow
  sessions : List SessionRow
  topics : List TopicRow
  questions : List QuestionRow
  attempts : List AttemptRow
  deriving DecidableEq

/-- Modelled from the platform: the object `run()` of the D1 client resolves to
after an insert.  The id of the new row is under `meta.last_row_id` (the other
fields of `meta` are left out); there is no property `lastInsertRowid`. -/
def d1RunResult (lastRowId : Nat) : JVal :=
  .obj [("success", .bool true),
    ("meta", .obj [("last_row_id", .num (.fin lastRowId)), ("changes", .num (.fin 1))]),
    ("results", .arr [])]

/-- The test `bind` of the D1 client makes on an entry of an array: a number
from 0 up to, not including, 256. -/
def isByteValue : JVal → Bool
  | .num (.fin q) => decide (0 ≤ q ∧ q < 256)
  | _ => false

/-- Modelled from the platform: the text of the exception `bind` of the D1
client throws for a value it cannot bind, `none` when it takes the value.  It
takes numbers, strings, booleans, `null` and arrays of byte values; it refuses
`undefined` and every other object with a `D1_TYPE_ERROR`. -/
def d1BindError (v : JVal) : Option String :=
  match v with
  | .undefined =>
    some "Error: D1_TYPE_ERROR: Type 'undefined' not supported for value 'undefined'"
  | .obj _ =>
    some "Error: D1_TYPE_ERROR: Type 'object' not supported for value '[object Object]'"
  | .arr items =>
    if items.all isByteValue then none
    else some ("Error: D1_TYPE_ERROR: Type 'object' not supported for value '" ++
      jsString v ++ "'")
  | _ => none

/-- The number a bound value is in a numeric column: a number as it is, a
boolean as 0 or 1; `NULL` and values that are no number are `NaN` here, which
equals no key. -/
def boundNumber : JVal → JNum
  | .num n => n
  | .bool b => if b then .fin 1 else .fin 0
  | _ => .nan

/-- The row id a bound value is in a key column: the natural number it equals,
and 0, which is below every id the store assigns, when it equals none. -/
def boundRowId (v : JVal) : Nat :=
  match boundNumber v with
  | .fin q => if q = ((Rat.floor q).toNat : ℚ) then (Rat.floor q).toNat else 0
  | _ => 0

/-- The row id the store gives the next inserted row: one above the largest
id in the table. -/
def nextId (ids : List Nat) : Nat := ids.foldl Nat.max 0 + 1

/-- Modelled from the spec: `INSERT INTO users (email, password_hash)`, with
`is_admin` at its default; fails on a duplicate email.  On success the new
store and the id of the new row. -/
def Store.insertUser (db : Store) (email hash : String) : Except String (Store × Nat) :=
  if db.users.any (fun u => u.email = email) then
    .error "Error: UNIQUE constraint failed: users.email"
  else
    let id := nextId (db.users.map fun u => u.id)
    .ok ({ db with users := db.users ++ [⟨id, email, hash, false⟩] }, id)

/-- Modelled from the spec: `INSERT INTO sessions (id, user_id)`; fails on a
duplicate session id. -/
def Store.insertSession (db : Store) (id : String) (userId : Nat) : Except String Store :=
  if db.sessions.any (fun s => s.id = id) then
    .error "Error: UNIQUE constraint failed: sessions.id"
  else .ok { db with sessions := db.sessions ++ [⟨id, userId⟩] }

/-- The statement `INSERT INTO sessions (id, user_id)` with a JavaScript value
bound as the user id: `bind` throws for a value it cannot bind. -/
def Store.insertSessionFor (db : Store) (id : String) (userId : JVal) : Except String Store :=
  match d1BindError userId with
  | some err => .error err
  | none => db.insertSession id (boundRowId userId)

/-- Modelled from the spec: `INSERT INTO topics (...)`; fails on a duplicate
slug.  On success the new store and the id of the new row. -/
def Store.insertTopic (db : Store) (title slug level : String) (paper orderIndex : JNum)
    (notesHtml : String) : Except String (Store × Nat) :=
  if db.topics.any (fun t => t.slug = slug) then
    .error "Error: UNIQUE constraint failed: topics.slug"
  else
    let id := nextId (db.topics.map fun t => t.id)
    .ok ({ db with topics := db.topics ++ [⟨id, title, slug, level, paper, orderIndex, notesHtml⟩] },
      id)

/-- The statement `INSERT INTO questions (...)`.  A `NaN` bound as a number
reaches the store as `NULL`, which a row holds as `NaN`; whether the table
takes a `NULL` there depends on the schema, which is not among the sources. -/
def Store.insertQuestion (db : Store) (topicId : JNum) (text markingScheme : String)
    (maxMarks : JNum) (sourceRef : Option String) : Store :=
  { db with
    questions := db.questions ++
      [⟨nextId (db.questions.map fun q => q.id), topicId, text, markingScheme, maxMarks, sourceRef⟩] }

/-- The statement `INSERT INTO attempts (...)`, the store stamping the row
with the time `now`. -/
def Store.insertAttempt (db : Store) (userId questionId : Nat) (answerText : String)
    (marksAwarded : Option JNum) (feedbackJson : String) (now : Nat) : Store :=
  { db with
    attempts := db.attempts ++
      [⟨nextId (db.attempts.map fun a => a.id), userId, questionId, answerText, marksAwarded,
        feedbackJson, now⟩] }

/-! ## Requests, responses and platform services -/

/-- What a handler reads of a request: the `Cookie` header (`none` when
absent) and the result of `request.json()` (`none` when it rejects). -/
structure Request where
  cookie : Option String
  body : Option JVal

/-- A response: status, the value serialised as the JSON body, and the
`Set-Cookie` header when there is one. -/
structure Response where
  status : Nat
  body : JVal
  setCookie : Option String

/-- The services of the platform a handler calls: `JSON.parse` (`none` when
it throws), `JSON.stringify`, the SHA-256 hex digest of `hashPassword`,
`String.prototype.toLowerCase`, the value `crypto.randomUUID()` returns during
the request, and the time the store stamps on rows inserted by the request. -/
structure Platform where
  parse : String → Option JVal
  stringify : JVal → String
  hashPassword : String → String
  toLowerCase : String → String
  randomUUID : String
  now : Nat

/-- The function `json(body, status)`. -/
def json (body : JVal) (status : Nat) : Response := ⟨status, body, none⟩

/-- The body `{ error: message }`. -/
def errorBody (message : String) : JVal := .obj [("error", .str message)]

/-- The body `{ ok: true }`. -/
def okBody : JVal := .obj [("ok", .bool true)]

/-! ## Sessions -/

/-- The literal part of the session pattern. -/
def sessionKey : List Char := "session_id=".toList

/-- The capture group of the regular expression `session_id=([^;]+)` on a
text: at the first place where the literal is followed by at least one
character other than a semicolon, the longest run of such characters. -/
def matchSessionId : List Char → Option (List Char)
  | [] => none
  | c :: cs =>
    if sessionKey.isPrefixOf (c :: cs) then
      match ((c :: cs).drop sessionKey.length).takeWhile (fun d => d != Char.ofNat 59) with
      | [] => matchSessionId cs
      | tok => some tok
    else matchSessionId cs

/-- The row `getUserFromSession` selects: `users.id, users.email, users.is_admin`. -/
structure SessionUser where
  id : Nat
  email : String
  is_admin : Bool
  deriving DecidableEq

/-- The first row of `sessions JOIN users ON users.id = sessions.user_id
WHERE sessions.id = ?`. -/
def Store.sessionUser (db : Store) (sessionId : String) : Option SessionUser :=
  ((db.sessions.filter fun s => s.id = sessionId).flatMap fun s =>
    (db.users.filter fun u => u.id = s.user_id).map fun u =>
      (⟨u.id, u.email, u.is_admin⟩ : SessionUser)).head?

/-- The function `getUserFromSession`; `none` is its `null`. -/
def getUserFromSession (db : Store) (request : Request) : Option SessionUser :=
  let cookie := request.cookie.getD ""
  match matchSessionId cookie.toList with
  | none => none
  | some tok => db.sessionUser (String.mk tok)

/-- The value of the header `setSessionCookie` appends. -/
def setSessionCookie (sessionId : String) : String :=
  "session_id=" ++ sessionId ++ "; HttpOnly; Path=/; SameSite=Lax"

/-- The value of the header `clearSessionCookie` appends. -/
def clearSessionCookie : String := "session_id=; HttpOnly; Path=/; Max-Age=0; SameSite=Lax"

/-- The JSON form of a session user; `is_admin` is the stored 0 or 1. -/
def SessionUser.toJVal (u : SessionUser) : JVal :=
  .obj [("id", .num (.fin u.id)), ("email", .str u.email),
    ("is_admin", .num (.fin (if u.is_admin then 1 else 0)))]

/-- The function `handleMe`. -/
def handleMe (db : Store) (request : Request) : Response :=
  match getUserFromSession db request with
  | some user => json (.obj [("user", user.toJVal)]) 200
  | none => json (.obj [("user", .null)]) 200

/-- The `catch` branch of `handleRegister`. -/
def registerFailure (err : String) : Response :=
  if jsIncludes err "UNIQUE" then json (errorBody "An account with that email already exists.") 409
  else json (errorBody "Could not create account.") 500

/-- The function `handleRegister`: the response and the store it leaves.  The
user id bound into the session insert is `result.lastInsertRowid`, read off
the object `run()` resolved to; both inserts are inside the `try`. -/
def handleRegister (P : Platform) (db : Store) (request : Request) : Response × Store :=
  match request.body with
  | none => (json (errorBody "Email and password are required.") 400, db)
  | some body =>
    if !body.truthy || !(body.getProp "email").truthy || !(body.getProp "password").truthy then
      (json (errorBody "Email and password are required.") 400, db)
    else
      let email := P.toLowerCase (jsTrim (jsString (body.getProp "email")))
      let password := jsString (body.getProp "password")
      if email = "" || decide (jsLength password < 6) then
        (json (errorBody "Please provide a valid email and a password of 6+ characters.") 400, db)
      else
        let hash := P.hashPassword password
        match db.insertUser email hash with
        | .error err => (registerFailure err, db)
        | .ok (db1, rowId) =>
          let result := d1RunResult rowId
          let userId := result.getProp "lastInsertRowid"
          match db1.insertSessionFor P.randomUUID userId with
          | .error err => (registerFailure err, db1)
          | .ok db2 => (⟨200, okBody, some (setSessionCookie P.randomUUID)⟩, db2)

/-- The first row of `SELECT id, email, password_hash, is_admin FROM users
WHERE email = ?`. -/
def Store.userByEmail (db : Store) (email : String) : Option UserRow :=
  (db.users.filter fun u => u.email = email).head?

/-- The answer of the platform when an exception leaves a handler. -/
def unhandledException : Response := ⟨500, .undefined, none⟩

/-- The function `handleLogin`.  The session insert is outside any `try`: when
it fails the exception leaves the handler. -/
def handleLogin (P : Platform) (db : Store) (request : Request) : Response × Store :=
  match request.body with
  | none => (json (errorBody "Email and password are required.") 400, db)
  | some body =>
    if !body.truthy || !(body.getProp "email").truthy || !(body.getProp "password").truthy then
      (json (errorBody "Email and password are required.") 400, db)
    else
      let email := P.toLowerCase (jsTrim (jsString (body.getProp "email")))
      let password := jsString (body.getProp "password")
      let hash := P.hashPassword password
      match db.userByEmail email with
      | none => (json (errorBody "Incorrect email or password.") 401, db)
      | some user =>
        if user.password_hash ≠ hash then
          (json (errorBody "Incorrect email or password.") 401, db)
        else
          match db.insertSession P.randomUUID user.id with
          | .error _ => (unhandledException, db)
          | .ok db1 => (⟨200, okBody, some (setSessionCookie P.randomUUID)⟩, db1)

/-- The function `handleLogout`: it receives the request only, not the store. -/
def handleLogout (_request : Request) : Response :=
  ⟨200, okBody, some clearSessionCookie⟩

/-! ## The catalogue -/

/-- The function `ensureSeedData`: the store it leaves, and the exception that
leaves it when a statement throws (`none` when it returns).  Nothing is done
when a topic exists; else the topic is inserted and the two questions are bound
to `result.lastInsertRowid`, read off the object `run()` resolved to. -/
def ensureSeedData (db : Store) : Store × Option String :=
  if !db.topics.isEmpty then (db, none)
  else
    match db.insertTopic "Algebra & Equations" "algebra-equations" "HL" (.fin 1) (.fin 1)
        "<p>This topic covers basic quadratic equations, factoring, and roots.</p>" with
    | .error err => (db, some err)
    | .ok (db1, rowId) =>
      let result := d1RunResult rowId
      let topicId := result.getProp "lastInsertRowid"
      match d1BindError topicId with
      | some err => (db1, some err)
      | none =>
        let db2 := db1.insertQuestion (boundNumber topicId)
          "Solve the quadratic equation 2x^2 - 3x - 5 = 0."
          "Award full marks for correctly finding both roots with clear working. Partial credit for one correct root or correct use of quadratic formula with minor algebra slips."
          (.fin 10) (some "Sample")
        match d1BindError topicId with
        | some err => (db2, some err)
        | none =>
          (db2.insertQuestion (boundNumber topicId)
            "Sketch the graph of f(x) = 2x^2 - 3x - 5, indicating roots and vertex."
            "Award marks for correct shape, intercepts, and vertex position. Partial credit for correct features but inaccurate scaling."
            (.fin 15) (some "Sample"), none)

/-- Position of a number in the order of `ORDER BY`: `NULL` (here `NaN`)
first, then the numbers from the least to the greatest. -/
def JNum.sqlLe : JNum → JNum → Bool
  | .nan, _ => true
  | _, .nan => false
  | .negInf, _ => true
  | _, .negInf => false
  | _, .posInf => true
  | .posInf, _ => false
  | .fin a, .fin b => decide (a ≤ b)

/-- The order `ORDER BY paper, order_index, id` on topics. -/
def topicLe (a b : TopicRow) : Bool :=
  if a.paper ≠ b.paper then a.paper.sqlLe b.paper
  else if a.order_index ≠ b.order_index then a.order_index.sqlLe b.order_index
  else decide (a.id ≤ b.id)

/-- The rows of `SELECT ... FROM topics ORDER BY paper, order_index, id`. -/
def Store.topicsOrdered (db : Store) : List TopicRow :=
  db.topics.insertionSort fun a b => topicLe a b = true

/-- A row of the aggregate over attempts in `handleTopics`.  The column
`avg_pct` of the statement is never read and is left out. -/
structure AggRow where
  topic_id : JNum
  attempted_questions : Nat
  deriving DecidableEq

/-- The rows of `attempts JOIN questions ON questions.id = attempts.question_id`
as pairs of `topic_id` and `question_id`. -/
def Store.attemptTopics (db : Store) : List (JNum × Nat) :=
  db.attempts.flatMap fun a =>
    (db.questions.filter fun q => q.id = a.question_id).map fun q => (q.topic_id, a.question_id)

/-- The rows of `SELECT topic_id, COUNT(DISTINCT question_id) ... GROUP BY topic_id`. -/
def Store.attemptsAgg (db : Store) : List AggRow :=
  (db.attemptTopics.map Prod.fst).dedup.map fun t =>
    ⟨t, ((db.attemptTopics.filter fun r => r.1 = t).map Prod.snd).dedup.length⟩

/-- The expression `stats.attempted_questions || 0` with
`stats = statsByTopic.get(t.id) || {}`; a later row of the same key replaces
an earlier one in the map. -/
def attemptedQuestions (agg : List AggRow) (topicId : Nat) : Nat :=
  match (agg.filter fun r => r.topic_id = .fin topicId).getLast? with
  | some r => r.attempted_questions
  | none => 0

/-- The value `questionsCount.c` of `SELECT COUNT(*) FROM questions WHERE topic_id = ?`. -/
def Store.questionsCount (db : Store) (topicId : Nat) : Nat :=
  (db.questions.filter fun q => q.topic_id = .fin topicId).length

/-- The value `completedPct` of a topic in `handleTopics`:
`Math.round(((stats.attempted_questions || 0) / questionsCount.c) * 100)` when
there is a question, else 0; the quotient and the product are binary64 values. -/
def completedPct (db : Store) (topicId : Nat) : JNum :=
  if db.questionsCount topicId ≠ 0 then
    Math.round ((binary64 ((attemptedQuestions db.attemptsAgg topicId : ℚ) /
      db.questionsCount topicId)).mul (.fin 100))
  else .fin 0

/-- The entry `handleTopics` pushes for a topic. -/
def topicWithStats (db : Store) (t : TopicRow) : JVal :=
  .obj [("id", .num (.fin t.id)), ("title", .str t.title), ("slug", .str t.slug),
    ("level", .str t.level), ("paper", .num t.paper), ("completedPct", .num (completedPct db t.id))]

/-- The text `summaryText` of `handleTopics`. -/
def topicsSummaryText (n : Nat) : String :=
  if n > 0 then
    "You have " ++ toString n ++ " topic" ++ (if n > 1 then "s" else "") ++ " to explore."
  else "No topics yet."

/-- The function `handleTopics`: the response and the store it leaves.  An
exception of `ensureSeedData` is not caught and leaves the handler. -/
def handleTopics (db : Store) (request : Request) : Response × Store :=
  match getUserFromSession db request with
  | none => (json (errorBody "Unauthorised") 401, db)
  | some _ =>
    match ensureSeedData db with
    | (db1, some _) => (unhandledException, db1)
    | (db1, none) =>
      let topicsWithStats := db1.topicsOrdered.map (topicWithStats db1)
      (json (.obj [("topics", .arr topicsWithStats),
          ("summaryText", .str (topicsSummaryText topicsWithStats.length))]) 200, db1)

/-- The first row of `SELECT ... FROM topics WHERE slug = ?`. -/
def Store.topicBySlug (db : Store) (slug : String) : Option TopicRow :=
  (db.topics.filter fun t => t.slug = slug).head?

/-- The rows of `SELECT id, text, max_marks FROM questions WHERE topic_id = ?
ORDER BY id`. -/
def Store.questionsOfTopic (db : Store) (topicId : JNum) : List QuestionRow :=
  (db.questions.filter fun q => q.topic_id = topicId).insertionSort fun a b => a.id ≤ b.id

/-- The aggregate `MAX` on two values, `NULL` being skipped. -/
def sqlMax : Option JNum → Option JNum → Option JNum
  | none, b => b
  | a, none => a
  | some a, some b => some (Math.max a b)

/-- A row of the per-question aggregate in `handleTopicDetail`. -/
structure LastRow where
  question_id : Nat
  last_time : Nat
  last_mark : Option JNum
  deriving DecidableEq

/-- The attempts of a user on the questions of a topic: `WHERE user_id = ? AND
question_id IN (SELECT id FROM questions WHERE topic_id = ?)`. -/
def Store.attemptsInTopic (db : Store) (userId topicId : Nat) : List AttemptRow :=
  db.attempts.filter fun a =>
    decide (a.user_id = userId) &&
      db.questions.any fun q => decide (q.topic_id = .fin topicId) && decide (q.id = a.question_id)

/-- The rows of `SELECT question_id, MAX(created_at) as last_time,
MAX(marks_awarded) as last_mark ... GROUP BY question_id`. -/
def Store.attemptedRows (db : Store) (userId topicId : Nat) : List LastRow :=
  ((db.attemptsInTopic userId topicId).map fun a => a.question_id).dedup.map fun qid =>
    let group := (db.attemptsInTopic userId topicId).filter fun a => a.question_id = qid
    ⟨qid, (group.map fun a => a.created_at).foldl Nat.max 0,
      (group.map fun a => a.marks_awarded).foldl sqlMax none⟩

/-- The value `lastMarkText` of a question: `null` unless the map holds a row
for it whose `last_mark` is not `null`. -/
def lastMarkText (rows : List LastRow) (q : QuestionRow) : JVal :=
  match (rows.filter fun r => r.question_id = q.id).getLast? with
  | some r =>
    match r.last_mark with
    | some m => .str (m.toStr ++ "/" ++ q.max_marks.toStr)
    | none => .null
  | none => .null

/-- The entries `handleTopicDetail` pushes for the questions, numbered from `idx`. -/
def questionsOut (rows : List LastRow) : Nat → List QuestionRow → List JVal
  | _, [] => []
  | idx, q :: qs =>
    .obj [("id", .num (.fin q.id)), ("text", .str q.text), ("max_marks", .num q.max_marks),
      ("displayNumber", .num (.fin idx)), ("lastMarkText", lastMarkText rows q)]
      :: questionsOut rows (idx + 1) qs

/-- The rows of `questions LEFT JOIN attempts ON attempts.question_id =
questions.id AND attempts.user_id = ? WHERE questions.topic_id = ?`: each
question with each of its attempts by the user, or once with no attempt. -/
def Store.statsJoin (db : Store) (userId topicId : Nat) : List (QuestionRow × Option AttemptRow) :=
  (db.questions.filter fun q => q.topic_id = .fin topicId).flatMap fun q =>
    match db.attempts.filter fun a => decide (a.question_id = q.id) && decide (a.user_id = userId) with
    | [] => [(q, none)]
    | as => as.map fun a => (q, some a)

/-- The expression `marks_awarded * 100.0 / max_marks` of the statements:
`NULL` when the mark is `NULL`, when `max_marks` is zero, or when an operand is
not a finite number. -/
def sqlPct : Option JNum → JNum → Option ℚ
  | some (.fin m), .fin M => if M = 0 then none else some (m * 100 / M)
  | _, _ => none

/-- The aggregate `AVG`: the mean of the values that are not `NULL`, `NULL`
when there is none. -/
def sqlAvg (vals : List (Option ℚ)) : Option ℚ :=
  match vals.filterMap id with
  | [] => none
  | xs => some (xs.sum / xs.length)

/-- The record `stats` of `handleTopicDetail`. -/
structure TopicStats where
  total : Nat
  attempted : Nat
  avgMarkPct : ℤ
  deriving DecidableEq

/-- The record `stats` computed from the statistics row: `COUNT(*)`,
`SUM(CASE WHEN marks_awarded IS NOT NULL THEN 1 ELSE 0 END)` and the rounded
`AVG`, each `0` when the column is `NULL` or zero. -/
def Store.topicStats (db : Store) (userId topicId : Nat) : TopicStats where
  total := (db.statsJoin userId topicId).length
  attempted :=
    ((db.statsJoin userId topicId).filter fun r =>
      match r.2 with
      | some a => a.marks_awarded.isSome
      | none => false).length
  avgMarkPct :=
    match sqlAvg ((db.statsJoin userId topicId).map fun r =>
        match r.2 with
        | some a => sqlPct a.marks_awarded r.1.max_marks
        | none => none) with
    | some avg => if avg = 0 then 0 else Math.roundQ avg
    | none => 0

/-- The JSON form of `stats`. -/
def TopicStats.toJVal (s : TopicStats) : JVal :=
  .obj [("total", .num (.fin s.total)), ("attempted", .num (.fin s.attempted)),
    ("avgMarkPct", .num (.fin s.avgMarkPct))]

/-- The function `handleTopicDetail`: the response and the store it leaves.  An
exception of `ensureSeedData` is not caught and leaves the handler. -/
def handleTopicDetail (db : Store) (request : Request) (slug : String) : Response × Store :=
  match getUserFromSession db request with
  | none => (json (errorBody "Unauthorised") 401, db)
  | some user =>
    match ensureSeedData db with
    | (db1, some _) => (unhandledException, db1)
    | (db1, none) =>
      match db1.topicBySlug slug with
      | none => (json (errorBody "Topic not found") 404, db1)
      | some topic =>
        let questions := db1.questionsOfTopic (.fin topic.id)
        let rows := db1.attemptedRows user.id topic.id
        (json (.obj [
            ("topic", .obj [("id", .num (.fin topic.id)), ("title", .str topic.title),
              ("slug", .str topic.slug), ("level", .str topic.level), ("paper", .num topic.paper),
              ("notesHtml", .str topic.notes_html)]),
            ("questions", .arr (questionsOut rows 1 questions)),
            ("stats", (db1.topicStats user.id topic.id).toJVal)]) 200, db1)

/-- The first row of `SELECT ... FROM questions WHERE id = ?` for a number. -/
def Store.questionByNumber (db : Store) (id : JNum) : Option QuestionRow :=
  (db.questions.filter fun q => JNum.fin q.id = id).head?

/-- The value `displayNumber` of `handleQuestionDetail`: the 1-based position
of the first sibling with the id of the question, 1 when there is none. -/
def displayNumber (siblings : List QuestionRow) (id : Nat) : Nat :=
  match siblings.findIdx? fun r => r.id = id with
  | some i => i + 1
  | none => 1

/-- The rows of `SELECT id, marks_awarded, created_at FROM attempts WHERE
user_id = ? AND question_id = ? ORDER BY created_at DESC LIMIT 3`. -/
def Store.recentAttempts (db : Store) (userId : Nat) (questionId : JNum) : List AttemptRow :=
  ((db.attempts.filter fun a =>
      decide (a.user_id = userId) && decide (JNum.fin a.question_id = questionId)).insertionSort
    fun a b => b.created_at ≤ a.created_at).take 3

/-- The JSON form of a row of recent attempts. -/
def attemptSummary (a : AttemptRow) : JVal :=
  .obj [("id", .num (.fin a.id)), ("marks_awarded", JVal.ofMark a.marks_awarded),
    ("created_at", .num (.fin a.created_at))]

/-- The function `handleQuestionDetail`, `id` being `Number` of the path
segment: the response and the store it leaves. -/
def handleQuestionDetail (db : Store) (request : Request) (id : JNum) : Response × Store :=
  match getUserFromSession db request with
  | none => (json (errorBody "Unauthorised") 401, db)
  | some user =>
    match db.questionByNumber id with
    | none => (json (errorBody "Question not found") 404, db)
    | some question =>
      let topic :=
        match (db.topics.filter fun t => JNum.fin t.id = question.topic_id).head? with
        | some t =>
          JVal.obj [("id", .num (.fin t.id)), ("title", .str t.title), ("level", .str t.level),
            ("paper", .num t.paper)]
        | none => .null
      let siblings := db.questionsOfTopic question.topic_id
      (json (.obj [
          ("question", .obj [("id", .num (.fin question.id)), ("text", .str question.text),
            ("max_marks", .num question.max_marks),
            ("displayNumber", .num (.fin (displayNumber siblings question.id)))]),
          ("topic", topic),
          ("attempts", .arr ((db.recentAttempts user.id id).map attemptSummary))]) 200, db)

/-! ## Attempts -/

/-- Whether a bound parameter equals an integer key in `WHERE id = ?`: a
number when it is that integer, a text when it reads as that integer, a boolean
as 0 or 1; `NULL` and a blob equal no key. -/
def sqlIdEq (param : JVal) (id : Nat) : Bool :=
  match param with
  | .num n => decide (n = .fin id)
  | .str s => decide (signedDecimal (trimChars s.toList) = .fin id)
  | .bool b => decide ((if b then 1 else 0) = id)
  | _ => false

/-- The first row of `SELECT id, text, marking_scheme, max_marks FROM questions
WHERE id = ?`. -/
def Store.questionById (db : Store) (param : JVal) : Option Question :=
  ((db.questions.filter fun q => sqlIdEq param q.id).map fun q =>
    (⟨q.id, q.text, q.marking_scheme, q.max_marks⟩ : Question)).head?

/-- The value `feedback` as it is serialised. -/
def Feedback.toJVal (f : Feedback) : JVal :=
  .obj [("scoreText", .str f.scoreText), ("summary", f.summary),
    ("steps", .arr (f.steps.map JVal.str))]

/-- The function `handleCreateAttempt`: the response and the store it leaves.
The question id is bound as the body gives it: when `bind` refuses it the
exception leaves the handler.  The values of the insert (two row ids, a
string, a number or `null`, a string) are all values `bind` takes. -/
def handleCreateAttempt (P : Platform) (env : Env) (db : Store) (request : Request) :
    Response × Store :=
  match getUserFromSession db request with
  | none => (json (errorBody "Unauthorised") 401, db)
  | some user =>
    match request.body with
    | none => (json (errorBody "questionId and answerText are required.") 400, db)
    | some body =>
      if !body.truthy || !(body.getProp "questionId").truthy
          || !(body.getProp "answerText").truthy then
        (json (errorBody "questionId and answerText are required.") 400, db)
      else
        match d1BindError (body.getProp "questionId") with
        | some _ => (unhandledException, db)
        | none =>
          match db.questionById (body.getProp "questionId") with
          | none => (json (errorBody "Question not found") 404, db)
          | some question =>
            let mode := modeOf (body.getProp "mode")
            let answerText := jsString (body.getProp "answerText")
            let ev := evaluateAttempt P.parse env mode question answerText
            let feedbackJson := P.stringify ev.feedback.toJVal
            (json (.obj [("ok", .bool true), ("feedback", ev.feedback.toJVal)]) 200,
              db.insertAttempt user.id question.id answerText ev.marksAwarded feedbackJson P.now)

/-! ## Administration -/

/-- The function `requireAdmin`: the error response, or the user. -/
def requireAdmin (db : Store) (request : Request) : Except Response SessionUser :=
  match getUserFromSession db request with
  | some user =>
    if !user.is_admin then .error (json (errorBody "Admin only") 403) else .ok user
  | none => .error (json (errorBody "Admin only") 403)

/-- The body of `handleAdminListTopics` after the guard. -/
def adminListTopics (db : Store) : Response :=
  json (.obj [("topics", .arr (db.topicsOrdered.map fun t =>
    .obj [("id", .num (.fin t.id)), ("title", .str t.title), ("slug", .str t.slug),
      ("level", .str t.level), ("paper", .num t.paper)]))]) 200

/-- The function `handleAdminListTopics`. -/
def handleAdminListTopics (db : Store) (request : Request) : Response × Store :=
  match requireAdmin db request with
  | .error errorResponse => (errorResponse, db)
  | .ok _ => (adminListTopics db, db)

/-- The body of `handleAdminCreateTopic` after the guard. -/
def adminCreateTopic (db : Store) (request : Request) : Response × Store :=
  match request.body with
  | none => (json (errorBody "title, slug, level, paper are required.") 400, db)
  | some body =>
    if !body.truthy || !(body.getProp "title").truthy || !(body.getProp "slug").truthy
        || !(body.getProp "level").truthy || !(body.getProp "paper").truthy then
      (json (errorBody "title, slug, level, paper are required.") 400, db)
    else
      match db.insertTopic (jsString (body.getProp "title")) (jsString (body.getProp "slug"))
          (jsString (body.getProp "level")) (jsNumber (body.getProp "paper"))
          (jsNumber ((body.getProp "order_index").or (.num (.fin 0))))
          (jsString ((body.getProp "notes_html").or (.str ""))) with
      | .error err =>
        if jsIncludes err "UNIQUE" then (json (errorBody "Slug already exists.") 409, db)
        else (json (errorBody "Could not create topic.") 500, db)
      | .ok (db1, _) => (json okBody 200, db1)

/-- The function `handleAdminCreateTopic`. -/
def handleAdminCreateTopic (db : Store) (request : Request) : Response × Store :=
  match requireAdmin db request with
  | .error errorResponse => (errorResponse, db)
  | .ok _ => adminCreateTopic db request

/-- The body of `handleAdminCreateQuestion` after the guard. -/
def adminCreateQuestion (db : Store) (request : Request) : Response × Store :=
  match request.body with
  | none => (json (errorBody "topic_id, text, marking_scheme, max_marks are required.") 400, db)
  | some body =>
    if !body.truthy || !(body.getProp "topic_id").truthy || !(body.getProp "text").truthy
        || !(body.getProp "marking_scheme").truthy || !(body.getProp "max_marks").truthy then
      (json (errorBody "topic_id, text, marking_scheme, max_marks are required.") 400, db)
    else
      (json okBody 200,
        db.insertQuestion (jsNumber (body.getProp "topic_id")) (jsString (body.getProp "text"))
          (jsString (body.getProp "marking_scheme")) (jsNumber (body.getProp "max_marks"))
          (if (body.getProp "source_ref").truthy then some (jsString (body.getProp "source_ref"))
           else none))

/-- The function `handleAdminCreateQuestion`. -/
def handleAdminCreateQuestion (db : Store) (request : Request) : Response × Store :=
  match requireAdmin db request with
  | .error errorResponse => (errorResponse, db)
  | .ok _ => adminCreateQuestion db request

/-! ## Routing -/

/-- The routes `handleApi` tells apart by path and method; a path segment is
already decoded (`slug`) or converted by `Number` (`id`). -/
inductive Route where
  | me
  | register
  | login
  | logout
  | topics
  | topicDetail (slug : String)
  | questionDetail (id : JNum)
  | attempts
  | adminListTopics
  | adminCreateTopic
  | adminCreateQuestion
  | notImplemented

/-- The function `handleApi` on a route: the response and the store it leaves. -/
def handleApi (P : Platform) (env : Env) (db : Store) (route : Route) (request : Request) :
    Response × Store :=
  match route with
  | .me => (handleMe db request, db)
  | .register => handleRegister P db request
  | .login => handleLogin P db request
  | .logout => (handleLogout request, db)
  | .topics => handleTopics db request
  | .topicDetail slug => handleTopicDetail db request slug
  | .questionDetail id => handleQuestionDetail db request id
  | .attempts => handleCreateAttempt P env db request
  | .adminListTopics => handleAdminListTopics db request
  | .adminCreateTopic => handleAdminCreateTopic db request
  | .adminCreateQuestion => handleAdminCreateQuestion db request
  | .notImplemented => (json (errorBody "Route not implemented") 404, db)

/-! ## Vocabulary of the specification: cookies -/

/-- The pieces of a `Cookie` header between semicolons. -/
def splitAtSemicolons : List Char → List (List Char)
  | [] => [[]]
  | c :: cs =>
    if c = Char.ofNat 59 then [] :: splitAtSemicolons cs
    else
      match splitAtSemicolons cs with
      | [] => [[c]]
      | p :: ps => (c :: p) :: ps

/-- The value of the cookie named `name` in a `Cookie` header, as the
specification words the lookup: the header is cut at semicolons, blanks before
a piece are dropped, and the first piece that is `name=value` gives `value`. -/
def cookieNamed (name : String) (header : String) : Option String :=
  ((splitAtSemicolons header.toList).filterMap fun piece =>
    let p := piece.dropWhile fun c => c = Char.ofNat 32
    if (name.toList ++ [Char.ofNat 61]).isPrefixOf p then
      some (String.mk (p.drop (name.length + 1)))
    else none).head?

/-! ## Sample store -/

/-- A platform for the examples: lower-casing of ASCII letters, a tagging
stand-in for the digest and for the serialiser, a fixed token and time. -/
def samplePlatform : Platform where
  parse := fun _ => none
  stringify := jsString
  hashPassword := fun s => "sha:" ++ s
  toLowerCase := fun s => String.mk (s.toList.map Char.toLower)
  randomUUID := "tok-9"
  now := 100

/-- A store with a learner (session `tok-1`), an administrator (session
`tok-2`), the topic Algebra and its two questions of 10 and 15 marks, and no
attempt. -/
def sampleStore : Store where
  users := [⟨1, "ann@example.com", "sha:secret1", false⟩, ⟨2, "root@example.com", "sha:secret2", true⟩]
  sessions := [⟨"tok-1", 1⟩, ⟨"tok-2", 2⟩]
  topics := [⟨1, "Algebra", "algebra", "HL", .fin 1, .fin 1, ""⟩]
  questions := [⟨1, .fin 1, "Solve 2x + 3 = 11.", "x = 4", .fin 10, none⟩,
    ⟨2, .fin 1, "Factorise x^2 - 1.", "(x - 1)(x + 1)", .fin 15, none⟩]
  attempts := []

/-- The sample store after the learner's 60-character answer to question 1
scored 5 out of 10. -/
def storeOneAttempt : Store :=
  { sampleStore with attempts := [⟨1, 1, 1, "first", some (.fin 5), "", 10⟩] }

/-- The sample store after the learner answered question 1 twice: 8 marks at
time 10, then 3 marks at time 20. -/
def storeTwoAttempts : Store :=
  { sampleStore with
    attempts := [⟨1, 1, 1, "first", some (.fin 8), "", 10⟩, ⟨2, 1, 1, "second", some (.fin 3), "", 20⟩] }

/-- A store whose topic has four questions, one of them attempted. -/
def storeFourQuestions : Store :=
  { sampleStore with
    questions := [⟨1, .fin 1, "Q1", "", .fin 10, none⟩, ⟨2, .fin 1, "Q2", "", .fin 10, none⟩,
      ⟨3, .fin 1, "Q3", "", .fin 10, none⟩, ⟨4, .fin 1, "Q4", "", .fin 10, none⟩]
    attempts := [⟨1, 1, 3, "first", some (.fin 5), "", 10⟩, ⟨2, 2, 3, "again", none, "", 11⟩] }

/-- A request carrying the learner's session cookie and no body. -/
def learnerRequest : Request := ⟨some "session_id=tok-1", none⟩

/-- A request carrying no cookie and no body. -/
def anonymousRequest : Request := ⟨none, none⟩

/-- A registration request for an email and a password. -/
def registerRequest (email password : String) : Request :=
  ⟨none, some (.obj [("email", .str email), ("password", .str password)])⟩

/-! ## Vocabulary of the specification: progress -/

/-- The number of distinct questions of a topic that have at least one
attempt, by any user. -/
def distinctAttempted (db : Store) (topicId : Nat) : Nat :=
  (db.questions.filter fun q =>
    decide (q.topic_id = .fin topicId) && db.attempts.any fun a => a.question_id = q.id).length

/-- The number of distinct questions of a topic that a user has attempted. -/
def distinctAttemptedBy (db : Store) (userId topicId : Nat) : Nat :=
  (db.questions.filter fun q =>
    decide (q.topic_id = .fin topicId) &&
      db.attempts.any fun a => decide (a.question_id = q.id) && decide (a.user_id = userId)).length

/-- The user's most recent attempt on a question: the one with the greatest
`created_at`, `none` when the user never attempted it. -/
def latestAttempt (db : Store) (userId questionId : Nat) : Option AttemptRow :=
  (db.attempts.filter fun a =>
      decide (a.user_id = userId) && decide (a.question_id = questionId)).foldl
    (fun best a =>
      match best with
      | none => some a
      | some b => if b.created_at ≤ a.created_at then some a else some b)
    none

/-- A model reply whose summary is a number. -/
def numericSummaryText : String := "\x7b\"summary\":7\x7d"

/-- The value `JSON.parse` gives for `numericSummaryText`. -/
def numericSummaryValue : JVal := .obj [("summary", .num (.fin 7))]

/-- The learner's submission of the 60-character answer to question 1. -/
def attemptRequest : Request :=
  ⟨some "session_id=tok-1", some (.obj [("questionId", .num (.fin 1)), ("answerText", .str sampleAnswer)])⟩

/-- The sample platform with a `JSON.parse` that reads exactly one text. -/
def platformParsing (source : String) (value : JVal) : Platform :=
  { samplePlatform with parse := parseOnly source value }

/-! ## Sample data for the store claims -/

/-- A request carrying the administrator's session cookie and a body. -/
def adminRequest (body : JVal) : Request := ⟨some "session_id=tok-2", some body⟩

/-- A question body whose `max_marks` is the number -5. -/
def negativeMarksBody : JVal :=
  .obj [("topic_id", .num (.fin 1)), ("text", .str "Solve x + 5 = 0."),
    ("marking_scheme", .str "x = -5"), ("max_marks", .num (.fin (-5)))]

/-- A question body whose `max_marks` is the number 0. -/
def zeroMarksBody : JVal :=
  .obj [("topic_id", .num (.fin 1)), ("text", .str "Solve x + 5 = 0."),
    ("marking_scheme", .str "x = -5"), ("max_marks", .num (.fin 0))]

/-- The sample store after the other user, the administrator, answered
question 1; the learner still has no attempt. -/
def storeOtherLearner : Store :=
  { sampleStore with attempts := [⟨1, 2, 1, "theirs", some (.fin 9), "", 10⟩] }

/-- The sample platform at a later request, with another random token. -/
def laterPlatform : Platform := { samplePlatform with randomUUID := "tok-10" }

/-- A login request for an email and a password. -/
def loginRequest (email password : String) : Request :=
  ⟨none, some (.obj [("email", .str email), ("password", .str password)])⟩

/-- The store with no row at all. -/
def emptyStore : Store := ⟨[], [], [], [], []⟩

/-! ## Sample data for the arithmetic claims -/

/-- A question worth 45 marks. -/
def question45 : Question :=
  ⟨3, "Prove that the angles of a triangle sum to 180 degrees.", "Award marks for a complete argument.",
    .fin 45⟩

/-- An answer of 84 characters. -/
def answer84 : String := String.mk (List.replicate 84 (Char.ofNat 120))

/-- A store whose topic has 40 questions, the first 23 of them attempted once
by the learner. -/
def storeFortyQuestions : Store :=
  { sampleStore with
    questions := (List.range 40).map fun i => ⟨i + 1, .fin 1, "Q", "", .fin 10, none⟩
    attempts := (List.range 23).map fun i => ⟨i + 1, 1, i + 1, "answer", none, "", 10⟩ }

/-! ## Sample data for the handler claims -/

/-- The learner's submission of the 60-character answer to question 1 in mode
`explain`. -/
def explainRequest : Request :=
  ⟨some "session_id=tok-1",
    some (.obj [("questionId", .num (.fin 1)), ("answerText", .str sampleAnswer),
      ("mode", .str "explain")])⟩

/-- The learner's submission with a JSON object as the question id. -/
def objectIdRequest : Request :=
  ⟨some "session_id=tok-1",
    some (.obj [("questionId", .obj [("a", .num (.fin 1))]), ("answerText", .str sampleAnswer)])⟩

/-- The sample store before any topic exists. -/
def storeNoTopics : Store := { sampleStore with topics := [], questions := [] }

/-! ## Lemmas on numbers -/

theorem roundQ_eq_floor (q : ℚ) : Math.roundQ q = ⌊q + 1 / 2⌋ := rfl

theorem roundHalfEven_floor_le (t : ℚ) : ⌊t⌋ ≤ roundHalfEven t := by
  unfold roundHalfEven
  show ⌊t⌋ ≤ (if t - ⌊t⌋ < 1 / 2 then ⌊t⌋ else if 1 / 2 < t - ⌊t⌋ then ⌊t⌋ + 1
    else if ⌊t⌋ % 2 = 0 then ⌊t⌋ else ⌊t⌋ + 1)
  split_ifs <;> omega

theorem roundHalfEven_near (t : ℚ) : |(roundHalfEven t : ℚ) - t| ≤ 1 / 2 := by
  unfold roundHalfEven
  show |((if t - ⌊t⌋ < 1 / 2 then ⌊t⌋ else if 1 / 2 < t - ⌊t⌋ then ⌊t⌋ + 1
    else if ⌊t⌋ % 2 = 0 then ⌊t⌋ else ⌊t⌋ + 1 : ℤ) : ℚ) - t| ≤ 1 / 2
  have h1 := Int.floor_le t
  have h2 := Int.lt_floor_add_one t
  rw [abs_le]
  split_ifs with a b c
  · constructor <;> linarith
  · push_cast; constructor <;> linarith
  · constructor <;> linarith
  · push_cast; constructor <;> linarith

theorem roundHalfEven_eq_of_near (t : ℚ) (n : ℤ) (h : |t - n| < 1 / 2) : roundHalfEven t = n := by
  have h0 := roundHalfEven_near t
  rw [abs_le] at h0
  rw [abs_lt] at h
  have h3 : ((roundHalfEven t - n : ℤ) : ℚ) < 1 := by push_cast; linarith
  have h4 : (-1 : ℚ) < ((roundHalfEven t - n : ℤ) : ℚ) := by push_cast; linarith
  have h5 : roundHalfEven t - n < 1 := by exact_mod_cast h3
  have h6 : -1 < roundHalfEven t - n := by exact_mod_cast h4
  omega

theorem roundHalfEven_le (t : ℚ) (K : ℤ) (h : t ≤ K) : roundHalfEven t ≤ K := by
  have h1 := Int.floor_le t
  have hf : ⌊t⌋ ≤ K := by exact_mod_cast h1.trans h
  unfold roundHalfEven
  show (if t - ⌊t⌋ < 1 / 2 then ⌊t⌋ else if 1 / 2 < t - ⌊t⌋ then ⌊t⌋ + 1
    else if ⌊t⌋ % 2 = 0 then ⌊t⌋ else ⌊t⌋ + 1) ≤ K
  have hlt : ¬ t - ⌊t⌋ < 1 / 2 → ⌊t⌋ + 1 ≤ K := by
    intro hn
    have : ((⌊t⌋ : ℤ) : ℚ) < K := by linarith
    have : ⌊t⌋ < K := by exact_mod_cast this
    omega
  split_ifs with a b c
  · exact hf
  · exact hlt a
  · exact hf
  · exact hlt a

theorem le_roundHalfEven (t : ℚ) (K : ℤ) (h : (K : ℚ) ≤ t) : K ≤ roundHalfEven t :=
  (Int.le_floor.mpr h).trans (roundHalfEven_floor_le t)

theorem roundHalfEven_intCast (K : ℤ) : roundHalfEven (K : ℚ) = K :=
  le_antisymm (roundHalfEven_le _ K le_rfl) (le_roundHalfEven _ K le_rfl)

theorem log_two_eq (y : ℚ) (e : ℤ) (h1 : (2 : ℚ) ^ e ≤ y) (h2 : y < (2 : ℚ) ^ (e + 1)) :
    Int.log 2 y = e := by
  have hy : 0 < y := lt_of_lt_of_le (by positivity) h1
  have a : e ≤ Int.log 2 y := (Int.zpow_le_iff_le_log (by norm_num) hy).mp (by exact_mod_cast h1)
  have b : Int.log 2 y < e + 1 := (Int.lt_zpow_iff_log_lt (by norm_num) hy).mp (by exact_mod_cast h2)
  omega


theorem binary64_zero : binary64 0 = .fin 0 := by simp [binary64]

theorem roundHalfEven_nonneg (t : ℚ) (h : 0 ≤ t) : 0 ≤ roundHalfEven t :=
  le_roundHalfEven t 0 (by simpa using h)

theorem binary64_of_pos (y : ℚ) (hy : 0 < y) (e n : ℤ) (he : e = max (Int.log 2 y) (-1022))
    (hn : n = roundHalfEven (y / 2 ^ (e - 52))) (hov : (n : ℚ) * 2 ^ (e - 52) < 2 ^ (1024 : ℤ)) :
    binary64 y = .fin (n * 2 ^ (e - 52)) := by
  have hu : (0 : ℚ) < 2 ^ (e - 52) := by positivity
  have hn0 : 0 ≤ n := hn ▸ roundHalfEven_nonneg _ (by positivity)
  have hr : (0 : ℚ) ≤ (n : ℚ) * 2 ^ (e - 52) := by
    have : (0 : ℚ) ≤ (n : ℚ) := by exact_mod_cast hn0
    positivity
  unfold binary64
  rw [if_neg hy.ne']
  simp only [abs_of_pos hy]
  rw [← he, ← hn, abs_of_nonneg hr, if_neg (not_le.mpr hov)]

theorem binary64_of_binade (y : ℚ) (e n : ℤ) (h1 : (2 : ℚ) ^ e ≤ y) (h2 : y < (2 : ℚ) ^ (e + 1))
    (he : -1022 ≤ e) (hn : |y / 2 ^ (e - 52) - n| < 1 / 2)
    (hov : (n : ℚ) * 2 ^ (e - 52) < 2 ^ (1024 : ℤ)) :
    binary64 y = .fin (n * 2 ^ (e - 52)) := by
  have hy : 0 < y := lt_of_lt_of_le (by positivity) h1
  have hl := log_two_eq y e h1 h2
  exact binary64_of_pos y hy e n (by rw [hl]; omega) (roundHalfEven_eq_of_near _ _ hn).symm hov

theorem binary64_le_int (y : ℚ) (M : ℤ) (hy0 : 0 ≤ y) (hyM : y ≤ M) (hM : M ≤ 2 ^ 53) :
    ∃ r : ℚ, binary64 y = .fin r ∧ 0 ≤ r ∧ r ≤ M := by
  rcases eq_or_lt_of_le hy0 with h0 | hy
  · refine ⟨0, by rw [← h0, binary64_zero], le_rfl, ?_⟩
    rw [← h0] at hyM; exact hyM
  have hMq : (M : ℚ) ≤ 2 ^ (53 : ℤ) := by
    have : (M : ℚ) ≤ ((2 ^ 53 : ℤ) : ℚ) := by exact_mod_cast hM
    calc (M : ℚ) ≤ ((2 ^ 53 : ℤ) : ℚ) := this
      _ = 2 ^ (53 : ℤ) := by norm_num
  obtain ⟨e, he⟩ : ∃ e : ℤ, e = max (Int.log 2 y) (-1022) := ⟨_, rfl⟩
  obtain ⟨n, hn⟩ : ∃ n : ℤ, n = roundHalfEven (y / 2 ^ (e - 52)) := ⟨_, rfl⟩
  have hu : (0 : ℚ) < 2 ^ (e - 52) := by positivity
  have hL : Int.log 2 y ≤ 53 := by
    have h1 : ((2 : ℕ) : ℚ) ^ (Int.log 2 y) ≤ y := Int.zpow_log_le_self (by norm_num) hy
    have h2 : (2 : ℚ) ^ (Int.log 2 y) ≤ (2 : ℚ) ^ (53 : ℤ) := by
      have : (2 : ℚ) ^ (Int.log 2 y) ≤ y := by exact_mod_cast h1
      linarith
    exact (zpow_le_zpow_iff_right₀ (by norm_num : (1 : ℚ) < 2)).mp h2
  have hn0 : 0 ≤ n := hn ▸ roundHalfEven_nonneg _ (by positivity)
  have hn0q : (0 : ℚ) ≤ n := by exact_mod_cast hn0
  -- an integer above the scaled value whose multiple stays below the bound
  have key : ∃ K : ℤ, y / 2 ^ (e - 52) ≤ K ∧ (K : ℚ) * 2 ^ (e - 52) ≤ M := by
    by_cases h52 : e ≤ 52
    · refine ⟨M * 2 ^ (52 - e).toNat, ?_, ?_⟩
      · have hp : ((2 : ℚ) ^ (e - 52))⁻¹ = 2 ^ (52 - e).toNat := by
          rw [← zpow_neg, ← zpow_natCast]
          congr 1
          omega
        rw [div_eq_mul_inv, hp]
        push_cast
        exact mul_le_mul_of_nonneg_right hyM (by positivity)
      · have hp : ((2 : ℚ) ^ (52 - e).toNat) * 2 ^ (e - 52) = 1 := by
          rw [← zpow_natCast, ← zpow_add₀ (by norm_num : (2 : ℚ) ≠ 0)]
          have : ((52 - e).toNat : ℤ) + (e - 52) = 0 := by omega
          rw [this, zpow_zero]
        push_cast
        rw [mul_assoc, hp, mul_one]
    · have he53 : e = 53 := by omega
      have hlog : Int.log 2 y = 53 := by omega
      have h1 : ((2 : ℕ) : ℚ) ^ (Int.log 2 y) ≤ y := Int.zpow_log_le_self (by norm_num) hy
      rw [hlog] at h1
      have h1q : (2 : ℚ) ^ (53 : ℤ) ≤ y := by exact_mod_cast h1
      have hy53 : y = 2 ^ (53 : ℤ) := le_antisymm (hyM.trans hMq) h1q
      refine ⟨2 ^ 52, ?_, ?_⟩
      · rw [he53, hy53]; norm_num
      · rw [he53]
        have : (M : ℚ) = 2 ^ (53 : ℤ) := le_antisymm hMq (hy53 ▸ hyM)
        rw [this]; norm_num
  obtain ⟨K, hK1, hK2⟩ := key
  have hnK : n ≤ K := hn ▸ roundHalfEven_le _ K hK1
  have hnKq : (n : ℚ) ≤ K := by exact_mod_cast hnK
  have hr : (n : ℚ) * 2 ^ (e - 52) ≤ M := (mul_le_mul_of_nonneg_right hnKq hu.le).trans hK2
  refine ⟨n * 2 ^ (e - 52), binary64_of_pos y hy e n he hn ?_, by positivity, hr⟩
  have : (2 : ℚ) ^ (53 : ℤ) < 2 ^ (1024 : ℤ) := by norm_num
  linarith


theorem binary64_normal (y : ℚ) (h1 : (2 : ℚ) ^ (-1022 : ℤ) ≤ y) (h2 : y ≤ 2 ^ (1000 : ℤ)) :
    ∃ r : ℚ, binary64 y = .fin r ∧ |r - y| ≤ y / 2 ^ 53 ∧ 0 < r := by
  have hy : 0 < y := lt_of_lt_of_le (by positivity) h1
  have hlo : ((2 : ℕ) : ℚ) ^ (Int.log 2 y) ≤ y := Int.zpow_log_le_self (by norm_num) hy
  have hlo2 : (2 : ℚ) ^ (Int.log 2 y) ≤ y := by exact_mod_cast hlo
  have hL : -1022 ≤ Int.log 2 y :=
    (Int.zpow_le_iff_le_log (by norm_num) hy).mp (by exact_mod_cast h1)
  have hL2 : Int.log 2 y ≤ 1000 := by
    have : (2 : ℚ) ^ (Int.log 2 y) ≤ (2 : ℚ) ^ (1000 : ℤ) := hlo2.trans h2
    exact (zpow_le_zpow_iff_right₀ (by norm_num : (1 : ℚ) < 2)).mp this
  obtain ⟨e, he⟩ : ∃ e : ℤ, e = Int.log 2 y := ⟨_, rfl⟩
  rw [← he] at hlo2 hL hL2
  obtain ⟨n, hn⟩ : ∃ n : ℤ, n = roundHalfEven (y / 2 ^ (e - 52)) := ⟨_, rfl⟩
  have hu : (0 : ℚ) < 2 ^ (e - 52) := by positivity
  have hsplit : (2 : ℚ) ^ e = 2 ^ (52 : ℤ) * 2 ^ (e - 52) := by
    rw [← zpow_add₀ (by norm_num : (2 : ℚ) ≠ 0)]; congr 1; omega
  have hnear := roundHalfEven_near (y / 2 ^ (e - 52))
  rw [← hn] at hnear
  have hdiff : (n : ℚ) * 2 ^ (e - 52) - y = (n - y / 2 ^ (e - 52)) * 2 ^ (e - 52) := by
    field_simp
  have herr : |(n : ℚ) * 2 ^ (e - 52) - y| ≤ 1 / 2 * 2 ^ (e - 52) := by
    rw [hdiff, abs_mul, abs_of_pos hu]
    exact mul_le_mul_of_nonneg_right hnear hu.le
  have hhalf : (1 : ℚ) / 2 * 2 ^ (e - 52) = 2 ^ e / 2 ^ 53 := by
    rw [hsplit]; norm_num; ring
  have hle : (2 : ℚ) ^ e / 2 ^ 53 ≤ y / 2 ^ 53 := by
    apply div_le_div_of_nonneg_right hlo2 (by positivity)
  have hn52 : (2 : ℤ) ^ 52 ≤ n := by
    rw [hn]
    apply le_roundHalfEven
    rw [le_div_iff₀ hu]
    calc (((2 : ℤ) ^ 52 : ℤ) : ℚ) * 2 ^ (e - 52) = 2 ^ e := by rw [hsplit]; norm_num
      _ ≤ y := hlo2
  have hnq : (0 : ℚ) < n := by
    have : (0 : ℤ) < n := lt_of_lt_of_le (by norm_num) hn52
    exact_mod_cast this
  have hrpos : (0 : ℚ) < n * 2 ^ (e - 52) := by positivity
  refine ⟨n * 2 ^ (e - 52), binary64_of_pos y hy e n (by rw [he]; omega) hn ?_, ?_, hrpos⟩
  · have hb : (n : ℚ) * 2 ^ (e - 52) ≤ y + y / 2 ^ 53 := by
      have := (abs_le.mp herr).2
      rw [hhalf] at this
      linarith
    have hy53 : y / 2 ^ 53 ≤ y := div_le_self hy.le (by norm_num)
    have : (2 : ℚ) ^ (1000 : ℤ) + 2 ^ (1000 : ℤ) < 2 ^ (1024 : ℤ) := by norm_num
    linarith
  · rw [hhalf] at herr
    exact herr.trans hle

theorem binary64_ge_one (y : ℚ) (h : 1 ≤ y) :
    binary64 y = .posInf ∨ ∃ r : ℚ, binary64 y = .fin r ∧ 1 ≤ r := by
  have hy : 0 < y := by linarith
  have hlo : ((2 : ℕ) : ℚ) ^ (Int.log 2 y) ≤ y := Int.zpow_log_le_self (by norm_num) hy
  have hlo2 : (2 : ℚ) ^ (Int.log 2 y) ≤ y := by exact_mod_cast hlo
  have hL : 0 ≤ Int.log 2 y :=
    (Int.zpow_le_iff_le_log (by norm_num) hy).mp (by simpa using h)
  obtain ⟨e, he⟩ : ∃ e : ℤ, e = Int.log 2 y := ⟨_, rfl⟩
  rw [← he] at hlo2 hL
  obtain ⟨n, hn⟩ : ∃ n : ℤ, n = roundHalfEven (y / 2 ^ (e - 52)) := ⟨_, rfl⟩
  have hu : (0 : ℚ) < 2 ^ (e - 52) := by positivity
  have hsplit : (2 : ℚ) ^ e = 2 ^ (52 : ℤ) * 2 ^ (e - 52) := by
    rw [← zpow_add₀ (by norm_num : (2 : ℚ) ≠ 0)]; congr 1; omega
  have hn52 : (2 : ℤ) ^ 52 ≤ n := by
    rw [hn]
    apply le_roundHalfEven
    rw [le_div_iff₀ hu]
    calc (((2 : ℤ) ^ 52 : ℤ) : ℚ) * 2 ^ (e - 52) = 2 ^ e := by rw [hsplit]; norm_num
      _ ≤ y := hlo2
  have hn52q : (2 : ℚ) ^ (52 : ℤ) ≤ n := by
    have : (((2 : ℤ) ^ 52 : ℤ) : ℚ) ≤ n := by exact_mod_cast hn52
    calc (2 : ℚ) ^ (52 : ℤ) = (((2 : ℤ) ^ 52 : ℤ) : ℚ) := by norm_num
      _ ≤ n := this
  have hr1 : (1 : ℚ) ≤ n * 2 ^ (e - 52) := by
    have h2e : (1 : ℚ) ≤ 2 ^ e := one_le_zpow₀ (by norm_num) hL
    calc (1 : ℚ) ≤ 2 ^ e := h2e
      _ = 2 ^ (52 : ℤ) * 2 ^ (e - 52) := hsplit
      _ ≤ n * 2 ^ (e - 52) := mul_le_mul_of_nonneg_right hn52q hu.le
  by_cases hov : (n : ℚ) * 2 ^ (e - 52) < 2 ^ (1024 : ℤ)
  · exact Or.inr ⟨_, binary64_of_pos y hy e n (by rw [he]; omega) hn hov, hr1⟩
  · left
    have hr0 : (0 : ℚ) ≤ (n : ℚ) * 2 ^ (e - 52) := by linarith
    unfold binary64
    rw [if_neg hy.ne']
    simp only [abs_of_pos hy]
    have he2 : max (Int.log 2 y) (-1022) = e := by rw [he]; omega
    rw [he2, ← hn, abs_of_nonneg hr0, if_pos (not_lt.mp hov), if_pos hy]

/-- Adding less than `1/D` to a fraction of denominator `D` keeps its floor
unless the fraction is an integer, where the floor may drop by one. -/
theorem floor_add_small (N : ℤ) (D : ℕ) (hD : 0 < D) (δ : ℚ) (hδ : |δ| < 1 / D) :
    (¬ (D : ℤ) ∣ N → ⌊(N : ℚ) / D + δ⌋ = ⌊(N : ℚ) / D⌋) ∧
    ((D : ℤ) ∣ N → ⌊(N : ℚ) / D + δ⌋ = ⌊(N : ℚ) / D⌋ ∨ ⌊(N : ℚ) / D + δ⌋ = ⌊(N : ℚ) / D⌋ - 1) := by
  have hDq : (0 : ℚ) < D := by exact_mod_cast hD
  have hDz : (0 : ℤ) < D := by exact_mod_cast hD
  obtain ⟨hδ1, hδ2⟩ := abs_lt.mp hδ
  have hfl : ⌊(N : ℚ) / D⌋ = N / (D : ℤ) := by
    have := Rat.floor_intCast_div_natCast N D
    simpa using this
  have hdm : (D : ℤ) * (N / (D : ℤ)) + N % (D : ℤ) = N := Int.ediv_add_emod N D
  have hm0 : 0 ≤ N % (D : ℤ) := Int.emod_nonneg N hDz.ne'
  have hm1 : N % (D : ℤ) < D := Int.emod_lt_of_pos N hDz
  have hNq : (N : ℚ) / D = (N / (D : ℤ) : ℤ) + ((N % (D : ℤ) : ℤ) : ℚ) / D := by
    field_simp
    have : (N : ℚ) = ((D : ℤ) * (N / (D : ℤ)) + N % (D : ℤ) : ℤ) := by rw [hdm]
    rw [this]; push_cast; ring
  constructor
  · intro hnd
    have hmpos : 1 ≤ N % (D : ℤ) := by
      rcases eq_or_lt_of_le hm0 with h | h
      · exact absurd (Int.dvd_of_emod_eq_zero h.symm) hnd
      · omega
    have hmq1 : (1 : ℚ) ≤ ((N % (D : ℤ) : ℤ) : ℚ) := by exact_mod_cast hmpos
    have hmq2 : ((N % (D : ℤ) : ℤ) : ℚ) ≤ D - 1 := by
      have : N % (D : ℤ) ≤ D - 1 := by omega
      exact_mod_cast this
    rw [hfl, Int.floor_eq_iff, hNq]
    have ha : (1 : ℚ) / D ≤ ((N % (D : ℤ) : ℤ) : ℚ) / D := div_le_div_of_nonneg_right hmq1 hDq.le
    have hb : ((N % (D : ℤ) : ℤ) : ℚ) / D ≤ (D - 1) / D := div_le_div_of_nonneg_right hmq2 hDq.le
    have hc : ((D : ℚ) - 1) / D = 1 - 1 / D := by field_simp
    constructor <;> linarith
  · intro hd
    have hm : N % (D : ℤ) = 0 := Int.emod_eq_zero_of_dvd hd
    rw [hm] at hNq
    have h1D : (1 : ℚ) / D ≤ 1 := by
      rw [div_le_one hDq]; exact_mod_cast hD
    by_cases hs : 0 ≤ δ
    · left
      rw [hfl, Int.floor_eq_iff, hNq]
      constructor <;> simp <;> linarith
    · right
      rw [hfl, Int.floor_eq_iff, hNq]
      push_neg at hs
      constructor <;> push_cast <;> simp <;> linarith


theorem binary64_pos_inv (y r : ℚ) (hy : 0 < y) (h : binary64 y = .fin r) :
    r = roundHalfEven (y / 2 ^ (max (Int.log 2 y) (-1022) - 52)) *
      2 ^ (max (Int.log 2 y) (-1022) - 52) ∧ r < 2 ^ (1024 : ℤ) := by
  unfold binary64 at h
  rw [if_neg hy.ne'] at h
  simp only [abs_of_pos hy] at h
  have hr : (0 : ℚ) ≤ (roundHalfEven (y / 2 ^ (max (Int.log 2 y) (-1022) - 52)) : ℚ) *
      2 ^ (max (Int.log 2 y) (-1022) - 52) := by
    have h0 : 0 ≤ roundHalfEven (y / 2 ^ (max (Int.log 2 y) (-1022) - 52)) :=
      roundHalfEven_nonneg _ (by positivity)
    have : (0 : ℚ) ≤ (roundHalfEven (y / 2 ^ (max (Int.log 2 y) (-1022) - 52)) : ℚ) := by
      exact_mod_cast h0
    positivity
  rw [abs_of_nonneg hr] at h
  by_cases hov : (2 : ℚ) ^ (1024 : ℤ) ≤
      (roundHalfEven (y / 2 ^ (max (Int.log 2 y) (-1022) - 52)) : ℚ) *
        2 ^ (max (Int.log 2 y) (-1022) - 52)
  · rw [if_pos hov, if_pos hy] at h; cases h
  · rw [if_neg hov] at h
    rw [not_le] at hov
    injection h with h
    exact ⟨h.symm, h ▸ hov⟩

/-- Rounding never crosses a binary64 value: below a value that binary64 holds
exactly, the rounded value stays below it. -/
theorem binary64_le_of_fixed (y M : ℚ) (hy0 : 0 ≤ y) (hyM : y ≤ M) (hM : binary64 M = .fin M) :
    ∃ r : ℚ, binary64 y = .fin r ∧ 0 ≤ r ∧ r ≤ M := by
  rcases eq_or_lt_of_le hy0 with h0 | hy
  · refine ⟨0, by rw [← h0, binary64_zero], le_rfl, ?_⟩
    rw [← h0] at hyM; exact hyM
  have hMpos : 0 < M := lt_of_lt_of_le hy hyM
  obtain ⟨hMr, hMov⟩ := binary64_pos_inv M M hMpos hM
  obtain ⟨eM, heM⟩ : ∃ e : ℤ, e = max (Int.log 2 M) (-1022) := ⟨_, rfl⟩
  obtain ⟨nM, hnM⟩ : ∃ n : ℤ, n = roundHalfEven (M / 2 ^ (eM - 52)) := ⟨_, rfl⟩
  rw [← heM, ← hnM] at hMr
  obtain ⟨e, he⟩ : ∃ e : ℤ, e = max (Int.log 2 y) (-1022) := ⟨_, rfl⟩
  obtain ⟨n, hn⟩ : ∃ n : ℤ, n = roundHalfEven (y / 2 ^ (e - 52)) := ⟨_, rfl⟩
  have hee : e ≤ eM := by
    have := Int.log_mono_right (b := 2) hy hyM
    omega
  have hu : (0 : ℚ) < 2 ^ (e - 52) := by positivity
  have hn0 : 0 ≤ n := hn ▸ roundHalfEven_nonneg _ (by positivity)
  have hn0q : (0 : ℚ) ≤ n := by exact_mod_cast hn0
  have hpow : (2 : ℚ) ^ (eM - 52) = 2 ^ (eM - e).toNat * 2 ^ (e - 52) := by
    rw [← zpow_natCast, ← zpow_add₀ (by norm_num : (2 : ℚ) ≠ 0)]
    congr 1; omega
  have hK1 : y / 2 ^ (e - 52) ≤ ((nM * 2 ^ (eM - e).toNat : ℤ) : ℚ) := by
    rw [div_le_iff₀ hu]
    push_cast
    rw [mul_assoc, ← hpow, ← hMr]
    exact hyM
  have hnK : n ≤ nM * 2 ^ (eM - e).toNat := hn ▸ roundHalfEven_le _ _ hK1
  have hnKq : (n : ℚ) ≤ ((nM * 2 ^ (eM - e).toNat : ℤ) : ℚ) := by exact_mod_cast hnK
  have hr : (n : ℚ) * 2 ^ (e - 52) ≤ M := by
    calc (n : ℚ) * 2 ^ (e - 52) ≤ ((nM * 2 ^ (eM - e).toNat : ℤ) : ℚ) * 2 ^ (e - 52) :=
          mul_le_mul_of_nonneg_right hnKq hu.le
      _ = M := by push_cast; rw [mul_assoc, ← hpow, ← hMr]
  exact ⟨n * 2 ^ (e - 52), binary64_of_pos y hy e n he hn (lt_of_le_of_lt hr hMov),
    by positivity, hr⟩

/-- A positive multiple `k * 2^j` of a power of two with at most 53 bits in `k`,
inside the range of the format, is held exactly. -/
theorem binary64_of_scaled (k j : ℤ) (hk : 0 < k) (hk53 : k ≤ 2 ^ 53) (hj : -1074 ≤ j)
    (hov : (k : ℚ) * 2 ^ j < 2 ^ (1024 : ℤ)) :
    binary64 ((k : ℚ) * 2 ^ j) = .fin ((k : ℚ) * 2 ^ j) := by
  have hkq : (0 : ℚ) < k := by exact_mod_cast hk
  have hy : (0 : ℚ) < (k : ℚ) * 2 ^ j := by positivity
  obtain ⟨e, he⟩ : ∃ e : ℤ, e = max (Int.log 2 ((k : ℚ) * 2 ^ j)) (-1022) := ⟨_, rfl⟩
  have hlo : ((2 : ℕ) : ℚ) ^ (Int.log 2 ((k : ℚ) * 2 ^ j)) ≤ (k : ℚ) * 2 ^ j :=
    Int.zpow_log_le_self (by norm_num) hy
  have hlo2 : (2 : ℚ) ^ (Int.log 2 ((k : ℚ) * 2 ^ j)) ≤ (k : ℚ) * 2 ^ j := by exact_mod_cast hlo
  have hk53q : (k : ℚ) ≤ 2 ^ (53 : ℤ) := by
    have : (k : ℚ) ≤ ((2 ^ 53 : ℤ) : ℚ) := by exact_mod_cast hk53
    calc (k : ℚ) ≤ ((2 ^ 53 : ℤ) : ℚ) := this
      _ = 2 ^ (53 : ℤ) := by norm_num
  have hL : Int.log 2 ((k : ℚ) * 2 ^ j) ≤ 53 + j := by
    have : (2 : ℚ) ^ (Int.log 2 ((k : ℚ) * 2 ^ j)) ≤ 2 ^ (53 + j) := by
      rw [zpow_add₀ (by norm_num : (2 : ℚ) ≠ 0)]
      exact hlo2.trans (mul_le_mul_of_nonneg_right hk53q (by positivity))
    exact (zpow_le_zpow_iff_right₀ (by norm_num : (1 : ℚ) < 2)).mp this
  -- the scaled value is an integer
  have key : ∃ z : ℤ, ((k : ℚ) * 2 ^ j) / 2 ^ (e - 52) = z := by
    by_cases hc : e ≤ 52 + j
    · refine ⟨k * 2 ^ (j - (e - 52)).toNat, ?_⟩
      push_cast
      rw [mul_div_assoc, ← zpow_sub₀ (by norm_num : (2 : ℚ) ≠ 0), ← zpow_natCast]
      congr 2; omega
    · have heq : e = 53 + j := by omega
      have hlog : Int.log 2 ((k : ℚ) * 2 ^ j) = 53 + j := by omega
      rw [hlog] at hlo2
      have hk2 : (2 : ℚ) ^ (53 : ℤ) ≤ k := by
        rw [zpow_add₀ (by norm_num : (2 : ℚ) ≠ 0)] at hlo2
        exact le_of_mul_le_mul_right hlo2 (by positivity)
      have hkeq : (k : ℚ) = 2 ^ (53 : ℤ) := le_antisymm hk53q hk2
      refine ⟨2 ^ 52, ?_⟩
      rw [hkeq, heq, ← zpow_add₀ (by norm_num : (2 : ℚ) ≠ 0),
        ← zpow_sub₀ (by norm_num : (2 : ℚ) ≠ 0)]
      have : (53 + j - (53 + j - 52) : ℤ) = 52 := by omega
      rw [this]; norm_num
  obtain ⟨z, hz⟩ := key
  have hu : (0 : ℚ) < 2 ^ (e - 52) := by positivity
  have hn : z = roundHalfEven (((k : ℚ) * 2 ^ j) / 2 ^ (e - 52)) := by
    rw [hz, roundHalfEven_intCast]
  have hval : (z : ℚ) * 2 ^ (e - 52) = (k : ℚ) * 2 ^ j := by
    rw [← hz]; field_simp
  have := binary64_of_pos ((k : ℚ) * 2 ^ j) hy e z he hn (by rw [hval]; exact hov)
  rw [hval] at this
  exact this

theorem binary64_intCast (z : ℤ) (h0 : 0 ≤ z) (h : z ≤ 2 ^ 53) : binary64 (z : ℚ) = .fin z := by
  rcases eq_or_lt_of_le h0 with h0 | hz
  · rw [← h0]; simpa using binary64_zero
  have := binary64_of_scaled z 0 hz h (by norm_num) (by
    have : (z : ℚ) ≤ ((2 ^ 53 : ℤ) : ℚ) := by exact_mod_cast h
    have h2 : (((2 : ℤ) ^ 53 : ℤ) : ℚ) < 2 ^ (1024 : ℤ) := by norm_num
    simp only [zpow_zero, mul_one]
    linarith)
  simpa using this

theorem binary64_idem (y r : ℚ) (hy : 0 ≤ y) (h : binary64 y = .fin r) :
    binary64 r = .fin r := by
  rcases eq_or_lt_of_le hy with h0 | hy
  · rw [← h0, binary64_zero] at h
    injection h with h
    rw [← h, binary64_zero]
  obtain ⟨hr, hov⟩ := binary64_pos_inv y r hy h
  obtain ⟨e, he⟩ : ∃ e : ℤ, e = max (Int.log 2 y) (-1022) := ⟨_, rfl⟩
  obtain ⟨n, hn⟩ : ∃ n : ℤ, n = roundHalfEven (y / 2 ^ (e - 52)) := ⟨_, rfl⟩
  rw [← he, ← hn] at hr
  have hu : (0 : ℚ) < 2 ^ (e - 52) := by positivity
  have hn0 : 0 ≤ n := hn ▸ roundHalfEven_nonneg _ (by positivity)
  rcases eq_or_lt_of_le hn0 with hz | hnpos
  · rw [hr, ← hz]; simpa using binary64_zero
  have hup : y < (2 : ℚ) ^ (e + 1) := by
    have h1 : y < ((2 : ℕ) : ℚ) ^ (Int.log 2 y + 1) := Int.lt_zpow_succ_log_self (by norm_num) y
    have h2 : y < (2 : ℚ) ^ (Int.log 2 y + 1) := by exact_mod_cast h1
    have h3 : (2 : ℚ) ^ (Int.log 2 y + 1) ≤ 2 ^ (e + 1) :=
      (zpow_le_zpow_iff_right₀ (by norm_num : (1 : ℚ) < 2)).mpr (by rw [he]; omega)
    exact lt_of_lt_of_le h2 h3
  have ht : y / 2 ^ (e - 52) ≤ ((2 ^ 53 : ℤ) : ℚ) := by
    rw [div_le_iff₀ hu]
    have : (((2 : ℤ) ^ 53 : ℤ) : ℚ) * 2 ^ (e - 52) = 2 ^ (e + 1) := by
      have h53 : (((2 : ℤ) ^ 53 : ℤ) : ℚ) = 2 ^ (53 : ℤ) := by norm_num
      rw [h53, ← zpow_add₀ (by norm_num : (2 : ℚ) ≠ 0)]
      congr 1; omega
    rw [this]; exact hup.le
  have hn53 : n ≤ 2 ^ 53 := hn ▸ roundHalfEven_le _ _ ht
  rw [hr]
  exact binary64_of_scaled n (e - 52) hnpos hn53 (by rw [he]; omega) (hr ▸ hov)

theorem round_bounds (p : ℚ) (m : ℤ) (h0 : 0 ≤ p) (h1 : p ≤ m) :
    0 ≤ ⌊p + 1 / 2⌋ ∧ ⌊p + 1 / 2⌋ ≤ m := by
  constructor
  · apply Int.floor_nonneg.mpr
    linarith
  · apply Int.lt_add_one_iff.mp
    apply Int.floor_lt.mpr
    push_cast
    linarith


theorem toStr_intCast (z : ℤ) (h : z.natAbs ≤ 2 ^ 53) :
    (JNum.fin (z : ℚ)).toStr = toString z := by
  have h2 : z.natAbs ≤ 9007199254740992 := by simpa using h
  simp [JNum.toStr, h2]

theorem jsLength_sampleAnswer : jsLength sampleAnswer = 60 := by decide

theorem binary64_one : binary64 1 = .fin 1 := by
  simpa using binary64_intCast 1 (by norm_num) (by norm_num)

/-- The value of `lengthScore`: a binary64 value between 0 and 1, within
`2^-53` of `min(len / 120, 1)`, equal to it at the ends. -/
theorem lengthScore_props (a : String) :
    ∃ x : ℚ, lengthScore a = .fin x ∧ 0 ≤ x ∧ x ≤ 1 ∧ binary64 x = .fin x ∧
      (jsLength a = 0 → x = 0) ∧ (120 ≤ jsLength a → x = 1) ∧
      (0 < jsLength a → jsLength a < 120 →
        0 < x ∧ |x - (jsLength a : ℚ) / 120| ≤ (jsLength a : ℚ) / 120 / 2 ^ 53) := by
  unfold lengthScore
  by_cases h : 120 ≤ jsLength a
  · have hy : (1 : ℚ) ≤ (jsLength a : ℚ) / 120 := by
      rw [le_div_iff₀ (by norm_num)]
      have : ((120 : ℕ) : ℚ) ≤ jsLength a := by exact_mod_cast h
      simpa using this
    refine ⟨1, ?_, by norm_num, le_rfl, binary64_one, fun h0 => by omega, fun _ => rfl,
      fun _ h2 => by omega⟩
    rcases binary64_ge_one _ hy with hb | ⟨r, hb, hr⟩
    · rw [hb]; rfl
    · rw [hb]; simp [Math.min, hr]
  · push_neg at h
    have hy0 : (0 : ℚ) ≤ (jsLength a : ℚ) / 120 := by positivity
    have hy1 : (jsLength a : ℚ) / 120 ≤ ((1 : ℤ) : ℚ) := by
      rw [div_le_iff₀ (by norm_num)]
      have : (jsLength a : ℚ) ≤ ((120 : ℕ) : ℚ) := by exact_mod_cast h.le
      simpa using this
    obtain ⟨r, hb, hr0, hr1⟩ := binary64_le_int _ 1 hy0 hy1 (by norm_num)
    have hr1q : r ≤ 1 := by simpa using hr1
    refine ⟨r, ?_, hr0, hr1q, binary64_idem _ r hy0 hb, ?_, fun h2 => by omega, ?_⟩
    · rw [hb]; simp [Math.min, hr1q]
    · intro h0
      rw [h0] at hb
      simp only [Nat.cast_zero, zero_div, binary64_zero] at hb
      injection hb with hb
      exact hb.symm
    · intro hpos _
      have hlen : (1 : ℚ) ≤ jsLength a := by exact_mod_cast hpos
      have hlow : (2 : ℚ) ^ (-1022 : ℤ) ≤ (jsLength a : ℚ) / 120 := by
        have h1 : (1 : ℚ) / 120 ≤ (jsLength a : ℚ) / 120 :=
          div_le_div_of_nonneg_right hlen (by norm_num)
        have h2 : (2 : ℚ) ^ (-1022 : ℤ) ≤ 2 ^ (-7 : ℤ) :=
          (zpow_le_zpow_iff_right₀ (by norm_num : (1 : ℚ) < 2)).mpr (by norm_num)
        have h3 : (2 : ℚ) ^ (-7 : ℤ) ≤ 1 / 120 := by norm_num
        linarith
      have hhigh : (jsLength a : ℚ) / 120 ≤ 2 ^ (1000 : ℤ) := by
        have : (1 : ℚ) ≤ 2 ^ (1000 : ℤ) := one_le_zpow₀ (by norm_num) (by norm_num)
        have h1 : (jsLength a : ℚ) / 120 ≤ 1 := by simpa using hy1
        linarith
      obtain ⟨r2, hb2, herr, hpos2⟩ := binary64_normal _ hlow hhigh
      rw [hb] at hb2
      injection hb2 with hb2
      rw [hb2]
      exact ⟨hpos2, herr⟩


theorem mul_lengthScore_bounds (m : ℤ) (hm : 0 ≤ m) (a : String) :
    ∃ p : ℚ, (JNum.fin (m : ℚ)).mul (lengthScore a) = .fin p ∧ 0 ≤ p ∧ p ≤ m := by
  obtain ⟨x, hx, hx0, hx1, -⟩ := lengthScore_props a
  have hmq : (0 : ℚ) ≤ m := by exact_mod_cast hm
  have h0 : (0 : ℚ) ≤ m * x := mul_nonneg hmq hx0
  have h1 : (m : ℚ) * x ≤ m := by
    calc (m : ℚ) * x ≤ m * 1 := mul_le_mul_of_nonneg_left hx1 hmq
      _ = m := mul_one _
  rw [hx]
  by_cases hc : binary64 (m : ℚ) = .fin (m : ℚ) ∧ binary64 x = .fin x
  · obtain ⟨p, hp, hp0, hp1⟩ := binary64_le_of_fixed _ _ h0 h1 hc.1
    exact ⟨p, by simp only [JNum.mul, if_pos hc, hp], hp0, hp1⟩
  · exact ⟨m * x, by simp only [JNum.mul, if_neg hc], h0, h1⟩

/-- The Tier-1 mark is an integer between 0 and `max_marks`. -/
theorem tier1Marks_bounds (question : Question) (answerText : String) (m : ℤ) (hm : 0 ≤ m)
    (hq : question.max_marks = .fin (m : ℚ)) :
    ∃ r : ℤ, tier1Marks .mark question answerText = some (.fin (r : ℚ)) ∧ 0 ≤ r ∧ r ≤ m := by
  obtain ⟨p, hp, hp0, hp1⟩ := mul_lengthScore_bounds m hm answerText
  have hb := round_bounds p m hp0 hp1
  exact ⟨⌊p + 1 / 2⌋, by simp [tier1Marks, hq, hp, Math.round, roundQ_eq_floor], hb.1, hb.2⟩

/-- The Tier-1 mark against the exact formula, for `max_marks` up to `2^44`:
the two agree unless the exact product is half-way between two integers, where
the mark may be one less. -/
theorem tier1Marks_exactness (question : Question) (answerText : String) (m : ℤ) (hm : 0 < m)
    (hm2 : m ≤ 2 ^ 44) (hq : question.max_marks = .fin (m : ℚ)) :
    ∃ r : ℤ, tier1Marks .mark question answerText = some (.fin (r : ℚ)) ∧
      (r = ⌊(m : ℚ) * min ((jsLength answerText : ℚ) / 120) 1 + 1 / 2⌋ ∨
        (r = ⌊(m : ℚ) * min ((jsLength answerText : ℚ) / 120) 1 + 1 / 2⌋ - 1 ∧
          ∃ k : ℤ, (m : ℚ) * min ((jsLength answerText : ℚ) / 120) 1 = k + 1 / 2)) := by
  obtain ⟨x, hx, hx0, hx1, hx64, hzero, hfull, hmid⟩ := lengthScore_props answerText
  have hmq : (0 : ℚ) < m := by exact_mod_cast hm
  have hm53 : m ≤ 2 ^ 53 := hm2.trans (by norm_num)
  have hm64 : binary64 (m : ℚ) = .fin (m : ℚ) := binary64_intCast m hm.le hm53
  have hmul : (JNum.fin (m : ℚ)).mul (JNum.fin x) = binary64 ((m : ℚ) * x) := by
    simp only [JNum.mul, if_pos (And.intro hm64 hx64)]
  have hT : tier1Marks .mark question answerText = some (Math.round (binary64 ((m : ℚ) * x))) := by
    simp [tier1Marks, hq, hx, hmul]
  obtain ⟨n, hn⟩ : ∃ n : ℕ, n = jsLength answerText := ⟨_, rfl⟩
  rw [← hn] at hzero hfull hmid ⊢
  by_cases h120 : 120 ≤ n
  · -- the whole answer: the product is `max_marks` itself
    have hx' := hfull h120
    have hmin : min ((n : ℚ) / 120) 1 = 1 := by
      apply min_eq_right
      rw [le_div_iff₀ (by norm_num)]
      have : ((120 : ℕ) : ℚ) ≤ n := by exact_mod_cast h120
      simpa using this
    refine ⟨m, ?_, Or.inl ?_⟩
    · rw [hT, hx', mul_one, hm64]
      simp [Math.round, roundQ_eq_floor]
      norm_num
    · rw [hmin, mul_one, eq_comm, Int.floor_eq_iff]; constructor <;> norm_num
  push_neg at h120
  have hmin : min ((n : ℚ) / 120) 1 = (n : ℚ) / 120 := by
    apply min_eq_left
    rw [div_le_iff₀ (by norm_num)]
    have : (n : ℚ) ≤ ((120 : ℕ) : ℚ) := by exact_mod_cast h120.le
    simpa using this
  rw [hmin]
  rcases Nat.eq_zero_or_pos n with h0 | hpos
  · have hx' := hzero h0
    refine ⟨0, ?_, Or.inl ?_⟩
    · rw [hT, hx', mul_zero, binary64_zero]
      simp [Math.round, roundQ_eq_floor]
      norm_num
    · rw [h0]; simp
      rw [eq_comm, Int.floor_eq_iff]; constructor <;> norm_num
  obtain ⟨hxpos, hxerr⟩ := hmid hpos h120
  -- the product and its rounding error
  have hn1 : (1 : ℚ) ≤ n := by exact_mod_cast hpos
  have hn120 : (n : ℚ) ≤ 120 := by
    have : (n : ℚ) ≤ ((120 : ℕ) : ℚ) := by exact_mod_cast h120.le
    simpa using this
  have hy1 : (n : ℚ) / 120 ≤ 1 := by rw [div_le_iff₀ (by norm_num)]; linarith
  have hylow : (1 : ℚ) / 120 ≤ (n : ℚ) / 120 := div_le_div_of_nonneg_right hn1 (by norm_num)
  have he1 : (n : ℚ) / 120 / 2 ^ 53 ≤ 1 / 2 ^ 53 := div_le_div_of_nonneg_right hy1 (by positivity)
  have hxe := abs_le.mp hxerr
  have hxlow : (1 : ℚ) / 240 ≤ x := by
    have : (n : ℚ) / 120 / 2 ^ 53 ≤ (n : ℚ) / 120 / 2 :=
      div_le_div_of_nonneg_left (by positivity) (by norm_num) (by norm_num)
    linarith
  have hm1 : (1 : ℚ) ≤ m := by exact_mod_cast hm
  have hm44 : (m : ℚ) ≤ 2 ^ 44 := by exact_mod_cast hm2
  have hp0low : (2 : ℚ) ^ (-1022 : ℤ) ≤ (m : ℚ) * x := by
    have h2 : (2 : ℚ) ^ (-1022 : ℤ) ≤ 2 ^ (-8 : ℤ) :=
      (zpow_le_zpow_iff_right₀ (by norm_num : (1 : ℚ) < 2)).mpr (by norm_num)
    have h3 : (2 : ℚ) ^ (-8 : ℤ) ≤ 1 / 240 := by norm_num
    have h4 : (1 : ℚ) * x ≤ m * x := mul_le_mul_of_nonneg_right hm1 hx0
    rw [one_mul] at h4
    exact h2.trans (h3.trans (hxlow.trans h4))
  have hp0m : (m : ℚ) * x ≤ m := by
    calc (m : ℚ) * x ≤ m * 1 := mul_le_mul_of_nonneg_left hx1 hmq.le
      _ = m := mul_one _
  have hp0high : (m : ℚ) * x ≤ 2 ^ (1000 : ℤ) := by
    have : (2 : ℚ) ^ 44 ≤ 2 ^ (1000 : ℤ) := by norm_num
    linarith
  obtain ⟨p, hp, hperr, -⟩ := binary64_normal _ hp0low hp0high
  have hpe := abs_le.mp hperr
  have hpd : (m : ℚ) * x / 2 ^ 53 ≤ m / 2 ^ 53 := div_le_div_of_nonneg_right hp0m (by positivity)
  have hxd : (m : ℚ) * |x - (n : ℚ) / 120| ≤ m / 2 ^ 53 := by
    calc (m : ℚ) * |x - (n : ℚ) / 120| ≤ m * (1 / 2 ^ 53) :=
          mul_le_mul_of_nonneg_left (hxerr.trans he1) hmq.le
      _ = m / 2 ^ 53 := by ring
  have hxd2 := abs_le.mp (show |(m : ℚ) * (x - (n : ℚ) / 120)| ≤ m / 2 ^ 53 by
    rw [abs_mul, abs_of_pos hmq]; exact hxd)
  have hsmall : (m : ℚ) / 2 ^ 53 ≤ 1 / 512 := by
    rw [div_le_iff₀ (by positivity)]
    calc (m : ℚ) ≤ 2 ^ 44 := hm44
      _ = 1 / 512 * 2 ^ 53 := by norm_num
  have hδ : |p - (m : ℚ) * ((n : ℚ) / 120)| < 1 / ((120 : ℕ) : ℚ) := by
    rw [abs_lt]
    have e1 : (m : ℚ) * (x - (n : ℚ) / 120) = m * x - m * ((n : ℚ) / 120) := by ring
    rw [e1] at hxd2
    constructor <;> norm_num <;> linarith [hxd2.1, hxd2.2, hpe.1, hpe.2]
  have hfa := floor_add_small (m * n + 60) 120 (by norm_num) _ hδ
  have hN : (((m * n + 60 : ℤ) : ℚ)) / ((120 : ℕ) : ℚ) = (m : ℚ) * ((n : ℚ) / 120) + 1 / 2 := by
    push_cast; ring
  have hsum : (((m * n + 60 : ℤ) : ℚ)) / ((120 : ℕ) : ℚ) + (p - (m : ℚ) * ((n : ℚ) / 120))
      = p + 1 / 2 := by rw [hN]; ring
  rw [hsum, hN] at hfa
  refine ⟨⌊p + 1 / 2⌋, by rw [hT, hp]; simp [Math.round, roundQ_eq_floor], ?_⟩
  by_cases hd : ((120 : ℕ) : ℤ) ∣ m * n + 60
  · rcases hfa.2 hd with h | h
    · exact Or.inl h
    · refine Or.inr ⟨h, ?_⟩
      obtain ⟨c, hc⟩ := hd
      refine ⟨c - 1, ?_⟩
      have hcq : ((m * n + 60 : ℤ) : ℚ) = (((120 : ℕ) : ℤ) * c : ℤ) := by rw [hc]
      push_cast at hcq
      push_cast
      linarith
  · exact Or.inl (hfa.1 hd)


theorem jsLength_answer84 : jsLength answer84 = 84 := by decide

theorem binary64_seven_tenths :
    binary64 ((84 : ℚ) / 120) = .fin (3152519739159347 / 4503599627370496) := by
  have h := binary64_of_binade (84 / 120) (-1) 6305039478318694 (by norm_num) (by norm_num)
    (by norm_num) (by rw [abs_lt]; constructor <;> norm_num) (by norm_num)
  rw [h]; congr 1; norm_num

theorem binary64_product_45 :
    binary64 ((45 : ℚ) * (3152519739159347 / 4503599627370496))
      = .fin (8866461766385663 / 281474976710656) := by
  have h := binary64_of_binade (45 * (3152519739159347 / 4503599627370496)) 4 8866461766385663
    (by norm_num) (by norm_num) (by norm_num) (by rw [abs_lt]; constructor <;> norm_num)
    (by norm_num)
  rw [h]; congr 1; norm_num

theorem tier1Marks_question45 : tier1Marks .mark question45 answer84 = some (.fin 31) := by
  have hx : lengthScore answer84 = .fin (3152519739159347 / 4503599627370496) := by
    unfold lengthScore
    rw [jsLength_answer84]
    have : ((84 : ℕ) : ℚ) / 120 = 84 / 120 := by norm_num
    rw [this, binary64_seven_tenths]
    simp [Math.min]
    norm_num
  have h45 : binary64 (45 : ℚ) = .fin 45 := by
    simpa using binary64_intCast 45 (by norm_num) (by norm_num)
  have hx64 : binary64 ((3152519739159347 : ℚ) / 4503599627370496)
      = .fin (3152519739159347 / 4503599627370496) :=
    binary64_idem _ _ (by norm_num) binary64_seven_tenths
  have hmul : (JNum.fin 45).mul (JNum.fin (3152519739159347 / 4503599627370496))
      = .fin (8866461766385663 / 281474976710656) := by
    simp only [JNum.mul, if_pos (And.intro h45 hx64), binary64_product_45]
  simp only [tier1Marks, question45, hx, hmul, if_true, Math.round, roundQ_eq_floor]
  congr 2
  have : ⌊(8866461766385663 : ℚ) / 281474976710656 + 1 / 2⌋ = 31 := by
    rw [Int.floor_eq_iff]; constructor <;> norm_num
  rw [this]; norm_num

theorem tier1Marks_sample : tier1Marks .mark sampleQuestion sampleAnswer = some (.fin 5) := by
  obtain ⟨r, hr, h⟩ := tier1Marks_exactness sampleQuestion sampleAnswer 10 (by norm_num)
    (by norm_num) (by norm_num [sampleQuestion])
  rw [jsLength_sampleAnswer] at h
  have hmin : min (((60 : ℕ) : ℚ) / 120) 1 = 1 / 2 := by norm_num
  have hf : ⌊((10 : ℤ) : ℚ) * (1 / 2) + 1 / 2⌋ = 5 := by
    rw [Int.floor_eq_iff]; norm_num
  rw [hmin, hf] at h
  rcases h with h | ⟨-, k, hk⟩
  · rw [hr, h]; norm_num
  · exfalso
    have h2 : ((2 * k + 1 : ℤ) : ℚ) = 10 := by push_cast; linarith
    have h3 : 2 * k + 1 = 10 := by exact_mod_cast h2
    omega

/-! ## Tier 1 -/

/-- Claim C1, as stated, fails: for a question of 45 marks and an answer of 84
characters the exact formula `round(45 * min(84 / 120, 1))` is 32, but the
Tier-1 mark is 31 and the score text is `31/45`, with no credential the mark
that is recorded: the quotient 0.7 is no binary64 value and the binary64
product is 31.499999999999996. -/
theorem tier1_mark_below_exact_formula :
    question45.max_marks = .fin 45 ∧ jsLength answer84 = 84 ∧
      ⌊(45 : ℚ) * min ((84 : ℚ) / 120) 1 + 1 / 2⌋ = 32 ∧
      tier1Marks .mark question45 answer84 = some (.fin 31) ∧
      (tier1Feedback .mark question45 (tier1Marks .mark question45 answer84)).scoreText = "31/45" ∧
      (evaluateAttempt (fun _ => none) envNoKey .mark question45 answer84).marksAwarded
        = some (.fin 31) := by
  refine ⟨rfl, jsLength_answer84, ?_, tier1Marks_question45, ?_, ?_⟩
  · rw [Int.floor_eq_iff]; constructor <;> norm_num
  · rw [tier1Marks_question45]
    decide
  · simp [evaluateAttempt, maybeRunGemini, envNoKey, tier1Marks_question45]

/-- Claim C1, amended: for a question whose `max_marks` is a positive integer
`m` and any answer text, the Tier-1 `marksAwarded` in mode `mark` is an integer
between `0` and `m`; for `m` up to `2^44` it is the exact
`round(m * min(len / 120, 1))` (round half up) unless the exact product lies
half-way between two integers, where the binary64 arithmetic may give one
less; and for `m` up to `2^53` the Tier-1 `scoreText` is the digits of that
mark, a slash and the digits of `m`. -/
theorem tier1_marks_binary64 (question : Question) (answerText : String) (m : ℤ)
    (hm : 0 < m) (hq : question.max_marks = .fin (m : ℚ)) :
    ∃ r : ℤ, tier1Marks .mark question answerText = some (.fin (r : ℚ)) ∧ 0 ≤ r ∧ r ≤ m ∧
      (m ≤ 2 ^ 44 →
        (r = ⌊(m : ℚ) * min ((jsLength answerText : ℚ) / 120) 1 + 1 / 2⌋ ∨
          (r = ⌊(m : ℚ) * min ((jsLength answerText : ℚ) / 120) 1 + 1 / 2⌋ - 1 ∧
            ∃ k : ℤ, (m : ℚ) * min ((jsLength answerText : ℚ) / 120) 1 = k + 1 / 2))) ∧
      (m ≤ 2 ^ 53 →
        (tier1Feedback .mark question (tier1Marks .mark question answerText)).scoreText
          = toString r ++ "/" ++ toString m) := by
  obtain ⟨r2, hr2, h0, h1⟩ := tier1Marks_bounds question answerText m hm.le hq
  refine ⟨r2, hr2, h0, h1, ?_, ?_⟩
  · intro hm2
    obtain ⟨r, hr, hex⟩ := tier1Marks_exactness question answerText m hm hm2 hq
    have hrr : r2 = r := by
      rw [hr] at hr2
      injection hr2 with h
      injection h with h
      exact_mod_cast h.symm
    rw [hrr]
    exact hex
  · intro hm53
    rw [hr2]
    have hmn : m.natAbs ≤ 2 ^ 53 := by omega
    have hrn : r2.natAbs ≤ 2 ^ 53 := by omega
    simp only [tier1Feedback, hq, toStr_intCast _ hmn, toStr_intCast _ hrn]

/-- Witness for C1: with `max_marks = 10` and an answer of 60 characters the
Tier-1 mark is 5 and the score text is `5/10`. -/
theorem tier1_marks_binary64_witness :
    tier1Marks .mark sampleQuestion sampleAnswer = some (.fin 5) ∧
      (tier1Feedback .mark sampleQuestion
        (tier1Marks .mark sampleQuestion sampleAnswer)).scoreText = "5/10" := by
  obtain ⟨r, hr, -, -, hex', hs'⟩ := tier1_marks_binary64 sampleQuestion sampleAnswer 10
    (by norm_num) (by norm_num [sampleQuestion])
  have hex := hex' (by norm_num)
  have hs := hs' (by norm_num)
  rw [jsLength_sampleAnswer] at hex
  have hmin : min (((60 : ℕ) : ℚ) / 120) 1 = 1 / 2 := by norm_num
  have hf : ⌊((10 : ℤ) : ℚ) * (1 / 2) + 1 / 2⌋ = 5 := by
    rw [Int.floor_eq_iff]; norm_num
  rw [hmin, hf] at hex
  have h5 : r = 5 := by
    rcases hex with h | ⟨-, k, hk⟩
    · exact h
    · exfalso
      have h2 : ((2 * k + 1 : ℤ) : ℚ) = 10 := by push_cast; linarith
      have h3 : 2 * k + 1 = 10 := by exact_mod_cast h2
      omega
  subst h5
  refine ⟨by rw [hr]; norm_num, ?_⟩
  rw [hs]
  decide

/-! ## Lemmas on `clampMarks` -/

theorem clampMarks_fin (x : ℚ) (M : ℤ) :
    clampMarks (.num (.fin x)) (.fin (M : ℚ))
      = some (.fin ((max 0 (min M ⌊x + 1 / 2⌋) : ℤ) : ℚ)) := by
  simp [clampMarks, Math.round, Math.min, Math.max, roundQ_eq_floor]

theorem clampMarks_posInf (M : ℤ) (hM : 0 ≤ M) :
    clampMarks (.num .posInf) (.fin (M : ℚ)) = some (.fin (M : ℚ)) := by
  have : (0 : ℚ) ≤ M := by exact_mod_cast hM
  simp [clampMarks, Math.round, Math.min, Math.max, this]

theorem clampMarks_negInf (M : ℤ) :
    clampMarks (.num .negInf) (.fin (M : ℚ)) = some (.fin 0) := by
  simp [clampMarks, Math.round, Math.min, Math.max]

theorem clampMarks_not_number (v : JVal) (max : JNum) (h : ∀ n, v ≠ .num n) :
    clampMarks v max = none := by
  cases v with
  | num n => exact absurd rfl (h n)
  | _ => rfl

theorem clampMarks_range (v : JVal) (M : ℤ) (hM : 0 ≤ M) :
    clampMarks v (.fin (M : ℚ)) = none ∨
      ∃ r : ℤ, clampMarks v (.fin (M : ℚ)) = some (.fin (r : ℚ)) ∧ 0 ≤ r ∧ r ≤ M := by
  cases v with
  | num n =>
    cases n with
    | nan => left; simp [clampMarks]
    | negInf => right; exact ⟨0, by simpa using clampMarks_negInf M, le_refl _, hM⟩
    | posInf => right; exact ⟨M, clampMarks_posInf M hM, hM, le_refl _⟩
    | fin x =>
      right
      exact ⟨_, clampMarks_fin x M, le_max_left _ _, max_le hM (min_le_left _ _)⟩
  | _ => left; rfl

theorem round_half_up_mono : Monotone fun y : ℚ => ⌊y + 1 / 2⌋ := by
  intro a b hab
  exact Int.floor_mono (by linarith)

theorem round_half_up_intCast (k : ℤ) : ⌊(k : ℚ) + 1 / 2⌋ = k := by
  rw [Int.floor_eq_iff]
  constructor <;> linarith

theorem round_clamp_comm (x : ℚ) (M : ℤ) :
    ⌊max (0 : ℚ) (min (M : ℚ) x) + 1 / 2⌋ = max 0 (min M ⌊x + 1 / 2⌋) := by
  have h1 : ⌊max (0 : ℚ) (min (M : ℚ) x) + 1 / 2⌋
      = max ⌊(0 : ℚ) + 1 / 2⌋ ⌊min (M : ℚ) x + 1 / 2⌋ := round_half_up_mono.map_max
  have h2 : ⌊min (M : ℚ) x + 1 / 2⌋ = min ⌊(M : ℚ) + 1 / 2⌋ ⌊x + 1 / 2⌋ :=
    round_half_up_mono.map_min
  have h0 := round_half_up_intCast 0
  simp only [Int.cast_zero] at h0
  rw [h1, h2, round_half_up_intCast M, h0]

theorem round_half_up_near (x : ℚ) : |((⌊x + 1 / 2⌋ : ℤ) : ℚ) - x| ≤ 1 / 2 := by
  have h1 := Int.floor_le (x + 1 / 2)
  have h2 := Int.lt_floor_add_one (x + 1 / 2)
  rw [abs_le]
  constructor <;> linarith

/-! ## Lemmas on `maybeRunGemini` -/

theorem maybeRunGemini_of_yields (parse : String → Option JVal) (env : Env) (mode : Mode)
    (question : Question) (answerText : String) (parsed : JVal)
    (h : Tier2Yields parse env mode question answerText parsed) :
    maybeRunGemini parse env mode question answerText =
      some {
        marksAwarded :=
          if mode = .mark then clampMarks (parsed.getProp "marks_awarded") question.max_marks
          else none
        summary := (parsed.getProp "summary").or (parsed.getProp "comment")
        steps := validSteps (parsed.getProp "steps") } := by
  obtain ⟨key, data, text, hk, hne, hf, he, hp, ht⟩ := h
  rw [requestUrl] at hf
  simp [maybeRunGemini, hk, hne, hf, he, hp, ht]

theorem maybeRunGemini_cases (parse : String → Option JVal) (env : Env) (mode : Mode)
    (question : Question) (answerText : String) :
    maybeRunGemini parse env mode question answerText = none ∨
      ∃ parsed, Tier2Yields parse env mode question answerText parsed := by
  unfold maybeRunGemini
  cases hk : env.GOOGLE_API_KEY with
  | none => simp
  | some key =>
    by_cases hne : key = ""
    · simp [hne]
    · cases hf : env.fetch (geminiUrl ++ "?key=" ++ key)
          (buildGeminiPrompt mode question answerText) with
      | rejected => simp [hne, hf]
      | notOk st => simp [hne, hf]
      | ok body =>
        cases body with
        | none => simp [hne, hf]
        | some data =>
          cases he : extractGeminiText data with
          | none => simp [hne, hf, he]
          | some text =>
            cases hp : parseGeminiFeedback parse text with
            | none => simp [hne, hf, he, hp]
            | some parsed =>
              by_cases ht : parsed.truthy = true
              · right
                exact ⟨parsed, key, data, text, hk, hne, hf, he, hp, ht⟩
              · simp [hne, hf, he, hp, ht]

theorem maybeRunGemini_of_unavailable (parse : String → Option JVal) (env : Env) (mode : Mode)
    (question : Question) (answerText : String)
    (h : Tier2Unavailable parse env mode question answerText) :
    maybeRunGemini parse env mode question answerText = none := by
  unfold maybeRunGemini
  cases h with
  | noKey hk => simp [hk]
  | emptyKey hk => simp [hk]
  | fetchThrows key hk hf =>
    rw [requestUrl] at hf
    by_cases hne : key = "" <;> simp [hk, hne, hf]
  | notOk key st hk hf =>
    rw [requestUrl] at hf
    by_cases hne : key = "" <;> simp [hk, hne, hf]
  | bodyThrows key hk hf =>
    rw [requestUrl] at hf
    by_cases hne : key = "" <;> simp [hk, hne, hf]
  | extractThrows key data hk hf he =>
    rw [requestUrl] at hf
    by_cases hne : key = "" <;> simp [hk, hne, hf, he]
  | noJson key data text hk hf he hp =>
    rw [requestUrl] at hf
    by_cases hne : key = "" <;> simp [hk, hne, hf, he, hp]

/-! ## The fallback contract -/

/-- Claim C2: whenever Tier 2 is unavailable (no credential, the call rejects,
the response is not ok, reading or extracting the body throws, or the text
holds no parseable JSON object), `maybeRunGemini` returns `null` and the
`marksAwarded` and `feedback` of `handleCreateAttempt` are exactly the Tier-1
values. -/
theorem tier2_unavailable_gives_tier1 (parse : String → Option JVal) (env : Env) (mode : Mode)
    (question : Question) (answerText : String)
    (h : Tier2Unavailable parse env mode question answerText) :
    maybeRunGemini parse env mode question answerText = none ∧
      (evaluateAttempt parse env mode question answerText).marksAwarded
        = tier1Marks mode question answerText ∧
      (evaluateAttempt parse env mode question answerText).feedback
        = tier1Feedback mode question (tier1Marks mode question answerText) := by
  have hn := maybeRunGemini_of_unavailable parse env mode question answerText h
  refine ⟨hn, ?_, ?_⟩ <;> simp [evaluateAttempt, hn]

/-- Witness for C2: with no credential configured the evaluation of the sample
answer is the Tier-1 one. -/
theorem tier2_unavailable_gives_tier1_witness :
    maybeRunGemini (fun _ => none) envNoKey .mark sampleQuestion sampleAnswer = none ∧
      (evaluateAttempt (fun _ => none) envNoKey .mark sampleQuestion sampleAnswer).marksAwarded
        = tier1Marks .mark sampleQuestion sampleAnswer ∧
      (evaluateAttempt (fun _ => none) envNoKey .mark sampleQuestion sampleAnswer).feedback
        = tier1Feedback .mark sampleQuestion (tier1Marks .mark sampleQuestion sampleAnswer) :=
  tier2_unavailable_gives_tier1 (fun _ => none) envNoKey .mark sampleQuestion sampleAnswer
    (Tier2Unavailable.noKey rfl)

/-- The evaluation in mode `explain`: the final `marksAwarded` is `null` and the
final `scoreText` is `Explanation only`, whatever the answer and whatever Tier 2
does. -/
theorem explain_evaluation_no_marks (parse : String → Option JVal) (env : Env)
    (question : Question) (answerText : String) :
    (evaluateAttempt parse env .explain question answerText).marksAwarded = none ∧
      (evaluateAttempt parse env .explain question answerText).feedback.scoreText
        = "Explanation only" := by
  rcases maybeRunGemini_cases parse env .explain question answerText with hn | ⟨parsed, hy⟩
  · simp [evaluateAttempt, hn, tier1Marks, tier1Feedback]
  · have hs := maybeRunGemini_of_yields parse env .explain question answerText parsed hy
    simp [evaluateAttempt, hs, applyAiFeedback, tier1Marks]

/-- Claim C4: when `max_marks` is a positive integer `m`, the `marksAwarded`
bound into the insert is `null` or an integer between `0` and `m`, for every
answer, mode and Tier-2 behaviour. -/
theorem marks_invariant (parse : String → Option JVal) (env : Env) (mode : Mode)
    (question : Question) (answerText : String) (m : ℤ)
    (hm : 0 < m) (hq : question.max_marks = .fin (m : ℚ)) :
    (evaluateAttempt parse env mode question answerText).marksAwarded = none ∨
      ∃ r : ℤ, (evaluateAttempt parse env mode question answerText).marksAwarded
          = some (.fin (r : ℚ)) ∧ 0 ≤ r ∧ r ≤ m := by
  have htier : tier1Marks mode question answerText = none ∨
      ∃ r : ℤ, tier1Marks mode question answerText = some (.fin (r : ℚ)) ∧ 0 ≤ r ∧ r ≤ m := by
    cases mode with
    | explain => left; simp [tier1Marks]
    | mark =>
      right
      exact tier1Marks_bounds question answerText m hm.le hq
  rcases maybeRunGemini_cases parse env mode question answerText with hn | ⟨parsed, hy⟩
  · simpa [evaluateAttempt, hn] using htier
  · have hs := maybeRunGemini_of_yields parse env mode question answerText parsed hy
    cases mode with
    | explain => left; simp [evaluateAttempt, hs, applyAiFeedback, tier1Marks]
    | mark =>
      rcases clampMarks_range (parsed.getProp "marks_awarded") m hm.le with hc | ⟨r, hc, h0, h1⟩
      · simpa [evaluateAttempt, hs, applyAiFeedback, hq, hc] using htier
      · right
        exact ⟨r, by simp [evaluateAttempt, hs, applyAiFeedback, hq, hc], h0, h1⟩

/-! ## Lemmas on the sample replies -/

theorem extractGeminiText_payload (text : String) :
    extractGeminiText (geminiPayload text) = some (jsTrim text) := by
  simp [extractGeminiText, geminiPayload, JVal.optProp, JVal.optIdx, JVal.isNullish,
    JVal.getProp, JVal.getIdx, List.lookup, partText, partTexts, JVal.prop?, String.intercalate,
    String.intercalate.go]

theorem parseGeminiFeedback_parseOnly (text src : String) (v : JVal)
    (h : matchBraces text.toList = some src.toList) :
    parseGeminiFeedback (parseOnly src v) text = some v := by
  have hne : text ≠ "" := by
    rintro rfl
    simp [matchBraces] at h
  rw [parseGeminiFeedback, if_neg hne, h]
  simp [parseOnly]

theorem tier2Yields_envAnswering (text src : String) (v : JVal) (mode : Mode)
    (question : Question) (answerText : String)
    (h : matchBraces (jsTrim text).toList = some src.toList) (hv : v.truthy = true) :
    Tier2Yields (parseOnly src v) (envAnswering text) mode question answerText v :=
  ⟨"k", geminiPayload text, jsTrim text, rfl, by decide, rfl, extractGeminiText_payload text,
    parseGeminiFeedback_parseOnly _ _ _ h, hv⟩

/-- Witness for C4: the model answers with 42 marks out of 10 and the recorded
mark is 10, within the range. -/
theorem marks_invariant_witness :
    (evaluateAttempt (parseOnly overMarksText overMarksValue) (envAnswering overMarksText)
        .mark sampleQuestion sampleAnswer).marksAwarded = some (.fin 10) ∧
      ((evaluateAttempt (parseOnly overMarksText overMarksValue) (envAnswering overMarksText)
          .mark sampleQuestion sampleAnswer).marksAwarded = none ∨
        ∃ r : ℤ, (evaluateAttempt (parseOnly overMarksText overMarksValue)
            (envAnswering overMarksText) .mark sampleQuestion sampleAnswer).marksAwarded
              = some (.fin (r : ℚ)) ∧ 0 ≤ r ∧ r ≤ 10) := by
  refine ⟨?_, marks_invariant _ _ .mark sampleQuestion sampleAnswer 10 (by norm_num)
    (by norm_num [sampleQuestion])⟩
  have hy := maybeRunGemini_of_yields _ _ _ _ _ _
    (tier2Yields_envAnswering overMarksText overMarksText overMarksValue .mark sampleQuestion
      sampleAnswer (by decide) rfl)
  have hc : clampMarks (overMarksValue.getProp "marks_awarded") sampleQuestion.max_marks
      = some (.fin 10) := by
    have h := clampMarks_fin 42 10
    have hf : ⌊(42 : ℚ) + 1 / 2⌋ = 42 := by
      rw [Int.floor_eq_iff]
      norm_num
    rw [hf] at h
    norm_num at h
    simpa [overMarksValue, JVal.getProp, List.lookup, sampleQuestion] using h
  simp [evaluateAttempt, hy, applyAiFeedback, hc]

/-- Claim C5, the code at the failing input: in mode `mark` the model answers
with an object that has a summary and no `marks_awarded`; the mark recorded is
the Tier-1 mark 5, yet the score text is `Explanation only` and not `5/10`. -/
theorem scoreText_disagrees_with_recorded_mark :
    (evaluateAttempt (parseOnly summaryOnlyText summaryOnlyValue) (envAnswering summaryOnlyText)
        .mark sampleQuestion sampleAnswer).marksAwarded = some (.fin 5) ∧
      (evaluateAttempt (parseOnly summaryOnlyText summaryOnlyValue) (envAnswering summaryOnlyText)
        .mark sampleQuestion sampleAnswer).feedback.scoreText = "Explanation only" ∧
      (tier1Feedback .mark sampleQuestion
        (tier1Marks .mark sampleQuestion sampleAnswer)).scoreText = "5/10" := by
  have hy := maybeRunGemini_of_yields _ _ _ _ _ _
    (tier2Yields_envAnswering summaryOnlyText summaryOnlyText summaryOnlyValue .mark
      sampleQuestion sampleAnswer (by decide) rfl)
  have hc : clampMarks (summaryOnlyValue.getProp "marks_awarded") sampleQuestion.max_marks
      = none := rfl
  refine ⟨?_, ?_, ?_⟩
  · simp [evaluateAttempt, hy, applyAiFeedback, tier1Marks_sample, hc]
  · simp [evaluateAttempt, hy, applyAiFeedback, hc]
  · rw [tier1Marks_sample]
    decide

/-! ## Field-by-field override -/

/-- Counterexample to C6 as stated: the model answers with an object that has
no `summary` key but a `comment`; the final summary is the comment, not the
Tier-1 summary. -/
theorem summary_falls_back_to_comment :
    (evaluateAttempt (parseOnly commentOnlyText commentOnlyValue) (envAnswering commentOnlyText)
        .mark sampleQuestion sampleAnswer).feedback.summary = .str "Check the sign." ∧
      commentOnlyValue.getProp "summary" = .undefined ∧
      (evaluateAttempt (parseOnly commentOnlyText commentOnlyValue) (envAnswering commentOnlyText)
        .mark sampleQuestion sampleAnswer).feedback.summary
        ≠ (tier1Feedback .mark sampleQuestion
            (tier1Marks .mark sampleQuestion sampleAnswer)).summary := by
  have hy := maybeRunGemini_of_yields _ _ _ _ _ _
    (tier2Yields_envAnswering commentOnlyText commentOnlyText commentOnlyValue .mark
      sampleQuestion sampleAnswer (by decide) rfl)
  have hs : (evaluateAttempt (parseOnly commentOnlyText commentOnlyValue)
      (envAnswering commentOnlyText) .mark sampleQuestion sampleAnswer).feedback.summary
        = .str "Check the sign." := by
    simp only [evaluateAttempt, hy, applyAiFeedback]
    simp [commentOnlyValue, JVal.getProp, List.lookup, JVal.or, JVal.truthy]
  refine ⟨hs, rfl, ?_⟩
  rw [hs]
  simp [tier1Feedback]

/-- Claim C6, amended: when Tier 2 yields a parsed object, the final summary is
the object's `summary` if truthy, else its `comment` if truthy, else the Tier-1
summary; the final steps are the validated steps if any remain, else the Tier-1
steps; the final `marksAwarded` is the clamped `marks_awarded` when the mode is
`mark` and it is a number other than `NaN`, else the Tier-1 `marksAwarded`. -/
theorem field_by_field_override (parse : String → Option JVal) (env : Env) (mode : Mode)
    (question : Question) (answerText : String) (parsed : JVal)
    (h : Tier2Yields parse env mode question answerText parsed) :
    (evaluateAttempt parse env mode question answerText).feedback.summary
        = (if (parsed.getProp "summary").truthy then parsed.getProp "summary"
           else if (parsed.getProp "comment").truthy then parsed.getProp "comment"
           else (tier1Feedback mode question (tier1Marks mode question answerText)).summary) ∧
      (evaluateAttempt parse env mode question answerText).feedback.steps
        = (if validSteps (parsed.getProp "steps") ≠ [] then validSteps (parsed.getProp "steps")
           else (tier1Feedback mode question (tier1Marks mode question answerText)).steps) ∧
      (∀ n, mode = .mark → parsed.getProp "marks_awarded" = .num n → n ≠ .nan →
        (evaluateAttempt parse env mode question answerText).marksAwarded
          = some (Math.max (.fin 0) (Math.min question.max_marks (Math.round n)))) ∧
      ((mode = .explain ∨ ∀ n, parsed.getProp "marks_awarded" = .num n → n = .nan) →
        (evaluateAttempt parse env mode question answerText).marksAwarded
          = tier1Marks mode question answerText) := by
  have hs := maybeRunGemini_of_yields parse env mode question answerText parsed h
  refine ⟨?_, ?_, ?_, ?_⟩
  · simp only [evaluateAttempt, hs, applyAiFeedback, JVal.or]
    split_ifs <;> rfl
  · simp only [evaluateAttempt, hs, applyAiFeedback]
    by_cases hv : validSteps (parsed.getProp "steps") = [] <;> simp [hv]
  · intro n hm hn hnan
    subst hm
    simp [evaluateAttempt, hs, applyAiFeedback, hn, clampMarks, hnan]
  · intro hcase
    have hnone : (if mode = .mark then
        clampMarks (parsed.getProp "marks_awarded") question.max_marks else none) = none := by
      rcases hcase with hm | hnum
      · simp [hm]
      · split_ifs
        · cases hv : parsed.getProp "marks_awarded" with
          | num n =>
            have := hnum n hv
            simp [clampMarks, this]
          | _ => rfl
        · rfl
    simp only [evaluateAttempt, hs, applyAiFeedback, hnone]

/-- Witness for C6 amended: for the comment-only reply the final summary is
the comment. -/
theorem field_by_field_override_witness :
    (evaluateAttempt (parseOnly commentOnlyText commentOnlyValue) (envAnswering commentOnlyText)
        .mark sampleQuestion sampleAnswer).feedback.summary
      = (if (commentOnlyValue.getProp "summary").truthy then commentOnlyValue.getProp "summary"
         else if (commentOnlyValue.getProp "comment").truthy
           then commentOnlyValue.getProp "comment"
         else (tier1Feedback .mark sampleQuestion
           (tier1Marks .mark sampleQuestion sampleAnswer)).summary) :=
  (field_by_field_override (parseOnly commentOnlyText commentOnlyValue)
    (envAnswering commentOnlyText) .mark sampleQuestion sampleAnswer commentOnlyValue
    (tier2Yields_envAnswering commentOnlyText commentOnlyText commentOnlyValue .mark
      sampleQuestion sampleAnswer (by decide) rfl)).1

/-! ## `clampMarks`: rounding, clamping, idempotence -/

/-- Claim C7: for a non-negative integer `max`, `clampMarks(value, max)` is
`null` when `value` is not a number or is `NaN`; for a finite `value` it is the
integer `r` nearest to `value` (half up) clamped into `[0, max]`: `0 ≤ r ≤ max`,
`r = 0` when the rounded value is below `0`, `r = max` when it is above `max`,
the rounded value otherwise, and rounding then clamping equals clamping then
rounding; an infinite `value` gives the matching end of the range. -/
theorem clampMarks_rounds_then_clamps (M : ℤ) (hM : 0 ≤ M) :
    (∀ v : JVal, (∀ n, v ≠ .num n) → clampMarks v (.fin (M : ℚ)) = none) ∧
      clampMarks (.num .nan) (.fin (M : ℚ)) = none ∧
      clampMarks (.num .posInf) (.fin (M : ℚ)) = some (.fin (M : ℚ)) ∧
      clampMarks (.num .negInf) (.fin (M : ℚ)) = some (.fin 0) ∧
      ∀ x : ℚ, ∃ r : ℤ,
        clampMarks (.num (.fin x)) (.fin (M : ℚ)) = some (.fin (r : ℚ)) ∧
          0 ≤ r ∧ r ≤ M ∧
          (⌊x + 1 / 2⌋ < 0 → r = 0) ∧
          (M < ⌊x + 1 / 2⌋ → r = M) ∧
          (0 ≤ ⌊x + 1 / 2⌋ → ⌊x + 1 / 2⌋ ≤ M → r = ⌊x + 1 / 2⌋) ∧
          r = ⌊max (0 : ℚ) (min (M : ℚ) x) + 1 / 2⌋ ∧
          |((⌊x + 1 / 2⌋ : ℤ) : ℚ) - x| ≤ 1 / 2 := by
  refine ⟨fun v hv => clampMarks_not_number v _ hv, by simp [clampMarks],
    clampMarks_posInf M hM, clampMarks_negInf M, ?_⟩
  intro x
  refine ⟨max 0 (min M ⌊x + 1 / 2⌋), clampMarks_fin x M, le_max_left _ _,
    max_le hM (min_le_left _ _), ?_, ?_, ?_, (round_clamp_comm x M).symm, round_half_up_near x⟩
  · intro hlt
    exact max_eq_left ((min_le_right _ _).trans hlt.le)
  · intro hlt
    rw [min_eq_left hlt.le, max_eq_right hM]
  · intro h0 h1
    rw [min_eq_right h1, max_eq_right h0]

/-- Witness for C7: with `max = 10`, the values 3.5, -2 and 42 clamp to 4, 0
and 10, and a string clamps to `null`. -/
theorem clampMarks_rounds_then_clamps_witness :
    clampMarks (.num (.fin (7 / 2))) (.fin 10) = some (.fin 4) ∧
      clampMarks (.num (.fin (-2))) (.fin 10) = some (.fin 0) ∧
      clampMarks (.num (.fin 42)) (.fin 10) = some (.fin 10) ∧
      clampMarks (.str "7") (.fin 10) = none := by
  have h := clampMarks_rounds_then_clamps 10 (by norm_num)
  have f1 : ⌊(7 / 2 : ℚ) + 1 / 2⌋ = 4 := by
    rw [Int.floor_eq_iff]
    norm_num
  have f2 : ⌊(-2 : ℚ) + 1 / 2⌋ = -2 := by
    rw [Int.floor_eq_iff]
    norm_num
  have f3 : ⌊(42 : ℚ) + 1 / 2⌋ = 42 := by
    rw [Int.floor_eq_iff]
    norm_num
  refine ⟨?_, ?_, ?_, ?_⟩
  · obtain ⟨r, hr, _, _, _, _, h3, _, _⟩ := h.2.2.2.2 (7 / 2)
    rw [f1] at h3
    have hr4 : r = 4 := h3 (by norm_num) (by norm_num)
    subst hr4
    simpa using hr
  · obtain ⟨r, hr, _, _, h1, _, _, _, _⟩ := h.2.2.2.2 (-2)
    rw [f2] at h1
    have hr0 : r = 0 := h1 (by norm_num)
    subst hr0
    simpa using hr
  · obtain ⟨r, hr, _, _, _, h2, _, _, _⟩ := h.2.2.2.2 42
    rw [f3] at h2
    have hr10 : r = 10 := h2 (by norm_num)
    subst hr10
    simpa using hr
  · simpa using h.1 (.str "7") (fun n hn => by cases hn)

/-- Claim C8: `clampMarks` is idempotent for a non-negative integer `max`: an
integer already in `[0, max]` is returned unchanged, clamping the result of a
clamp of any number gives that result again, and a value that is not a number
clamps to `null`. -/
theorem clampMarks_idempotent (M : ℤ) (hM : 0 ≤ M) :
    (∀ v : ℤ, 0 ≤ v → v ≤ M →
        clampMarks (.num (.fin (v : ℚ))) (.fin (M : ℚ)) = some (.fin (v : ℚ))) ∧
      (∀ n : JNum,
        clampMarks (JVal.ofMark (clampMarks (.num n) (.fin (M : ℚ)))) (.fin (M : ℚ))
          = clampMarks (.num n) (.fin (M : ℚ))) ∧
      (∀ v : JVal, (∀ n, v ≠ .num n) → clampMarks v (.fin (M : ℚ)) = none) := by
  have hfix : ∀ v : ℤ, 0 ≤ v → v ≤ M →
      clampMarks (.num (.fin (v : ℚ))) (.fin (M : ℚ)) = some (.fin (v : ℚ)) := by
    intro v h0 h1
    rw [clampMarks_fin, round_half_up_intCast, min_eq_right h1, max_eq_right h0]
  refine ⟨hfix, ?_, fun v hv => clampMarks_not_number v _ hv⟩
  intro n
  rcases clampMarks_range (.num n) M hM with hc | ⟨r, hc, h0, h1⟩
  · rw [hc]
    rfl
  · rw [hc]
    exact hfix r h0 h1

/-- Witness for C8: with `max = 10`, the integer 7 is unchanged, and clamping
the clamp of 42 gives 10 again. -/
theorem clampMarks_idempotent_witness :
    clampMarks (.num (.fin 7)) (.fin 10) = some (.fin 7) ∧
      clampMarks (JVal.ofMark (clampMarks (.num (.fin 42)) (.fin 10))) (.fin 10)
        = clampMarks (.num (.fin 42)) (.fin 10) := by
  have h := clampMarks_idempotent 10 (by norm_num)
  refine ⟨?_, ?_⟩
  · simpa using h.1 7 (by norm_num) (by norm_num)
  · simpa using h.2.1 (.fin 42)

/-! ## Steps validation -/

theorem map_trim_filterMap_keepStep (l : List JVal) :
    (l.filterMap keepStep).map jsTrim
      = (l.filterMap trimmedString).filter fun s => decide (s ≠ "") := by
  induction l with
  | nil => rfl
  | cons a t ih =>
    cases a with
    | str s =>
      by_cases hs : jsTrim s = ""
      · simp [List.filterMap_cons, keepStep, trimmedString, hs, ih]
      · simp [List.filterMap_cons, keepStep, trimmedString, hs, ih]
    | _ => simpa [List.filterMap_cons, keepStep, trimmedString] using ih

theorem specSteps_of_short (l : List JVal) (h : l.length ≤ 6) :
    specSteps l = (l.filterMap trimmedString).filter fun s => decide (s ≠ "") := by
  unfold specSteps
  apply List.take_of_length_le
  exact (List.length_filter_le _ _).trans ((List.length_filterMap_le _ _).trans h)

theorem map_str_filterMap_keepStep_sublist (l : List JVal) :
    List.Sublist ((l.filterMap keepStep).map JVal.str) l := by
  induction l with
  | nil => exact List.Sublist.slnil
  | cons a t ih =>
    cases a with
    | str s =>
      by_cases hs : jsTrim s = ""
      · simpa [List.filterMap_cons, keepStep, hs] using ih.cons _
      · simpa [List.filterMap_cons, keepStep, hs] using ih.cons₂ (JVal.str s)
    | _ => simpa [List.filterMap_cons, keepStep] using ih.cons _

theorem mem_filterMap_keepStep (l : List JVal) (s : String) :
    s ∈ l.filterMap keepStep ↔ JVal.str s ∈ l ∧ jsTrim s ≠ "" := by
  rw [List.mem_filterMap]
  constructor
  · rintro ⟨a, ha, hk⟩
    cases a with
    | str t =>
      by_cases ht : jsTrim t = ""
      · simp [keepStep, ht] at hk
      · simp [keepStep, ht] at hk
        subst hk
        exact ⟨ha, ht⟩
    | _ => simp [keepStep] at hk
  · rintro ⟨hm, hs⟩
    exact ⟨_, hm, by simp [keepStep, hs]⟩

/-- Counterexample to C9 as stated: on an array of seven entries whose first
is a number and whose second has surrounding blanks, the code returns five
untrimmed steps where the reference definition returns six trimmed ones. -/
theorem steps_cap_precedes_filter :
    validSteps (.arr sevenSteps) = [" a ", "b", "c", "d", "e"] ∧
      specSteps sevenSteps = ["a", "b", "c", "d", "e", "f"] ∧
      validSteps (.arr sevenSteps) ≠ specSteps sevenSteps := by
  decide

/-- Claim C9, amended: the returned steps are those of the first 6 entries of
the array that are strings with a non-empty trimmed form, each kept untrimmed
and in order; trimming them gives the reference definition applied to the first
6 entries, which is a prefix of the reference result on the whole array and
equals it when the array has at most 6 entries. -/
theorem steps_validated_after_cap (items : List JVal) :
    (validSteps (.arr items)).map jsTrim = specSteps (items.take 6) ∧
      (validSteps (.arr items)).map jsTrim <+: specSteps items ∧
      (items.length ≤ 6 → (validSteps (.arr items)).map jsTrim = specSteps items) ∧
      (validSteps (.arr items)).length ≤ 6 ∧
      List.Sublist ((validSteps (.arr items)).map JVal.str) (items.take 6) ∧
      ∀ s, s ∈ validSteps (.arr items) ↔ JVal.str s ∈ items.take 6 ∧ jsTrim s ≠ "" := by
  have hlen : (items.take 6).length ≤ 6 := by simp
  have h1 : (validSteps (.arr items)).map jsTrim = specSteps (items.take 6) := by
    rw [specSteps_of_short _ hlen]
    exact map_trim_filterMap_keepStep _
  refine ⟨h1, ?_, ?_, ?_, map_str_filterMap_keepStep_sublist _, mem_filterMap_keepStep _⟩
  · rw [h1, specSteps_of_short _ hlen]
    unfold specSteps
    rw [List.prefix_take_iff]
    refine ⟨((List.take_prefix 6 items).filterMap _).filter _, ?_⟩
    exact (List.length_filter_le _ _).trans ((List.length_filterMap_le _ _).trans hlen)
  · intro hle
    rw [h1, List.take_of_length_le hle]
  · exact (List.length_filterMap_le _ _).trans hlen

/-- Witness for C9 amended: on a three-entry array the trimmed result of the
code is the reference result. -/
theorem steps_validated_after_cap_witness :
    (validSteps (.arr [.str " a ", .num (.fin 1), .str " "])).map jsTrim
      = specSteps [.str " a ", .num (.fin 1), .str " "] :=
  (steps_validated_after_cap [.str " a ", .num (.fin 1), .str " "]).2.2.1 (by decide)

/-! ## JSON extraction -/

theorem dropWhile_eq_cons_split {α : Type} (p : α → Bool) (l : List α) (a : α) (r : List α)
    (h : l.dropWhile p = a :: r) : l = l.takeWhile p ++ a :: r ∧ p a = false := by
  constructor
  · rw [← h, List.takeWhile_append_dropWhile]
  · induction l with
    | nil => simp at h
    | cons b t ih =>
      by_cases hb : p b = true
      · rw [List.dropWhile_cons_of_pos hb] at h
        exact ih h
      · rw [List.dropWhile_cons_of_neg hb] at h
        injection h with h1 h2
        subst h1
        simpa using hb

theorem dropWhile_skip {α : Type} (p : α → Bool) (l : List α) (a : α) (r : List α)
    (hl : ∀ x ∈ l, p x = true) (ha : p a = false) : (l ++ a :: r).dropWhile p = a :: r := by
  rw [List.dropWhile_append_of_pos hl, List.dropWhile_cons_of_neg (by simp [ha])]

theorem matchBraces_split (pre mid post : List Char)
    (hpre : openBrace ∉ pre) (hpost : closeBrace ∉ post) :
    matchBraces (pre ++ openBrace :: (mid ++ closeBrace :: post))
      = some (openBrace :: (mid ++ [closeBrace])) := by
  have h1 : (pre ++ openBrace :: (mid ++ closeBrace :: post)).dropWhile (fun c => c != openBrace)
      = openBrace :: (mid ++ closeBrace :: post) := by
    apply dropWhile_skip
    · intro x hx
      have : x ≠ openBrace := fun h => hpre (h ▸ hx)
      simpa using this
    · simp
  have h2 : ((mid ++ closeBrace :: post).reverse.dropWhile (fun d => d != closeBrace)).reverse
      = mid ++ [closeBrace] := by
    have : (mid ++ closeBrace :: post).reverse = post.reverse ++ closeBrace :: mid.reverse := by
      simp
    rw [this, dropWhile_skip]
    · simp
    · intro x hx
      have hx' : x ∈ post := List.mem_reverse.mp hx
      have : x ≠ closeBrace := fun h => hpost (h ▸ hx')
      simpa using this
    · simp
  unfold matchBraces
  rw [h1]
  simp only [h2]
  cases mid <;> rfl

theorem matchBraces_some_split (cs m : List Char) (h : matchBraces cs = some m) :
    ∃ pre mid post, cs = pre ++ openBrace :: (mid ++ closeBrace :: post) ∧
      openBrace ∉ pre ∧ closeBrace ∉ post ∧ m = openBrace :: (mid ++ [closeBrace]) := by
  unfold matchBraces at h
  cases h1 : cs.dropWhile (fun c => c != openBrace) with
  | nil => simp [h1] at h
  | cons c rest =>
    obtain ⟨hcs, hc⟩ := dropWhile_eq_cons_split _ _ _ _ h1
    have hc' : c = openBrace := by simpa using hc
    subst hc'
    cases h2 : rest.reverse.dropWhile (fun d => d != closeBrace) with
    | nil => simp [h1, h2] at h
    | cons d r =>
      obtain ⟨hrest, hd⟩ := dropWhile_eq_cons_split _ _ _ _ h2
      have hd' : d = closeBrace := by simpa using hd
      subst hd'
      have hrest' : rest = r.reverse ++ closeBrace ::
          (rest.reverse.takeWhile (fun d => d != closeBrace)).reverse := by
        have := congrArg List.reverse hrest
        simpa using this
      refine ⟨cs.takeWhile (fun c => c != openBrace), r.reverse,
        (rest.reverse.takeWhile (fun d => d != closeBrace)).reverse, ?_, ?_, ?_, ?_⟩
      · rw [← hrest']
        exact hcs
      · intro hmem
        have := List.mem_takeWhile_imp hmem
        simp at this
      · intro hmem
        have := List.mem_takeWhile_imp (List.mem_reverse.mp hmem)
        simp at this
      · simp [h1, h2] at h
        rw [← h]


theorem matchBraces_cons_of_ne (b : Char) (l : List Char) (hb : b ≠ openBrace) :
    matchBraces (b :: l) = matchBraces l := by
  unfold matchBraces
  rw [List.dropWhile_cons_of_pos (by simpa using hb)]

theorem matchBraces_open_ne_none (rest : List Char) (h : closeBrace ∈ rest) :
    matchBraces (openBrace :: rest) ≠ none := by
  have hne : rest.reverse.dropWhile (fun d => d != closeBrace) ≠ [] := by
    intro hnil
    have hall := List.dropWhile_eq_nil_iff.mp hnil closeBrace (List.mem_reverse.mpr h)
    simp at hall
  have h0 : (openBrace :: rest).dropWhile (fun c => c != openBrace) = openBrace :: rest :=
    List.dropWhile_cons_of_neg (by simp)
  cases hd : rest.reverse.dropWhile (fun d => d != closeBrace) with
  | nil => exact absurd hd hne
  | cons d r =>
    have hr : (d :: r).reverse ≠ [] := by simp
    cases hrev : (d :: r).reverse with
    | nil => exact absurd hrev hr
    | cons x xs =>
      simp only [matchBraces, h0, hd, hrev]
      simp

theorem matchBraces_ne_none (pre tail : List Char) (h : closeBrace ∈ tail) :
    matchBraces (pre ++ openBrace :: tail) ≠ none := by
  induction pre with
  | nil => exact matchBraces_open_ne_none tail h
  | cons b t ih =>
    by_cases hb : b = openBrace
    · subst hb
      exact matchBraces_open_ne_none _ (by simp [h])
    · rw [List.cons_append, matchBraces_cons_of_ne b _ hb]
      exact ih

/-- Counterexample to C10 as stated: when the prose after the object holds a
second object, the substring handed to `JSON.parse` is the whole text up to the
last closing brace, not the first balanced object, and a parser that reads the
first object but rejects the longer text gives `null`. -/
theorem greedy_match_spans_to_last_brace :
    matchBraces twoObjectsText.toList = some twoObjectsText.toList ∧
      firstBalanced twoObjectsText.toList = some summaryOnlyText.toList ∧
      matchBraces twoObjectsText.toList ≠ firstBalanced twoObjectsText.toList ∧
      parseOnly summaryOnlyText summaryOnlyValue summaryOnlyText = some summaryOnlyValue ∧
      parseGeminiFeedback (parseOnly summaryOnlyText summaryOnlyValue) twoObjectsText = none := by
  have hm : matchBraces twoObjectsText.toList = some twoObjectsText.toList := by decide
  have hf : firstBalanced twoObjectsText.toList = some summaryOnlyText.toList := by decide
  refine ⟨hm, hf, ?_, ?_, ?_⟩
  · rw [hm, hf]
    decide
  · simp [parseOnly]
  · have hne : twoObjectsText ≠ "" := by decide
    have hs : twoObjectsText ≠ summaryOnlyText := by decide
    rw [parseGeminiFeedback, if_neg hne, hm]
    simp [parseOnly, hs]

/-- Claim C10, amended: the substring handed to `JSON.parse` runs from the
first opening brace of the text to its last closing brace, so an object wrapped
in prose is recovered when no closing brace occurs in the prose after it; such
a first-to-last substring exists exactly when some closing brace follows some
opening brace; the result is `null` when there is none or when `JSON.parse`
rejects the substring. -/
theorem parseGeminiFeedback_first_to_last (parse : String → Option JVal) (text : String) :
    (∀ pre mid post, text.toList = pre ++ openBrace :: (mid ++ closeBrace :: post) →
        openBrace ∉ pre → closeBrace ∉ post →
        parseGeminiFeedback parse text = parse (String.mk (openBrace :: (mid ++ [closeBrace])))) ∧
      ((∃ pre mid post, text.toList = pre ++ openBrace :: (mid ++ closeBrace :: post)) →
        ∃ pre mid post, text.toList = pre ++ openBrace :: (mid ++ closeBrace :: post) ∧
          openBrace ∉ pre ∧ closeBrace ∉ post) ∧
      ((¬ ∃ pre mid post, text.toList = pre ++ openBrace :: (mid ++ closeBrace :: post)) →
        parseGeminiFeedback parse text = none) ∧
      (∀ m, matchBraces text.toList = some m → parse (String.mk m) = none →
        parseGeminiFeedback parse text = none) := by
  refine ⟨?_, ?_, ?_, ?_⟩
  · intro pre mid post htext hpre hpost
    have hne : text ≠ "" := by
      rintro rfl
      simp at htext
    rw [parseGeminiFeedback, if_neg hne, htext, matchBraces_split pre mid post hpre hpost]
  · rintro ⟨pre, mid, post, htext⟩
    cases hm : matchBraces text.toList with
    | none =>
      exact absurd hm (htext ▸ matchBraces_ne_none pre (mid ++ closeBrace :: post) (by simp))
    | some m =>
      obtain ⟨pre', mid', post', h1, h2, h3, _⟩ := matchBraces_some_split _ _ hm
      exact ⟨pre', mid', post', h1, h2, h3⟩
  · intro hno
    cases hm : matchBraces text.toList with
    | none =>
      rw [parseGeminiFeedback, hm]
      split_ifs <;> rfl
    | some m =>
      obtain ⟨pre, mid, post, h1, _, _, _⟩ := matchBraces_some_split _ _ hm
      exact absurd ⟨pre, mid, post, h1⟩ hno
  · intro m hm hp
    rw [parseGeminiFeedback, hm]
    split_ifs
    · rfl
    · exact hp

/-- Witness for C10 amended: the object wrapped in prose without a later
closing brace is handed to the parser and recovered. -/
theorem parseGeminiFeedback_first_to_last_witness :
    parseGeminiFeedback (parseOnly summaryOnlyText summaryOnlyValue) wrappedText
      = parseOnly summaryOnlyText summaryOnlyValue summaryOnlyText := by
  have h := (parseGeminiFeedback_first_to_last (parseOnly summaryOnlyText summaryOnlyValue)
    wrappedText).1 "Sure: ".toList "\"summary\":\"Good start.\"".toList " Hope it helps.".toList
    (by decide) (by decide) (by decide)
  rw [h]
  have hs : String.mk (openBrace :: ("\"summary\":\"Good start.\"".toList ++ [closeBrace]))
      = summaryOnlyText := by decide
  rw [hs]

/-! ## Guards -/

/-- Claim C13: when `getUserFromSession` yields no user, each of `handleTopics`,
`handleTopicDetail`, `handleQuestionDetail` and `handleCreateAttempt` answers
401 with the body `{error: "Unauthorised"}` and leaves the store as it was: no
seed data is inserted and no attempt is recorded. -/
theorem user_guard_rejects_before_body (P : Platform) (env : Env) (db : Store)
    (request : Request) (slug : String) (id : JNum)
    (h : getUserFromSession db request = none) :
    handleTopics db request = (⟨401, .obj [("error", .str "Unauthorised")], none⟩, db) ∧
      handleTopicDetail db request slug
        = (⟨401, .obj [("error", .str "Unauthorised")], none⟩, db) ∧
      handleQuestionDetail db request id
        = (⟨401, .obj [("error", .str "Unauthorised")], none⟩, db) ∧
      handleCreateAttempt P env db request
        = (⟨401, .obj [("error", .str "Unauthorised")], none⟩, db) := by
  refine ⟨?_, ?_, ?_, ?_⟩
  · simp [handleTopics, h, json, errorBody]
  · simp [handleTopicDetail, h, json, errorBody]
  · simp [handleQuestionDetail, h, json, errorBody]
  · simp [handleCreateAttempt, h, json, errorBody]

/-- Witness for C13: a request without a cookie to the topic list of the sample
store is answered 401 and the store is unchanged. -/
theorem user_guard_rejects_before_body_witness :
    handleTopics sampleStore anonymousRequest
      = (⟨401, .obj [("error", .str "Unauthorised")], none⟩, sampleStore) :=
  (user_guard_rejects_before_body samplePlatform envNoKey sampleStore anonymousRequest "algebra"
    (.fin 1) (by decide)).1

theorem requireAdmin_error (db : Store) (request : Request)
    (h : getUserFromSession db request = none ∨
      ∃ u, getUserFromSession db request = some u ∧ u.is_admin = false) :
    requireAdmin db request = .error ⟨403, .obj [("error", .str "Admin only")], none⟩ := by
  rcases h with h | ⟨u, h, hu⟩
  · simp [requireAdmin, h, json, errorBody]
  · simp [requireAdmin, h, hu, json, errorBody]

theorem requireAdmin_ok (db : Store) (request : Request) (u : SessionUser)
    (h : getUserFromSession db request = some u) (hu : u.is_admin = true) :
    requireAdmin db request = .ok u := by
  simp [requireAdmin, h, hu]

/-- Counterexample to C12 as stated: an admin route called without any session
is answered 403 `Admin only`, not 401 `Unauthorised`. -/
theorem no_session_on_admin_route_gets_403 :
    getUserFromSession sampleStore anonymousRequest = none ∧
      (handleAdminCreateTopic sampleStore anonymousRequest).1.status = 403 ∧
      (handleAdminCreateTopic sampleStore anonymousRequest).1.body
        = .obj [("error", .str "Admin only")] ∧
      (handleAdminCreateTopic sampleStore anonymousRequest).1.status ≠ 401 := by
  have h : getUserFromSession sampleStore anonymousRequest = none := by decide
  have hr := requireAdmin_error sampleStore anonymousRequest (Or.inl h)
  refine ⟨h, ?_, ?_, ?_⟩ <;> simp [handleAdminCreateTopic, hr]

/-- Claim C12, amended: on every admin route, when the session resolves to no
user or to a user whose `is_admin` flag is not set, the answer is 403 with the
body `{error: "Admin only"}` and the store is untouched; only when it resolves
to an administrator does the handler body run. -/
theorem admin_guard (db : Store) (request : Request) :
    ((getUserFromSession db request = none ∨
        ∃ u, getUserFromSession db request = some u ∧ u.is_admin = false) →
      handleAdminListTopics db request
          = (⟨403, .obj [("error", .str "Admin only")], none⟩, db) ∧
        handleAdminCreateTopic db request
          = (⟨403, .obj [("error", .str "Admin only")], none⟩, db) ∧
        handleAdminCreateQuestion db request
          = (⟨403, .obj [("error", .str "Admin only")], none⟩, db)) ∧
      ((∃ u, getUserFromSession db request = some u ∧ u.is_admin = true) →
        handleAdminListTopics db request = (adminListTopics db, db) ∧
          handleAdminCreateTopic db request = adminCreateTopic db request ∧
          handleAdminCreateQuestion db request = adminCreateQuestion db request) := by
  constructor
  · intro h
    have hr := requireAdmin_error db request h
    simp [handleAdminListTopics, handleAdminCreateTopic, handleAdminCreateQuestion, hr]
  · rintro ⟨u, h, hu⟩
    have hr := requireAdmin_ok db request u h hu
    simp [handleAdminListTopics, handleAdminCreateTopic, handleAdminCreateQuestion, hr]

/-- Witness for C12 amended: the learner of the sample store, who is not an
administrator, is answered 403 on the three admin routes. -/
theorem admin_guard_witness :
    handleAdminListTopics sampleStore learnerRequest
        = (⟨403, .obj [("error", .str "Admin only")], none⟩, sampleStore) ∧
      handleAdminCreateTopic sampleStore learnerRequest
        = (⟨403, .obj [("error", .str "Admin only")], none⟩, sampleStore) ∧
      handleAdminCreateQuestion sampleStore learnerRequest
        = (⟨403, .obj [("error", .str "Admin only")], none⟩, sampleStore) :=
  (admin_guard sampleStore learnerRequest).1
    (Or.inr ⟨⟨1, "ann@example.com", false⟩, by decide, rfl⟩)

/-! ## Sessions -/

/-- Counterexample to C14 as stated: after `/logout` on a request carrying the
token `tok-1`, the session row is still in the store and `/me` with the same
token still answers with the user. -/
theorem logout_keeps_session_row :
    (handleApi samplePlatform envNoKey sampleStore .logout learnerRequest).2.sessions
        = [⟨"tok-1", 1⟩, ⟨"tok-2", 2⟩] ∧
      getUserFromSession
          (handleApi samplePlatform envNoKey sampleStore .logout learnerRequest).2 learnerRequest
        = some ⟨1, "ann@example.com", false⟩ ∧
      (handleMe (handleApi samplePlatform envNoKey sampleStore .logout learnerRequest).2
          learnerRequest).body
        ≠ .obj [("user", .null)] := by
  have hs : (handleApi samplePlatform envNoKey sampleStore .logout learnerRequest).2
      = sampleStore := rfl
  have hu : getUserFromSession sampleStore learnerRequest
      = some ⟨1, "ann@example.com", false⟩ := by decide
  rw [hs]
  refine ⟨rfl, hu, ?_⟩
  simp [handleMe, hu, json, SessionUser.toJVal]

/-- Claim C14, amended: `/logout` leaves the store, and so every session row,
as it was, and answers 200 with a `Set-Cookie` header that clears `session_id`;
afterwards `/me` answers any request as it did before, with `{user: null}` for
a request that carries no cookie or the cleared cookie `session_id=`. -/
theorem logout_clears_cookie_only (P : Platform) (env : Env) (db : Store) (request : Request) :
    (handleApi P env db .logout request).2 = db ∧
      (handleApi P env db .logout request).1
        = ⟨200, .obj [("ok", .bool true)],
            some "session_id=; HttpOnly; Path=/; Max-Age=0; SameSite=Lax"⟩ ∧
      (∀ later : Request,
        handleMe (handleApi P env db .logout request).2 later = handleMe db later) ∧
      (∀ body, handleMe (handleApi P env db .logout request).2 ⟨none, body⟩
        = ⟨200, .obj [("user", .null)], none⟩) ∧
      (∀ body, handleMe (handleApi P env db .logout request).2 ⟨some "session_id=", body⟩
        = ⟨200, .obj [("user", .null)], none⟩) := by
  have hs : (handleApi P env db .logout request).2 = db := rfl
  rw [hs]
  refine ⟨rfl, rfl, fun _ => rfl, ?_, ?_⟩
  · intro body
    have : getUserFromSession db ⟨none, body⟩ = none := by
      simp [getUserFromSession, matchSessionId]
    simp [handleMe, this, json]
  · intro body
    have hm : matchSessionId "session_id=".toList = none := by decide
    have : getUserFromSession db ⟨some "session_id=", body⟩ = none := by
      simp only [getUserFromSession, Option.getD_some, hm]
    simp [handleMe, this, json]

/-- Claim C15, the code at the failing inputs: on the header
`xsession_id=tok-1`, which holds no cookie named `session_id`, the session
`tok-1` is resolved to its user; on `xsession_id=zzz; session_id=tok-1`, whose
`session_id` cookie is a stored session, no user is resolved. -/
theorem session_pattern_ignores_cookie_name :
    cookieNamed "session_id" "xsession_id=tok-1" = none ∧
      getUserFromSession sampleStore ⟨some "xsession_id=tok-1", none⟩
        = some ⟨1, "ann@example.com", false⟩ ∧
      cookieNamed "session_id" "xsession_id=zzz; session_id=tok-1" = some "tok-1" ∧
      getUserFromSession sampleStore ⟨some "xsession_id=zzz; session_id=tok-1", none⟩ = none := by
  refine ⟨?_, ?_, ?_, ?_⟩ <;> decide

/-! ## Registration -/

theorem nextId_not_mem (ids : List Nat) : nextId ids ∉ ids := by
  have hle : ∀ (l : List Nat) (a : Nat), a ≤ l.foldl Nat.max a ∧ ∀ x ∈ l, x ≤ l.foldl Nat.max a := by
    intro l
    induction l with
    | nil => intro a; simp
    | cons b t ih =>
      intro a
      obtain ⟨h1, h2⟩ := ih (Nat.max a b)
      refine ⟨le_trans (Nat.le_max_left a b) h1, ?_⟩
      intro x hx
      rcases List.mem_cons.mp hx with rfl | hx
      · exact le_trans (Nat.le_max_right a x) h1
      · exact h2 x hx
  intro hmem
  have := (hle ids 0).2 _ hmem
  unfold nextId at this
  omega

theorem insertUser_ok (db : Store) (email hash : String)
    (h : ∀ u ∈ db.users, u.email ≠ email) :
    db.insertUser email hash
      = .ok ({ db with users := db.users ++ [⟨nextId (db.users.map fun u => u.id), email, hash, false⟩] },
          nextId (db.users.map fun u => u.id)) := by
  have : db.users.any (fun u => decide (u.email = email)) = false := by
    rw [List.any_eq_false]
    intro u hu
    simpa using h u hu
  simp [Store.insertUser, this]

theorem insertUser_error (db : Store) (email hash : String)
    (h : ∃ u ∈ db.users, u.email = email) :
    db.insertUser email hash = .error "Error: UNIQUE constraint failed: users.email" := by
  have : db.users.any (fun u => decide (u.email = email)) = true := by
    rw [List.any_eq_true]
    obtain ⟨u, hu, he⟩ := h
    exact ⟨u, hu, by simpa using he⟩
  simp [Store.insertUser, this]

theorem insertSession_ok (db : Store) (id : String) (userId : Nat)
    (h : ∀ s ∈ db.sessions, s.id ≠ id) :
    db.insertSession id userId = .ok { db with sessions := db.sessions ++ [⟨id, userId⟩] } := by
  have : db.sessions.any (fun s => decide (s.id = id)) = false := by
    rw [List.any_eq_false]
    intro s hs
    simpa using h s hs
  simp [Store.insertSession, this]

theorem registerFailure_unique :
    registerFailure "Error: UNIQUE constraint failed: users.email"
      = ⟨409, .obj [("error", .str "An account with that email already exists.")], none⟩ := by
  have : jsIncludes "Error: UNIQUE constraint failed: users.email" "UNIQUE" = true := by decide
  simp [registerFailure, this, json, errorBody]

/-- The registration request is well formed: a truthy body with truthy `email`
and `password`, a non-empty normalised email and a password of 6 or more
UTF-16 units. -/
theorem d1RunResult_lastInsertRowid (n : Nat) :
    (d1RunResult n).getProp "lastInsertRowid" = .undefined := rfl

theorem insertSessionFor_unbound (db : Store) (id : String) (n : Nat) :
    db.insertSessionFor id ((d1RunResult n).getProp "lastInsertRowid")
      = .error "Error: D1_TYPE_ERROR: Type 'undefined' not supported for value 'undefined'" := by
  rw [d1RunResult_lastInsertRowid]
  rfl

theorem registerFailure_bind :
    registerFailure "Error: D1_TYPE_ERROR: Type 'undefined' not supported for value 'undefined'"
      = ⟨500, .obj [("error", .str "Could not create account.")], none⟩ := by
  have : jsIncludes "Error: D1_TYPE_ERROR: Type 'undefined' not supported for value 'undefined'"
      "UNIQUE" = false := by decide
  simp [registerFailure, this, json, errorBody]

/-- The registration request is well formed: a truthy body with truthy `email`
and `password`, a non-empty normalised email and a password of 6 or more
UTF-16 units.  The session insert then binds `undefined` and throws inside the
`try`, whatever id the user row received. -/
theorem handleRegister_valid (P : Platform) (db : Store) (request : Request) (body : JVal)
    (hb : request.body = some body) (ht : body.truthy = true)
    (he : (body.getProp "email").truthy = true) (hp : (body.getProp "password").truthy = true)
    (hne : P.toLowerCase (jsTrim (jsString (body.getProp "email"))) ≠ "")
    (hlen : 6 ≤ jsLength (jsString (body.getProp "password"))) :
    handleRegister P db request =
      match db.insertUser (P.toLowerCase (jsTrim (jsString (body.getProp "email"))))
          (P.hashPassword (jsString (body.getProp "password"))) with
      | .error err => (registerFailure err, db)
      | .ok (db1, _) =>
        (⟨500, .obj [("error", .str "Could not create account.")], none⟩, db1) := by
  have hlen' : ¬ jsLength (jsString (body.getProp "password")) < 6 := by omega
  simp only [handleRegister, hb, ht, he, hp, hne, hlen', Bool.not_true, Bool.or_self,
    Bool.false_eq_true, if_false, decide_False]
  cases db.insertUser (P.toLowerCase (jsTrim (jsString (body.getProp "email"))))
      (P.hashPassword (jsString (body.getProp "password"))) with
  | error err => rfl
  | ok r =>
    obtain ⟨db1, rowId⟩ := r
    simp only [insertSessionFor_unbound, registerFailure_bind]

/-- A well-formed registration of an email that is not registered: the user
row is written, no session is, and the answer is 500. -/
theorem handleRegister_new (P : Platform) (db : Store) (request : Request) (body : JVal)
    (hb : request.body = some body) (ht : body.truthy = true)
    (he : (body.getProp "email").truthy = true) (hp : (body.getProp "password").truthy = true)
    (hne : P.toLowerCase (jsTrim (jsString (body.getProp "email"))) ≠ "")
    (hlen : 6 ≤ jsLength (jsString (body.getProp "password")))
    (hnew : ∀ u ∈ db.users, u.email ≠ P.toLowerCase (jsTrim (jsString (body.getProp "email")))) :
    handleRegister P db request =
      (⟨500, .obj [("error", .str "Could not create account.")], none⟩,
        { db with
          users := db.users ++
            [⟨nextId (db.users.map fun u => u.id),
              P.toLowerCase (jsTrim (jsString (body.getProp "email"))),
              P.hashPassword (jsString (body.getProp "password")), false⟩] }) := by
  rw [handleRegister_valid P db request body hb ht he hp hne hlen, insertUser_ok db _ _ hnew]

/-- A well-formed registration of an email that is registered: 409, nothing
written. -/
theorem handleRegister_known (P : Platform) (db : Store) (request : Request) (body : JVal)
    (hb : request.body = some body) (ht : body.truthy = true)
    (he : (body.getProp "email").truthy = true) (hp : (body.getProp "password").truthy = true)
    (hne : P.toLowerCase (jsTrim (jsString (body.getProp "email"))) ≠ "")
    (hlen : 6 ≤ jsLength (jsString (body.getProp "password")))
    (hold : ∃ u ∈ db.users, u.email = P.toLowerCase (jsTrim (jsString (body.getProp "email")))) :
    handleRegister P db request =
      (⟨409, .obj [("error", .str "An account with that email already exists.")], none⟩, db) := by
  rw [handleRegister_valid P db request body hb ht he hp hne hlen, insertUser_error db _ _ hold]
  simp only [registerFailure_unique]

theorem samplePlatform_toLowerCase_empty (s : String) :
    samplePlatform.toLowerCase s = "" ↔ s = "" := by
  show String.mk (s.toList.map Char.toLower) = "" ↔ s = ""
  constructor
  · intro h
    have h1 : (s.toList.map Char.toLower) = [] := by
      have := congrArg String.data h
      simpa using this
    have h2 : s.toList = [] := List.map_eq_nil_iff.mp h1
    cases s with
    | mk l =>
      simp only [String.toList] at h2
      subst h2
      rfl
  · rintro rfl
    rfl

/-- The validation of `handleRegister`: 400 and nothing written when the body
is unparseable, when the email or the password is missing (falsy), when the
trimmed email is empty, or when the password has fewer than 6 UTF-16 units. -/
theorem handleRegister_rejects (P : Platform) (db : Store) (request : Request)
    (hlow : ∀ s, P.toLowerCase s = "" ↔ s = "")
    (h : request.body = none ∨ ∃ body, request.body = some body ∧
      (body.truthy = false ∨ (body.getProp "email").truthy = false ∨
        (body.getProp "password").truthy = false ∨
        jsTrim (jsString (body.getProp "email")) = "" ∨
        jsLength (jsString (body.getProp "password")) < 6)) :
    (handleRegister P db request).1.status = 400 ∧ (handleRegister P db request).2 = db := by
  rcases h with hb | ⟨body, hb, hcase⟩
  · simp [handleRegister, hb, json]
  · by_cases ht : body.truthy = true
    · by_cases he : (body.getProp "email").truthy = true
      · by_cases hp : (body.getProp "password").truthy = true
        · rcases hcase with h | h | h | h | h
          · simp [ht] at h
          · simp [he] at h
          · simp [hp] at h
          · have : P.toLowerCase (jsTrim (jsString (body.getProp "email"))) = "" :=
              (hlow _).mpr h
            simp [handleRegister, hb, ht, he, hp, this, json]
          · simp [handleRegister, hb, ht, he, hp, h, json]
        · simp [handleRegister, hb, ht, he, hp, json]
      · simp [handleRegister, hb, ht, he, json]
    · simp [handleRegister, hb, ht, json]

/-- Claim C16, the code at the failing input: a password of length 5 is
answered 400 and nothing is written, as claimed; but every well-formed
registration of an email that is not yet registered, such as the one with a
password of length 6, is answered 500 `Could not create account.` with no
cookie, the user row is written and no session row is: the user id bound into
the session insert is `result.lastInsertRowid`, which the D1 result does not
have, so `bind` throws inside the `try`. -/
theorem valid_registration_answers_500 :
    (∀ (P : Platform) (db : Store) (request : Request) (body : JVal),
        request.body = some body → body.truthy = true →
        (body.getProp "email").truthy = true → (body.getProp "password").truthy = true →
        P.toLowerCase (jsTrim (jsString (body.getProp "email"))) ≠ "" →
        6 ≤ jsLength (jsString (body.getProp "password")) →
        (∀ u ∈ db.users, u.email ≠ P.toLowerCase (jsTrim (jsString (body.getProp "email")))) →
        (handleRegister P db request).1
            = ⟨500, .obj [("error", .str "Could not create account.")], none⟩ ∧
          (handleRegister P db request).2.users.length = db.users.length + 1 ∧
          (handleRegister P db request).2.sessions = db.sessions) ∧
      handleRegister samplePlatform sampleStore (registerRequest " Bob@Example.com " "abcde") =
        (⟨400, .obj [("error",
            .str "Please provide a valid email and a password of 6+ characters.")], none⟩,
          sampleStore) ∧
      handleRegister samplePlatform sampleStore (registerRequest " Bob@Example.com " "abcdef") =
        (⟨500, .obj [("error", .str "Could not create account.")], none⟩,
          { sampleStore with
            users := sampleStore.users ++ [⟨3, "bob@example.com", "sha:abcdef", false⟩] }) ∧
      (handleRegister samplePlatform sampleStore
        (registerRequest " Bob@Example.com " "abcdef")).2.sessions = sampleStore.sessions := by
  have h5 : handleRegister samplePlatform sampleStore (registerRequest " Bob@Example.com " "abcde") =
      (⟨400, .obj [("error",
          .str "Please provide a valid email and a password of 6+ characters.")], none⟩,
        sampleStore) := by
    have hl : jsLength (jsString ((JVal.obj [("email", .str " Bob@Example.com "),
        ("password", .str "abcde")]).getProp "password")) < 6 := by decide
    have ht : (JVal.obj [("email", .str " Bob@Example.com "),
        ("password", .str "abcde")]).truthy = true := rfl
    have he : ((JVal.obj [("email", .str " Bob@Example.com "),
        ("password", .str "abcde")]).getProp "email").truthy = true := by decide
    have hp : ((JVal.obj [("email", .str " Bob@Example.com "),
        ("password", .str "abcde")]).getProp "password").truthy = true := by decide
    simp [handleRegister, registerRequest, ht, he, hp, hl, json, errorBody]
  have h6 := handleRegister_new samplePlatform sampleStore
    (registerRequest " Bob@Example.com " "abcdef") _ rfl rfl (by decide) (by decide) (by decide)
    (by decide) (by decide)
  have hrow : (⟨nextId (sampleStore.users.map fun u => u.id),
      samplePlatform.toLowerCase (jsTrim (jsString ((JVal.obj [("email", .str " Bob@Example.com "),
        ("password", .str "abcdef")]).getProp "email"))),
      samplePlatform.hashPassword (jsString ((JVal.obj [("email", .str " Bob@Example.com "),
        ("password", .str "abcdef")]).getProp "password")), false⟩ : UserRow)
      = ⟨3, "bob@example.com", "sha:abcdef", false⟩ := by decide
  rw [hrow] at h6
  refine ⟨?_, h5, h6, by rw [h6]⟩
  intro P db request body hb ht he hp hne hlen hnew
  rw [handleRegister_new P db request body hb ht he hp hne hlen hnew]
  exact ⟨rfl, by simp, rfl⟩

/-- Claim C17: over a store whose `users.email` is unique, after the
registration of an email has written its user row, a second registration whose
email has the same trimmed lower-case form (so differing at most in letter
case or surrounding white space) is answered 409, the users table holds
exactly one row for that email, and the second attempt creates no session and
changes nothing else. -/
theorem duplicate_registration_conflict (P1 P2 : Platform) (db : Store) (r1 r2 : Request)
    (b1 b2 : JVal)
    (h1 : r1.body = some b1) (ht1 : b1.truthy = true)
    (he1 : (b1.getProp "email").truthy = true) (hp1 : (b1.getProp "password").truthy = true)
    (hne1 : P1.toLowerCase (jsTrim (jsString (b1.getProp "email"))) ≠ "")
    (hlen1 : 6 ≤ jsLength (jsString (b1.getProp "password")))
    (hnew : ∀ u ∈ db.users, u.email ≠ P1.toLowerCase (jsTrim (jsString (b1.getProp "email"))))
    (h2 : r2.body = some b2) (ht2 : b2.truthy = true)
    (he2 : (b2.getProp "email").truthy = true) (hp2 : (b2.getProp "password").truthy = true)
    (hlen2 : 6 ≤ jsLength (jsString (b2.getProp "password")))
    (hsame : P2.toLowerCase (jsTrim (jsString (b2.getProp "email")))
      = P1.toLowerCase (jsTrim (jsString (b1.getProp "email")))) :
    ((handleRegister P1 db r1).2.users.filter fun u =>
          u.email = P1.toLowerCase (jsTrim (jsString (b1.getProp "email")))).length = 1 ∧
      handleRegister P2 (handleRegister P1 db r1).2 r2
        = (⟨409, .obj [("error", .str "An account with that email already exists.")], none⟩,
            (handleRegister P1 db r1).2) ∧
      ((handleRegister P2 (handleRegister P1 db r1).2 r2).2.users.filter fun u =>
          u.email = P1.toLowerCase (jsTrim (jsString (b1.getProp "email")))).length = 1 ∧
      (handleRegister P2 (handleRegister P1 db r1).2 r2).2.sessions
        = (handleRegister P1 db r1).2.sessions := by
  have hfirst := handleRegister_new P1 db r1 b1 h1 ht1 he1 hp1 hne1 hlen1 hnew
  have hne2 : P2.toLowerCase (jsTrim (jsString (b2.getProp "email"))) ≠ "" := by
    rw [hsame]
    exact hne1
  have hsecond : handleRegister P2 (handleRegister P1 db r1).2 r2
      = (⟨409, .obj [("error", .str "An account with that email already exists.")], none⟩,
          (handleRegister P1 db r1).2) := by
    apply handleRegister_known P2 _ r2 b2 h2 ht2 he2 hp2 hne2 hlen2
    rw [hsame, hfirst]
    exact ⟨_, List.mem_append_right _ (List.mem_singleton_self _), rfl⟩
  have hnone : db.users.filter (fun u =>
      decide (u.email = P1.toLowerCase (jsTrim (jsString (b1.getProp "email"))))) = [] := by
    rw [List.filter_eq_nil_iff]
    intro u hu
    simpa using hnew u hu
  have hone : ((handleRegister P1 db r1).2.users.filter fun u =>
      u.email = P1.toLowerCase (jsTrim (jsString (b1.getProp "email")))).length = 1 := by
    rw [hfirst]
    simp [List.filter_append, hnone]
  refine ⟨hone, hsecond, ?_, by rw [hsecond]⟩
  rw [hsecond]
  exact hone

/-- Witness for C17: on the sample store, after `bob@example.com` is
registered, registering ` BOB@Example.COM ` with another password is answered
409, one row holds that email, and the sessions are those of the sample
store. -/
theorem duplicate_registration_conflict_witness :
    (handleRegister samplePlatform
        (handleRegister samplePlatform sampleStore (registerRequest "bob@example.com" "abcdef")).2
        (registerRequest " BOB@Example.COM " "ghijklm")).1.status = 409 ∧
      ((handleRegister samplePlatform
        (handleRegister samplePlatform sampleStore (registerRequest "bob@example.com" "abcdef")).2
        (registerRequest " BOB@Example.COM " "ghijklm")).2.users.filter fun u =>
          u.email = "bob@example.com").length = 1 ∧
      (handleRegister samplePlatform
        (handleRegister samplePlatform sampleStore (registerRequest "bob@example.com" "abcdef")).2
        (registerRequest " BOB@Example.COM " "ghijklm")).2.sessions = sampleStore.sessions := by
  have h := duplicate_registration_conflict samplePlatform samplePlatform sampleStore
    (registerRequest "bob@example.com" "abcdef") (registerRequest " BOB@Example.COM " "ghijklm")
    _ _ rfl rfl rfl rfl (by decide) (by decide) (by decide) rfl rfl rfl rfl
    (by decide) (by decide)
  have hemail : samplePlatform.toLowerCase (jsTrim (jsString
      ((JVal.obj [("email", .str "bob@example.com"), ("password", .str "abcdef")]).getProp
        "email"))) = "bob@example.com" := by decide
  have hfirst := handleRegister_new samplePlatform sampleStore
    (registerRequest "bob@example.com" "abcdef") _ rfl rfl (by decide) (by decide) (by decide)
    (by decide) (by decide)
  rw [hemail] at h
  refine ⟨by rw [h.2.1], h.2.2.1, ?_⟩
  rw [h.2.2.2, hfirst]

/-! ## Completion percentage -/

theorem filter_eq_of_nodup {α : Type} [DecidableEq α] (l : List α) (x : α) (h : l.Nodup) :
    l.filter (fun y => decide (y = x)) = if x ∈ l then [x] else [] := by
  induction l with
  | nil => simp
  | cons a t ih =>
    have hn := List.nodup_cons.mp h
    by_cases hax : a = x
    · subst hax
      have hnot : a ∉ t := hn.1
      have ht : t.filter (fun y => decide (y = a)) = [] := by
        rw [ih hn.2, if_neg hnot]
      simp [List.filter_cons, ht]
    · have hxa : ¬ x = a := fun h => hax h.symm
      simp [List.filter_cons, hax, ih hn.2, List.mem_cons, hxa]

theorem attemptedQuestions_eq (db : Store) (topicId : Nat) :
    attemptedQuestions db.attemptsAgg topicId
      = ((db.attemptTopics.filter fun r => r.1 = .fin topicId).map Prod.snd).dedup.length := by
  unfold attemptedQuestions Store.attemptsAgg
  rw [List.filter_map]
  have hf : (fun r : AggRow => decide (r.topic_id = JNum.fin (topicId : ℚ))) ∘
      (fun t => (⟨t, ((db.attemptTopics.filter fun r => r.1 = t).map Prod.snd).dedup.length⟩ : AggRow))
      = fun y => decide (y = JNum.fin (topicId : ℚ)) := by
    funext y
    rfl
  rw [hf, filter_eq_of_nodup _ _ (List.nodup_dedup _)]
  split_ifs with hmem
  · simp
  · have hnil : db.attemptTopics.filter (fun r => decide (r.1 = JNum.fin (topicId : ℚ))) = [] := by
      rw [List.filter_eq_nil_iff]
      intro r hr hrt
      apply hmem
      rw [List.mem_dedup, List.mem_map]
      exact ⟨r, hr, by simpa using hrt⟩
    simp [hnil]

theorem mem_attemptTopics (db : Store) (t : JNum) (x : Nat) :
    (t, x) ∈ db.attemptTopics ↔
      ∃ a ∈ db.attempts, a.question_id = x ∧ ∃ q ∈ db.questions, q.id = x ∧ q.topic_id = t := by
  unfold Store.attemptTopics
  simp only [List.mem_flatMap, List.mem_map, List.mem_filter, decide_eq_true_eq, Prod.mk.injEq]
  constructor
  · rintro ⟨a, ha, q, ⟨hq, hqa⟩, hqt, hax⟩
    exact ⟨a, ha, hax, q, hq, by rw [hqa, hax], hqt⟩
  · rintro ⟨a, ha, hax, q, hq, hqx, hqt⟩
    exact ⟨a, ha, q, ⟨hq, by rw [hqx, hax]⟩, hqt, hax⟩

theorem attempted_count_eq_distinct (db : Store) (topicId : Nat)
    (hids : (db.questions.map fun q => q.id).Nodup) :
    ((db.attemptTopics.filter fun r => r.1 = .fin topicId).map Prod.snd).dedup.length
      = distinctAttempted db topicId := by
  unfold distinctAttempted
  rw [← List.length_map (db.questions.filter _) (fun q => q.id)]
  apply List.Perm.length_eq
  apply (List.perm_ext_iff_of_nodup (List.nodup_dedup _)
    (hids.sublist ((List.filter_sublist _).map _))).mpr
  intro x
  rw [List.mem_dedup, List.mem_map, List.mem_map]
  constructor
  · rintro ⟨⟨t, y⟩, hmem, hy⟩
    obtain ⟨hmem, ht⟩ := List.mem_filter.mp hmem
    have ht' : t = JNum.fin (topicId : ℚ) := by simpa using ht
    have hy' : y = x := hy
    subst hy'
    obtain ⟨a, ha, hax, q, hq, hqx, hqt⟩ := (mem_attemptTopics db t y).mp hmem
    refine ⟨q, List.mem_filter.mpr ⟨hq, ?_⟩, hqx⟩
    rw [Bool.and_eq_true, List.any_eq_true]
    exact ⟨by simpa using hqt.trans ht', a, ha, by simpa using hax.trans hqx.symm⟩
  · rintro ⟨q, hq, hqx⟩
    obtain ⟨hq, hcond⟩ := List.mem_filter.mp hq
    rw [Bool.and_eq_true, List.any_eq_true] at hcond
    obtain ⟨hqt, a, ha, haq⟩ := hcond
    have hqt' : q.topic_id = JNum.fin (topicId : ℚ) := by simpa using hqt
    have haq' : a.question_id = q.id := by simpa using haq
    refine ⟨(JNum.fin (topicId : ℚ), x), List.mem_filter.mpr ⟨?_, by simp⟩, rfl⟩
    exact (mem_attemptTopics db _ x).mpr ⟨a, ha, haq'.trans hqx, q, hq, hqx, hqt'⟩

theorem distinctAttempted_le (db : Store) (topicId : Nat) :
    distinctAttempted db topicId ≤ db.questionsCount topicId := by
  unfold distinctAttempted Store.questionsCount
  have : (db.questions.filter fun q =>
      decide (q.topic_id = .fin topicId) && db.attempts.any fun a => a.question_id = q.id)
      = (db.questions.filter fun q => q.topic_id = .fin topicId).filter
          fun q => db.attempts.any fun a => a.question_id = q.id := by
    rw [List.filter_filter]
    congr 1
    funext q
    rw [Bool.and_comm]
  rw [this]
  exact List.length_filter_le _ _

theorem binary64_hundred : binary64 100 = .fin 100 := by
  simpa using binary64_intCast 100 (by norm_num) (by norm_num)

/-- The rounded percentage of `d` out of `n` in binary64: an integer between 0
and 100 and, for `n` up to `2^44`, the exact `round(100 * d / n)` unless the
exact percentage lies half-way between two integers, where it may be one
less. -/
theorem pct_exactness (d n : ℕ) (hn : 0 < n) (hd : d ≤ n) :
    ∃ r : ℤ, Math.round ((binary64 ((d : ℚ) / n)).mul (.fin 100)) = .fin (r : ℚ) ∧
      0 ≤ r ∧ r ≤ 100 ∧
      (n ≤ 2 ^ 44 →
        (r = ⌊100 * (d : ℚ) / n + 1 / 2⌋ ∨
          (r = ⌊100 * (d : ℚ) / n + 1 / 2⌋ - 1 ∧
            ∃ k : ℤ, 100 * (d : ℚ) / n = k + 1 / 2))) := by
  have hnq : (0 : ℚ) < n := by exact_mod_cast hn
  have hdq : (d : ℚ) ≤ n := by exact_mod_cast hd
  have hy0 : (0 : ℚ) ≤ (d : ℚ) / n := by positivity
  have hy1 : (d : ℚ) / n ≤ 1 := by rw [div_le_one hnq]; exact hdq
  have hy1' : (d : ℚ) / n ≤ ((1 : ℤ) : ℚ) := by simpa using hy1
  obtain ⟨x, hx, hx0, hx1'⟩ := binary64_le_int _ 1 hy0 hy1' (by norm_num)
  have hx1 : x ≤ 1 := by simpa using hx1'
  have hx64 : binary64 x = .fin x := binary64_idem _ x hy0 hx
  have hmul : (JNum.fin x).mul (JNum.fin 100) = binary64 (x * 100) := by
    simp only [JNum.mul, if_pos (And.intro hx64 binary64_hundred)]
  have hp0 : (0 : ℚ) ≤ x * 100 := by positivity
  have hp1 : x * 100 ≤ ((100 : ℤ) : ℚ) := by push_cast; linarith
  obtain ⟨p, hp, hpl, hph'⟩ := binary64_le_int _ 100 hp0 hp1 (by norm_num)
  have hph : p ≤ ((100 : ℤ) : ℚ) := hph'
  have hb := round_bounds p 100 hpl hph
  refine ⟨⌊p + 1 / 2⌋, by rw [hx, hmul, hp]; simp [Math.round, roundQ_eq_floor], hb.1, hb.2, ?_⟩
  intro hn2
  rcases Nat.eq_zero_or_pos d with h0 | hpos
  · -- nothing attempted: every value is zero
    left
    rw [h0] at hx
    simp only [Nat.cast_zero, zero_div, binary64_zero] at hx
    injection hx with hx
    rw [← hx, zero_mul, binary64_zero] at hp
    injection hp with hp
    rw [← hp, h0]
    simp
  have hd1 : (1 : ℚ) ≤ d := by exact_mod_cast hpos
  have hn44 : (n : ℚ) ≤ 2 ^ 44 := by exact_mod_cast hn2
  have hylow : (1 : ℚ) / 2 ^ 44 ≤ (d : ℚ) / n := by
    rw [div_le_div_iff₀ (by positivity) hnq]
    nlinarith
  have hlow : (2 : ℚ) ^ (-1022 : ℤ) ≤ (d : ℚ) / n := by
    have h2 : (2 : ℚ) ^ (-1022 : ℤ) ≤ 2 ^ (-44 : ℤ) :=
      (zpow_le_zpow_iff_right₀ (by norm_num : (1 : ℚ) < 2)).mpr (by norm_num)
    have h3 : (2 : ℚ) ^ (-44 : ℤ) = 1 / 2 ^ 44 := by norm_num
    rw [h3] at h2
    exact h2.trans hylow
  have hhigh : (d : ℚ) / n ≤ 2 ^ (1000 : ℤ) := by
    have : (1 : ℚ) ≤ 2 ^ (1000 : ℤ) := one_le_zpow₀ (by norm_num) (by norm_num)
    linarith
  obtain ⟨x2, hx2, hxerr, hxpos⟩ := binary64_normal _ hlow hhigh
  rw [hx] at hx2
  injection hx2 with hx2
  subst hx2
  have hxe := abs_le.mp hxerr
  have he1 : (d : ℚ) / n / 2 ^ 53 ≤ 1 / 2 ^ 53 := div_le_div_of_nonneg_right hy1 (by positivity)
  have hxlow : (1 : ℚ) / 2 ^ 45 ≤ x := by
    have h1 : (d : ℚ) / n / 2 ^ 53 ≤ (d : ℚ) / n / 2 :=
      div_le_div_of_nonneg_left hy0 (by norm_num) (by norm_num)
    have h2 : (1 : ℚ) / 2 ^ 45 = 1 / 2 ^ 44 / 2 := by norm_num
    rw [h2]
    linarith
  have hp0low : (2 : ℚ) ^ (-1022 : ℤ) ≤ x * 100 := by
    have h2 : (2 : ℚ) ^ (-1022 : ℤ) ≤ 2 ^ (-45 : ℤ) :=
      (zpow_le_zpow_iff_right₀ (by norm_num : (1 : ℚ) < 2)).mpr (by norm_num)
    have h3 : (2 : ℚ) ^ (-45 : ℤ) = 1 / 2 ^ 45 := by norm_num
    rw [h3] at h2
    have h4 : x ≤ x * 100 := by linarith
    exact h2.trans (hxlow.trans h4)
  have hp0high : x * 100 ≤ 2 ^ (1000 : ℤ) := by
    have : (100 : ℚ) ≤ 2 ^ (1000 : ℤ) := by norm_num
    linarith
  obtain ⟨p2, hp2, hperr, -⟩ := binary64_normal _ hp0low hp0high
  rw [hp] at hp2
  injection hp2 with hp2
  subst hp2
  have hpe := abs_le.mp hperr
  have hpd : x * 100 / 2 ^ 53 ≤ 100 / 2 ^ 53 :=
    div_le_div_of_nonneg_right (by linarith) (by positivity)
  have hδ : |p - 100 * (d : ℚ) / n| < 1 / ((2 * n : ℕ) : ℚ) := by
    have h2n : (1 : ℚ) / 2 ^ 45 ≤ 1 / ((2 * n : ℕ) : ℚ) := by
      push_cast
      rw [div_le_div_iff₀ (by positivity) (by positivity)]
      nlinarith
    have hsm : (200 : ℚ) / 2 ^ 53 < 1 / 2 ^ 45 := by norm_num
    have e1 : 100 * (d : ℚ) / n = 100 * ((d : ℚ) / n) := by ring
    rw [abs_lt, e1]
    constructor <;> linarith [hxe.1, hxe.2, hpe.1, hpe.2]
  have hfa := floor_add_small (200 * d + n) (2 * n) (by omega) _ hδ
  have hN : (((200 * d + n : ℤ) : ℚ)) / ((2 * n : ℕ) : ℚ) = 100 * (d : ℚ) / n + 1 / 2 := by
    push_cast
    field_simp
    ring
  have hsum : (((200 * d + n : ℤ) : ℚ)) / ((2 * n : ℕ) : ℚ) + (p - 100 * (d : ℚ) / n)
      = p + 1 / 2 := by rw [hN]; ring
  rw [hsum, hN] at hfa
  by_cases hdv : ((2 * n : ℕ) : ℤ) ∣ 200 * d + n
  · rcases hfa.2 hdv with h | h
    · exact Or.inl h
    · refine Or.inr ⟨h, ?_⟩
      obtain ⟨c, hc⟩ := hdv
      refine ⟨c - 1, ?_⟩
      have hcq : ((200 * d + n : ℤ) : ℚ) = ((((2 * n : ℕ) : ℤ) * c : ℤ) : ℚ) := by rw [hc]
      push_cast at hcq
      push_cast
      rw [div_eq_iff hnq.ne']
      linarith
  · exact Or.inl (hfa.1 hdv)

/-- The value `completedPct` over a store with distinct question ids: an
integer between 0 and 100, 0 for a topic with no question, and, over at most
`2^44` questions, the exact `round(100 * d / n)` unless that percentage lies
half-way between two integers, where it may be one less. -/
theorem completedPct_props (db : Store) (topicId : Nat)
    (hids : (db.questions.map fun q => q.id).Nodup) :
    ∃ r : ℤ, completedPct db topicId = .fin (r : ℚ) ∧ 0 ≤ r ∧ r ≤ 100 ∧
      (db.questionsCount topicId = 0 → r = 0) ∧
      (db.questions.length ≤ 2 ^ 44 →
        (r = ⌊100 * (distinctAttempted db topicId : ℚ) / (db.questionsCount topicId : ℚ)
              + 1 / 2⌋ ∨
          (r = ⌊100 * (distinctAttempted db topicId : ℚ) / (db.questionsCount topicId : ℚ)
              + 1 / 2⌋ - 1 ∧
            ∃ k : ℤ, 100 * (distinctAttempted db topicId : ℚ) / (db.questionsCount topicId : ℚ)
              = k + 1 / 2))) := by
  have hd : attemptedQuestions db.attemptsAgg topicId = distinctAttempted db topicId := by
    rw [attemptedQuestions_eq, attempted_count_eq_distinct db topicId hids]
  by_cases hn : db.questionsCount topicId = 0
  · refine ⟨0, by simp [completedPct, hn], le_rfl, by norm_num, fun _ => rfl,
      fun _ => Or.inl ?_⟩
    rw [hn]
    simp only [Nat.cast_zero, div_zero, zero_add, Int.cast_zero]
    rw [eq_comm, Int.floor_eq_iff]
    norm_num
  · have hnpos : 0 < db.questionsCount topicId := Nat.pos_of_ne_zero hn
    obtain ⟨r, hr, h0, h1, hex⟩ := pct_exactness (distinctAttempted db topicId)
      (db.questionsCount topicId) hnpos (distinctAttempted_le db topicId)
    exact ⟨r, by rw [completedPct, if_pos hn, hd, hr], h0, h1, fun h => absurd h hn,
      fun hsize => hex ((List.length_filter_le _ _).trans hsize)⟩

/-- The value `completedPct` when the exact percentage rounds to `R` and does
not lie half-way between two integers. -/
theorem completedPct_of_exact (db : Store) (topicId : Nat) (R : ℤ)
    (hids : (db.questions.map fun q => q.id).Nodup) (hsize : db.questions.length ≤ 2 ^ 44)
    (hR : ⌊100 * (distinctAttempted db topicId : ℚ) / (db.questionsCount topicId : ℚ)
      + 1 / 2⌋ = R)
    (hno : ¬ ∃ k : ℤ, 100 * (distinctAttempted db topicId : ℚ) / (db.questionsCount topicId : ℚ)
      = k + 1 / 2) :
    completedPct db topicId = .fin (R : ℚ) := by
  obtain ⟨r, hr, -, -, -, hex⟩ := completedPct_props db topicId hids
  rcases hex hsize with h | ⟨-, hk⟩
  · rw [hr, h, hR]
  · exact absurd hk hno

theorem not_half_of_intCast (z : ℤ) : ¬ ∃ k : ℤ, (z : ℚ) = k + 1 / 2 := by
  rintro ⟨k, hk⟩
  have h2 : ((2 * k + 1 : ℤ) : ℚ) = ((2 * z : ℤ) : ℚ) := by push_cast; linarith
  have h3 : 2 * k + 1 = 2 * z := by exact_mod_cast h2
  omega

theorem ensureSeedData_of_topics (db : Store) (h : db.topics ≠ []) :
    ensureSeedData db = (db, none) := by
  unfold ensureSeedData
  cases ht : db.topics with
  | nil => exact absurd ht h
  | cons t ts => simp [ht]

/-- On an empty catalogue `ensureSeedData` writes the topic and throws: the
first question insert binds `result.lastInsertRowid`, which is `undefined`. -/
theorem ensureSeedData_empty (db : Store) (h : db.topics = []) :
    ensureSeedData db =
      ({ db with
          topics := [⟨1, "Algebra & Equations", "algebra-equations", "HL", .fin 1, .fin 1,
            "<p>This topic covers basic quadratic equations, factoring, and roots.</p>"⟩] },
        some "Error: D1_TYPE_ERROR: Type 'undefined' not supported for value 'undefined'") := by
  simp [ensureSeedData, h, Store.insertTopic, nextId, d1RunResult_lastInsertRowid, d1BindError]

theorem ensureSeedData_questions (db : Store) : (ensureSeedData db).1.questions = db.questions := by
  by_cases h : db.topics = []
  · rw [ensureSeedData_empty db h]
  · rw [ensureSeedData_of_topics db h]

/-- The answer of `handleTopics` to a session user over a store with a topic. -/
theorem handleTopics_of_topics (db : Store) (request : Request) (user : SessionUser)
    (hu : getUserFromSession db request = some user) (ht : db.topics ≠ []) :
    handleTopics db request =
      (json (.obj [("topics", .arr (db.topicsOrdered.map (topicWithStats db))),
        ("summaryText", .str (topicsSummaryText (db.topicsOrdered.map (topicWithStats db)).length))])
        200, db) := by
  simp only [handleTopics, hu, ensureSeedData_of_topics db ht]

theorem getUser_learner (db : Store) (hs : db.sessions = sampleStore.sessions)
    (hu : db.users = sampleStore.users) :
    getUserFromSession db learnerRequest = some ⟨1, "ann@example.com", false⟩ := by
  have hm : matchSessionId "session_id=tok-1".toList = some "tok-1".toList := by decide
  simp only [getUserFromSession, learnerRequest, Option.getD_some, hm, Store.sessionUser, hs, hu]
  decide

theorem handleTopics_sample (db : Store) (hs : db.sessions = sampleStore.sessions)
    (hu : db.users = sampleStore.users) (ht : db.topics = sampleStore.topics) :
    (handleTopics db learnerRequest).1.body.getProp "topics"
      = .arr [.obj [("id", .num (.fin 1)), ("title", .str "Algebra"), ("slug", .str "algebra"),
          ("level", .str "HL"), ("paper", .num (.fin 1)),
          ("completedPct", .num (completedPct db 1))]] := by
  have ho : db.topicsOrdered = [⟨1, "Algebra", "algebra", "HL", .fin 1, .fin 1, ""⟩] := by
    simp only [Store.topicsOrdered, ht]
    rfl
  rw [handleTopics_of_topics db learnerRequest _ (getUser_learner db hs hu) (by rw [ht]; decide)]
  simp only [ho, json, JVal.getProp, List.lookup]
  simp [topicWithStats]

theorem binary64_23_of_40 :
    binary64 ((23 : ℚ) / 40) = .fin (2589569785738035 / 4503599627370496) := by
  have h := binary64_of_binade (23 / 40) (-1) 5179139571476070 (by norm_num) (by norm_num)
    (by norm_num) (by rw [abs_lt]; constructor <;> norm_num) (by norm_num)
  rw [h]; congr 1; norm_num

theorem binary64_product_100 :
    binary64 ((2589569785738035 : ℚ) / 4503599627370496 * 100)
      = .fin (8092405580431359 / 140737488355328) := by
  have h := binary64_of_binade (2589569785738035 / 4503599627370496 * 100) 5 8092405580431359
    (by norm_num) (by norm_num) (by norm_num) (by rw [abs_lt]; constructor <;> norm_num)
    (by norm_num)
  rw [h]; congr 1; norm_num

set_option maxRecDepth 100000 in
theorem counts_storeFortyQuestions :
    storeFortyQuestions.questionsCount 1 = 40 ∧ distinctAttempted storeFortyQuestions 1 = 23 ∧
      (storeFortyQuestions.questions.map fun q => q.id).Nodup := by
  decide

theorem completedPct_storeFortyQuestions : completedPct storeFortyQuestions 1 = .fin 57 := by
  obtain ⟨hn, hd, hids⟩ := counts_storeFortyQuestions
  have ha : attemptedQuestions storeFortyQuestions.attemptsAgg 1 = 23 := by
    rw [attemptedQuestions_eq, attempted_count_eq_distinct storeFortyQuestions 1 hids, hd]
  have hx64 : binary64 ((2589569785738035 : ℚ) / 4503599627370496)
      = .fin (2589569785738035 / 4503599627370496) :=
    binary64_idem _ _ (by norm_num) binary64_23_of_40
  have hq : (((23 : ℕ) : ℚ)) / ((40 : ℕ) : ℚ) = 23 / 40 := by norm_num
  have hmul : (JNum.fin (2589569785738035 / 4503599627370496)).mul (JNum.fin 100)
      = .fin (8092405580431359 / 140737488355328) := by
    simp only [JNum.mul, if_pos (And.intro hx64 binary64_hundred), binary64_product_100]
  have hf : ⌊(8092405580431359 : ℚ) / 140737488355328 + 1 / 2⌋ = 57 := by
    rw [Int.floor_eq_iff]; constructor <;> norm_num
  rw [completedPct, hn, ha, if_pos (by norm_num), hq, binary64_23_of_40, hmul]
  simp only [Math.round, roundQ_eq_floor, hf]
  norm_num

/-- Claim C18, as stated, fails: over a store whose topic has 40 questions, 23
of them attempted, the exact `round(100 * 23 / 40)` is 58, but the topic list
shows `completedPct` 57: the quotient 0.575 is no binary64 value and the
binary64 product is 57.49999999999999. -/
theorem completion_below_exact_formula :
    storeFortyQuestions.questionsCount 1 = 40 ∧ distinctAttempted storeFortyQuestions 1 = 23 ∧
      ⌊100 * (23 : ℚ) / 40 + 1 / 2⌋ = 58 ∧
      (handleTopics storeFortyQuestions learnerRequest).1.body.getProp "topics"
        = .arr [.obj [("id", .num (.fin 1)), ("title", .str "Algebra"), ("slug", .str "algebra"),
            ("level", .str "HL"), ("paper", .num (.fin 1)), ("completedPct", .num (.fin 57))]] := by
  refine ⟨counts_storeFortyQuestions.1, counts_storeFortyQuestions.2.1, ?_, ?_⟩
  · rw [Int.floor_eq_iff]; constructor <;> norm_num
  · rw [handleTopics_sample storeFortyQuestions rfl rfl rfl, completedPct_storeFortyQuestions]

/-- Claim C18, amended: for a session user over a store that has a topic and
distinct question ids, `handleTopics` answers 200, leaves the store as it
received it, and lists every topic with the value `completedPct` computed over
that store; with `n` the number of questions of a topic and `d` the number of
its distinct questions that have at least one attempt, the value is an integer
between 0 and 100, it is 0 when `n = 0`, and, over at most `2^44` questions, it
is the exact `round(100 * d / n)` unless the exact percentage lies half-way
between two integers, where the binary64 arithmetic may give one less. -/
theorem completion_percentage (db : Store) (request : Request) (user : SessionUser)
    (hu : getUserFromSession db request = some user) (ht : db.topics ≠ [])
    (hids : (db.questions.map fun q => q.id).Nodup) :
    (handleTopics db request).2 = db ∧ (handleTopics db request).1.status = 200 ∧
      (handleTopics db request).1.body.getProp "topics"
        = .arr (db.topicsOrdered.map fun t =>
            .obj [("id", .num (.fin t.id)), ("title", .str t.title), ("slug", .str t.slug),
              ("level", .str t.level), ("paper", .num t.paper),
              ("completedPct", .num (completedPct db t.id))]) ∧
      db.topicsOrdered.Perm db.topics ∧
      ∀ topicId : Nat, ∃ r : ℤ, completedPct db topicId = .fin (r : ℚ) ∧ 0 ≤ r ∧ r ≤ 100 ∧
        (db.questionsCount topicId = 0 → r = 0) ∧
        (db.questions.length ≤ 2 ^ 44 →
          (r = ⌊100 * (distinctAttempted db topicId : ℚ) / (db.questionsCount topicId : ℚ)
                + 1 / 2⌋ ∨
            (r = ⌊100 * (distinctAttempted db topicId : ℚ) / (db.questionsCount topicId : ℚ)
                + 1 / 2⌋ - 1 ∧
              ∃ k : ℤ,
                100 * (distinctAttempted db topicId : ℚ) / (db.questionsCount topicId : ℚ)
                  = k + 1 / 2))) := by
  have h := handleTopics_of_topics db request user hu ht
  refine ⟨by rw [h], by rw [h]; rfl, ?_, List.perm_insertionSort _ _,
    fun topicId => completedPct_props db topicId hids⟩
  rw [h]
  simp only [json, JVal.getProp, List.lookup]
  simp only [beq_self_eq_true, Option.getD_some]
  rfl

/-- Witness for C18: a topic with four questions, one of them attempted (by two
users), has `completedPct` exactly 25. -/
theorem completion_percentage_witness :
    (handleTopics storeFourQuestions learnerRequest).2 = storeFourQuestions ∧
      (handleTopics storeFourQuestions learnerRequest).1.body.getProp "topics"
        = .arr [.obj [("id", .num (.fin 1)), ("title", .str "Algebra"), ("slug", .str "algebra"),
            ("level", .str "HL"), ("paper", .num (.fin 1)), ("completedPct", .num (.fin 25))]] := by
  have hu := getUser_learner storeFourQuestions rfl rfl
  obtain ⟨hs, -, hb, -, hall⟩ := completion_percentage storeFourQuestions learnerRequest _ hu
    (by decide) (by decide)
  refine ⟨hs, ?_⟩
  obtain ⟨r, hr, -, -, -, hex'⟩ := hall 1
  have hex := hex' (by decide)
  have hd : distinctAttempted storeFourQuestions 1 = 1 := by decide
  have hn : storeFourQuestions.questionsCount 1 = 4 := by decide
  have hv : (100 : ℚ) * ((1 : ℕ) : ℚ) / ((4 : ℕ) : ℚ) = ((25 : ℤ) : ℚ) := by norm_num
  have hf : ⌊(((25 : ℤ) : ℚ)) + 1 / 2⌋ = 25 := by
    rw [Int.floor_eq_iff]; norm_num
  rw [hd, hn, hv, hf] at hex
  have h25 : r = 25 := by
    rcases hex with h | ⟨-, hk⟩
    · exact h
    · exact absurd hk (not_half_of_intCast 25)
  have ho : storeFourQuestions.topicsOrdered
      = [⟨1, "Algebra", "algebra", "HL", .fin 1, .fin 1, ""⟩] := rfl
  rw [hb, ho]
  simp only [List.map_cons, List.map_nil, hr, h25]
  norm_num

/-! ## Topic detail -/

theorem topicBySlug_sample (db : Store) (ht : db.topics = sampleStore.topics) :
    db.topicBySlug "algebra" = some ⟨1, "Algebra", "algebra", "HL", .fin 1, .fin 1, ""⟩ := by
  simp only [Store.topicBySlug, ht]
  decide

theorem handleTopicDetail_sample (db : Store) (hs : db.sessions = sampleStore.sessions)
    (hu : db.users = sampleStore.users) (ht : db.topics = sampleStore.topics) :
    (handleTopicDetail db learnerRequest "algebra").1.body
      = .obj [
          ("topic", .obj [("id", .num (.fin 1)), ("title", .str "Algebra"), ("slug", .str "algebra"),
            ("level", .str "HL"), ("paper", .num (.fin 1)), ("notesHtml", .str "")]),
          ("questions", .arr (questionsOut (db.attemptedRows 1 1) 1 (db.questionsOfTopic (.fin 1)))),
          ("stats", (db.topicStats 1 1).toJVal)] := by
  have hseed : ensureSeedData db = (db, none) :=
    ensureSeedData_of_topics db (by rw [ht]; decide)
  simp only [handleTopicDetail, getUser_learner db hs hu, hseed, topicBySlug_sample db ht, json]
  norm_num

theorem statsJoin_twoAttempts :
    storeTwoAttempts.statsJoin 1 1 =
      [(⟨1, .fin 1, "Solve 2x + 3 = 11.", "x = 4", .fin 10, none⟩,
          some ⟨1, 1, 1, "first", some (.fin 8), "", 10⟩),
        (⟨1, .fin 1, "Solve 2x + 3 = 11.", "x = 4", .fin 10, none⟩,
          some ⟨2, 1, 1, "second", some (.fin 3), "", 20⟩),
        (⟨2, .fin 1, "Factorise x^2 - 1.", "(x - 1)(x + 1)", .fin 15, none⟩, none)] := by
  decide

theorem statsJoin_oneAttempt :
    storeOneAttempt.statsJoin 1 1 =
      [(⟨1, .fin 1, "Solve 2x + 3 = 11.", "x = 4", .fin 10, none⟩,
          some ⟨1, 1, 1, "first", some (.fin 5), "", 10⟩),
        (⟨2, .fin 1, "Factorise x^2 - 1.", "(x - 1)(x + 1)", .fin 15, none⟩, none)] := by
  decide

theorem topicStats_twoAttempts : storeTwoAttempts.topicStats 1 1 = ⟨3, 2, 55⟩ := by
  have hf : Math.roundQ 55 = 55 := by
    rw [roundQ_eq_floor, Int.floor_eq_iff]
    norm_num
  have hl : List.filterMap id [some (80 : ℚ), some 30, none] = [80, 30] := rfl
  simp only [Store.topicStats, statsJoin_twoAttempts]
  norm_num [sqlAvg, sqlPct, hl, hf]

theorem topicStats_oneAttempt : storeOneAttempt.topicStats 1 1 = ⟨2, 1, 50⟩ := by
  have hf : Math.roundQ 50 = 50 := by
    rw [roundQ_eq_floor, Int.floor_eq_iff]
    norm_num
  have hl : List.filterMap id [some (50 : ℚ), none] = [50] := rfl
  simp only [Store.topicStats, statsJoin_oneAttempt]
  norm_num [sqlAvg, sqlPct, hl, hf]

/-- Claim C19, the code at the failing input: the topic has 2 questions and the
learner attempted question 1 twice (so 1 distinct question); the statistics row
counts joined rows, giving `total = 3` and `attempted = 2`.  With a single
attempt of 5 out of 10 the figures are `attempted = 1`, `total = 2`,
`avgMarkPct = 50`. -/
theorem topic_stats_count_joined_rows :
    storeTwoAttempts.questionsCount 1 = 2 ∧
      distinctAttemptedBy storeTwoAttempts 1 1 = 1 ∧
      (handleTopicDetail storeTwoAttempts learnerRequest "algebra").1.body.getProp "stats"
        = .obj [("total", .num (.fin 3)), ("attempted", .num (.fin 2)),
            ("avgMarkPct", .num (.fin 55))] ∧
      (handleTopicDetail storeOneAttempt learnerRequest "algebra").1.body.getProp "stats"
        = .obj [("total", .num (.fin 2)), ("attempted", .num (.fin 1)),
            ("avgMarkPct", .num (.fin 50))] := by
  refine ⟨by decide, by decide, ?_, ?_⟩
  · rw [handleTopicDetail_sample storeTwoAttempts rfl rfl rfl, topicStats_twoAttempts]
    simp [JVal.getProp, List.lookup, TopicStats.toJVal]
  · rw [handleTopicDetail_sample storeOneAttempt rfl rfl rfl, topicStats_oneAttempt]
    simp [JVal.getProp, List.lookup, TopicStats.toJVal]

theorem attemptedRows_twoAttempts :
    storeTwoAttempts.attemptedRows 1 1 = [⟨1, 20, some (.fin 8)⟩] := by
  have hg : storeTwoAttempts.attemptsInTopic 1 1
      = [⟨1, 1, 1, "first", some (.fin 8), "", 10⟩, ⟨2, 1, 1, "second", some (.fin 3), "", 20⟩] := by
    decide
  have hd : ([1, 1] : List Nat).dedup = [1] := by decide
  simp only [Store.attemptedRows, hg, List.map_cons, List.map_nil, hd]
  norm_num [sqlMax, Math.max]

theorem questionsOfTopic_twoAttempts :
    storeTwoAttempts.questionsOfTopic (.fin 1) =
      [⟨1, .fin 1, "Solve 2x + 3 = 11.", "x = 4", .fin 10, none⟩,
        ⟨2, .fin 1, "Factorise x^2 - 1.", "(x - 1)(x + 1)", .fin 15, none⟩] := by
  decide

/-- Claim C20, the code at the failing input: the learner scored 8 on question
1 at time 10 and 3 at time 20; the most recent attempt carries the mark 3, yet
`lastMarkText` is `8/10`, the greatest mark, not `3/10`.  The unattempted
question 2 has `lastMarkText` `null`. -/
theorem last_mark_is_greatest_mark :
    (latestAttempt storeTwoAttempts 1 1).map (fun a => a.marks_awarded) = some (some (.fin 3)) ∧
      (handleTopicDetail storeTwoAttempts learnerRequest "algebra").1.body.getProp "questions"
        = .arr [
            .obj [("id", .num (.fin 1)), ("text", .str "Solve 2x + 3 = 11."),
              ("max_marks", .num (.fin 10)), ("displayNumber", .num (.fin 1)),
              ("lastMarkText", .str "8/10")],
            .obj [("id", .num (.fin 2)), ("text", .str "Factorise x^2 - 1."),
              ("max_marks", .num (.fin 15)), ("displayNumber", .num (.fin 2)),
              ("lastMarkText", .null)]] := by
  refine ⟨by decide, ?_⟩
  rw [handleTopicDetail_sample storeTwoAttempts rfl rfl rfl, attemptedRows_twoAttempts,
    questionsOfTopic_twoAttempts]
  have h8 : (JNum.fin 8).toStr ++ "/" ++ (JNum.fin 10).toStr = "8/10" := by decide
  simp only [JVal.getProp, List.lookup, questionsOut, lastMarkText]
  have hk : ("questions" == "topic") = false := by decide
  norm_num [h8, hk]

/-! ## Output shape -/

/-- The answer of `handleCreateAttempt` to a submission that passes the guards
and names a question: the evaluation is returned and bound into one insert. -/
theorem handleCreateAttempt_recorded (P : Platform) (env : Env) (db : Store) (request : Request)
    (user : SessionUser) (body : JVal) (question : Question)
    (hu : getUserFromSession db request = some user) (hb : request.body = some body)
    (ht : body.truthy = true) (hid : (body.getProp "questionId").truthy = true)
    (ha : (body.getProp "answerText").truthy = true)
    (hbind : d1BindError (body.getProp "questionId") = none)
    (hq : db.questionById (body.getProp "questionId") = some question) :
    handleCreateAttempt P env db request =
      (json (.obj [("ok", .bool true),
          ("feedback", (evaluateAttempt P.parse env (modeOf (body.getProp "mode")) question
            (jsString (body.getProp "answerText"))).feedback.toJVal)]) 200,
        db.insertAttempt user.id question.id (jsString (body.getProp "answerText"))
          (evaluateAttempt P.parse env (modeOf (body.getProp "mode")) question
            (jsString (body.getProp "answerText"))).marksAwarded
          (P.stringify (evaluateAttempt P.parse env (modeOf (body.getProp "mode")) question
            (jsString (body.getProp "answerText"))).feedback.toJVal)
          P.now) := by
  simp only [handleCreateAttempt, hu, hb, ht, hid, ha, hbind, hq, Bool.not_true, Bool.or_self,
    Bool.false_eq_true, if_false]

theorem getUser_attemptRequest (body : Option JVal) :
    getUserFromSession sampleStore ⟨some "session_id=tok-1", body⟩
      = some ⟨1, "ann@example.com", false⟩ := by
  have hm : matchSessionId "session_id=tok-1".toList = some "tok-1".toList := by decide
  simp only [getUserFromSession, Option.getD_some, hm]
  decide

theorem handleCreateAttempt_sample (P : Platform) (env : Env) :
    handleCreateAttempt P env sampleStore attemptRequest =
      (json (.obj [("ok", .bool true),
          ("feedback", (evaluateAttempt P.parse env .mark sampleQuestion sampleAnswer).feedback.toJVal)])
          200,
        sampleStore.insertAttempt 1 1 sampleAnswer
          (evaluateAttempt P.parse env .mark sampleQuestion sampleAnswer).marksAwarded
          (P.stringify (evaluateAttempt P.parse env .mark sampleQuestion sampleAnswer).feedback.toJVal)
          P.now) := by
  have hid : ((JVal.obj [("questionId", .num (.fin 1)), ("answerText", .str sampleAnswer)]).getProp
      "questionId") = .num (.fin 1) := rfl
  have ha : ((JVal.obj [("questionId", .num (.fin 1)), ("answerText", .str sampleAnswer)]).getProp
      "answerText") = .str sampleAnswer := rfl
  have hm : ((JVal.obj [("questionId", .num (.fin 1)), ("answerText", .str sampleAnswer)]).getProp
      "mode") = .undefined := rfl
  have h := handleCreateAttempt_recorded P env sampleStore attemptRequest _ _ sampleQuestion
    (getUser_attemptRequest _) rfl rfl (by rw [hid]; simp [JVal.truthy]) (by rw [ha]; decide)
    (by rw [hid]; rfl) (by rw [hid]; rfl)
  rw [h, ha, hm]
  rfl

/-- Claim C11, the code at the failing input: in mode `mark` the model answers
with the object whose `summary` is the number 7; the feedback returned by
`handleCreateAttempt` has that number as its summary, not a string, while the
score text is a string and the steps are the four Tier-1 strings. -/
theorem summary_not_validated_as_string :
    (handleCreateAttempt (platformParsing numericSummaryText numericSummaryValue)
        (envAnswering numericSummaryText) sampleStore attemptRequest).1.status = 200 ∧
      ((handleCreateAttempt (platformParsing numericSummaryText numericSummaryValue)
          (envAnswering numericSummaryText) sampleStore attemptRequest).1.body.getProp
            "feedback").getProp "summary" = .num (.fin 7) ∧
      (∀ s : String,
        ((handleCreateAttempt (platformParsing numericSummaryText numericSummaryValue)
          (envAnswering numericSummaryText) sampleStore attemptRequest).1.body.getProp
            "feedback").getProp "summary" ≠ .str s) ∧
      ((handleCreateAttempt (platformParsing numericSummaryText numericSummaryValue)
          (envAnswering numericSummaryText) sampleStore attemptRequest).1.body.getProp
            "feedback").getProp "scoreText" = .str "Explanation only" ∧
      ((handleCreateAttempt (platformParsing numericSummaryText numericSummaryValue)
          (envAnswering numericSummaryText) sampleStore attemptRequest).1.body.getProp
            "feedback").getProp "steps"
        = .arr [.str "State what the question is asking you to find.",
            .str "Write down the key formula or relationship you will use.",
            .str "Substitute in the values and simplify carefully.",
            .str "Check that your final answer makes sense."] := by
  have hy := maybeRunGemini_of_yields _ _ _ _ _ _
    (tier2Yields_envAnswering numericSummaryText numericSummaryText numericSummaryValue .mark
      sampleQuestion sampleAnswer (by decide) rfl)
  have hc : clampMarks (numericSummaryValue.getProp "marks_awarded") sampleQuestion.max_marks
      = none := rfl
  have hp : (platformParsing numericSummaryText numericSummaryValue).parse
      = parseOnly numericSummaryText numericSummaryValue := rfl
  have hsum : (numericSummaryValue.getProp "summary").or (numericSummaryValue.getProp "comment")
      = .num (.fin 7) := by
    simp [numericSummaryValue, JVal.getProp, List.lookup, JVal.or, JVal.truthy]
  have hst : validSteps (numericSummaryValue.getProp "steps") = [] := rfl
  have hfb : (evaluateAttempt (parseOnly numericSummaryText numericSummaryValue)
      (envAnswering numericSummaryText) .mark sampleQuestion sampleAnswer).feedback
      = ⟨"Explanation only", .num (.fin 7),
          ["State what the question is asking you to find.",
            "Write down the key formula or relationship you will use.",
            "Substitute in the values and simplify carefully.",
            "Check that your final answer makes sense."]⟩ := by
    simp only [evaluateAttempt, hy, applyAiFeedback, hc, hsum, hst]
    simp [tier1Feedback, JVal.or, JVal.truthy]
  have hk1 : ("feedback" == "ok") = false := by decide
  have hk2 : ("summary" == "scoreText") = false := by decide
  have hk3 : ("steps" == "scoreText") = false := by decide
  have hk4 : ("steps" == "summary") = false := by decide
  rw [handleCreateAttempt_sample, hp, hfb]
  refine ⟨rfl, ?_, ?_, ?_, ?_⟩
  · simp [json, JVal.getProp, List.lookup, Feedback.toJVal, hk1, hk2]
  · intro s
    simp [json, JVal.getProp, List.lookup, Feedback.toJVal, hk1, hk2]
  · simp [json, JVal.getProp, List.lookup, Feedback.toJVal, hk1]
  · simp [json, JVal.getProp, List.lookup, Feedback.toJVal, hk1, hk3, hk4]

/-! ## Mode `explain` -/

/-- Claim C3: a submission whose `mode` is `"explain"`, from a session user,
with an answer text and a question id that names a question, is recorded by
`handleCreateAttempt` with no mark (`marks_awarded` is `NULL`) and is answered
with the score text `Explanation only`, whatever the answer and whatever Tier 2
does; the summary and the steps are those of the evaluation. -/
theorem explain_request_records_no_mark (P : Platform) (env : Env) (db : Store)
    (request : Request) (user : SessionUser) (body : JVal) (question : Question)
    (hu : getUserFromSession db request = some user) (hb : request.body = some body)
    (ht : body.truthy = true) (hid : (body.getProp "questionId").truthy = true)
    (ha : (body.getProp "answerText").truthy = true)
    (hbind : d1BindError (body.getProp "questionId") = none)
    (hq : db.questionById (body.getProp "questionId") = some question)
    (hmode : body.getProp "mode" = .str "explain") :
    ∃ (summary : JVal) (steps : List String) (row : AttemptRow),
      handleCreateAttempt P env db request =
        (⟨200, .obj [("ok", .bool true),
            ("feedback", .obj [("scoreText", .str "Explanation only"), ("summary", summary),
              ("steps", .arr (steps.map JVal.str))])], none⟩,
          { db with attempts := db.attempts ++ [row] }) ∧
        row.marks_awarded = none ∧ row.user_id = user.id ∧ row.question_id = question.id ∧
        row.answer_text = jsString (body.getProp "answerText") ∧
        row.feedback_json = P.stringify (.obj [("scoreText", .str "Explanation only"),
          ("summary", summary), ("steps", .arr (steps.map JVal.str))]) := by
  have hm : modeOf (body.getProp "mode") = .explain := by
    rw [hmode]
    simp [modeOf]
  obtain ⟨hmarks, hscore⟩ := explain_evaluation_no_marks P.parse env question
    (jsString (body.getProp "answerText"))
  refine ⟨(evaluateAttempt P.parse env .explain question
      (jsString (body.getProp "answerText"))).feedback.summary,
    (evaluateAttempt P.parse env .explain question
      (jsString (body.getProp "answerText"))).feedback.steps,
    ⟨nextId (db.attempts.map fun a => a.id), user.id, question.id,
      jsString (body.getProp "answerText"), none,
      P.stringify (.obj [("scoreText", .str "Explanation only"),
        ("summary", (evaluateAttempt P.parse env .explain question
          (jsString (body.getProp "answerText"))).feedback.summary),
        ("steps", .arr ((evaluateAttempt P.parse env .explain question
          (jsString (body.getProp "answerText"))).feedback.steps.map JVal.str))]), P.now⟩,
    ?_, rfl, rfl, rfl, rfl, rfl⟩
  rw [handleCreateAttempt_recorded P env db request user body question hu hb ht hid ha hbind hq,
    hm, hmarks]
  simp only [Feedback.toJVal, hscore, json, Store.insertAttempt]

/-- Witness for C3: on the sample store the learner submits the 60-character
answer to question 1 in mode `explain`, and the model replies with 42 marks;
the attempt is recorded with no mark and answered `Explanation only`. -/
theorem explain_request_records_no_mark_witness :
    ∃ (summary : JVal) (steps : List String) (row : AttemptRow),
      handleCreateAttempt (platformParsing overMarksText overMarksValue)
          (envAnswering overMarksText) sampleStore explainRequest =
        (⟨200, .obj [("ok", .bool true),
            ("feedback", .obj [("scoreText", .str "Explanation only"), ("summary", summary),
              ("steps", .arr (steps.map JVal.str))])], none⟩,
          { sampleStore with attempts := [row] }) ∧
        row.marks_awarded = none ∧ row.user_id = 1 ∧ row.question_id = 1 := by
  have hid : ((JVal.obj [("questionId", .num (.fin 1)), ("answerText", .str sampleAnswer),
      ("mode", .str "explain")]).getProp "questionId") = .num (.fin 1) := rfl
  have ha : ((JVal.obj [("questionId", .num (.fin 1)), ("answerText", .str sampleAnswer),
      ("mode", .str "explain")]).getProp "answerText") = .str sampleAnswer := rfl
  obtain ⟨summary, steps, row, h, h1, h2, h3, -⟩ :=
    explain_request_records_no_mark (platformParsing overMarksText overMarksValue)
      (envAnswering overMarksText) sampleStore explainRequest _ _ sampleQuestion
      (getUser_attemptRequest _) rfl rfl (by rw [hid]; simp [JVal.truthy]) (by rw [ha]; decide)
      (by rw [hid]; rfl) (by rw [hid]; rfl) rfl
  exact ⟨summary, steps, row, h, h1, h2, h3⟩

/-! ## Attempts are appended -/

/-- Claim C21, as stated, fails: the learner submits a JSON object as the
question id; `bind` refuses the value, the exception leaves the handler and
the answer is the 500 of an unhandled exception, neither one of the three
errors nor a recorded attempt; the store is left as it was. -/
theorem unbindable_question_id_raises :
    (handleCreateAttempt samplePlatform envNoKey sampleStore objectIdRequest).1.status = 500 ∧
      (handleCreateAttempt samplePlatform envNoKey sampleStore objectIdRequest).2 = sampleStore ∧
      ∀ row : AttemptRow,
        (handleCreateAttempt samplePlatform envNoKey sampleStore objectIdRequest).2.attempts
          ≠ sampleStore.attempts ++ [row] := by
  have hid : ((JVal.obj [("questionId", .obj [("a", .num (.fin 1))]),
      ("answerText", .str sampleAnswer)]).getProp "questionId")
      = .obj [("a", .num (.fin 1))] := rfl
  have ha : ((JVal.obj [("questionId", .obj [("a", .num (.fin 1))]),
      ("answerText", .str sampleAnswer)]).getProp "answerText") = .str sampleAnswer := rfl
  have hat : (JVal.str sampleAnswer).truthy = true := by decide
  have h : handleCreateAttempt samplePlatform envNoKey sampleStore objectIdRequest
      = (unhandledException, sampleStore) := by
    simp only [handleCreateAttempt, objectIdRequest, getUser_attemptRequest, hid, ha, hat]
    rfl
  rw [h]
  refine ⟨rfl, rfl, ?_⟩
  intro row hrow
  have := congrArg List.length hrow
  simp [sampleStore] at this

/-- Claim C21, amended: `handleCreateAttempt` answers 401 without a session
user; 400 without a body or with a falsy body, `questionId` or `answerText`;
the 500 of an unhandled exception when the store client cannot bind the
question id; 404 when the bound id names no question; in each of these cases
the store is left as it was.  In every other case it answers 200 and appends
exactly one attempt row, with a fresh id, carrying the id of the session user,
the id of the question, the submitted answer text, the final `marksAwarded` and
the JSON of the feedback it returns; every earlier attempt row and every other
table is unchanged. -/
theorem attempt_appended_once (P : Platform) (env : Env) (db : Store) (request : Request) :
    (getUserFromSession db request = none →
        handleCreateAttempt P env db request
          = (⟨401, .obj [("error", .str "Unauthorised")], none⟩, db)) ∧
      ∀ user, getUserFromSession db request = some user →
        ((request.body = none ∨ ∃ body, request.body = some body ∧
              (body.truthy = false ∨ (body.getProp "questionId").truthy = false ∨
                (body.getProp "answerText").truthy = false)) →
            handleCreateAttempt P env db request
              = (⟨400, .obj [("error", .str "questionId and answerText are required.")], none⟩,
                  db)) ∧
          ∀ body, request.body = some body → body.truthy = true →
            (body.getProp "questionId").truthy = true →
            (body.getProp "answerText").truthy = true →
            (d1BindError (body.getProp "questionId") ≠ none →
                handleCreateAttempt P env db request = (⟨500, .undefined, none⟩, db)) ∧
              (d1BindError (body.getProp "questionId") = none →
                (db.questionById (body.getProp "questionId") = none →
                    handleCreateAttempt P env db request
                      = (⟨404, .obj [("error", .str "Question not found")], none⟩, db)) ∧
                  ∀ question, db.questionById (body.getProp "questionId") = some question →
                    ∃ row : AttemptRow,
                      handleCreateAttempt P env db request =
                        (⟨200, .obj [("ok", .bool true),
                            ("feedback", (evaluateAttempt P.parse env
                              (modeOf (body.getProp "mode")) question
                              (jsString (body.getProp "answerText"))).feedback.toJVal)], none⟩,
                          { db with attempts := db.attempts ++ [row] }) ∧
                        row.id ∉ db.attempts.map (fun a => a.id) ∧
                        row.user_id = user.id ∧ row.question_id = question.id ∧
                        row.answer_text = jsString (body.getProp "answerText") ∧
                        row.marks_awarded
                          = (evaluateAttempt P.parse env (modeOf (body.getProp "mode")) question
                              (jsString (body.getProp "answerText"))).marksAwarded ∧
                        row.feedback_json
                          = P.stringify (evaluateAttempt P.parse env
                              (modeOf (body.getProp "mode")) question
                              (jsString (body.getProp "answerText"))).feedback.toJVal) := by
  refine ⟨fun hu => by simp [handleCreateAttempt, hu, json, errorBody], ?_⟩
  intro user hu
  refine ⟨?_, ?_⟩
  · rintro (hb | ⟨body, hb, hcase⟩)
    · simp [handleCreateAttempt, hu, hb, json, errorBody]
    · have hcond : (!body.truthy || !(body.getProp "questionId").truthy
          || !(body.getProp "answerText").truthy) = true := by
        rcases hcase with h | h | h <;> simp [h]
      simp only [handleCreateAttempt, hu, hb, hcond, if_true, json, errorBody]
  · intro body hb ht hid ha
    refine ⟨?_, ?_⟩
    · intro hbind
      cases hbe : d1BindError (body.getProp "questionId") with
      | none => exact absurd hbe hbind
      | some err =>
        simp only [handleCreateAttempt, hu, hb, ht, hid, ha, hbe, Bool.not_true, Bool.or_self,
          Bool.false_eq_true, if_false, unhandledException]
    · intro hbind
      refine ⟨?_, ?_⟩
      · intro hq
        simp only [handleCreateAttempt, hu, hb, ht, hid, ha, hbind, hq, Bool.not_true,
          Bool.or_self, Bool.false_eq_true, if_false, json, errorBody]
      · intro question hq
        refine ⟨⟨nextId (db.attempts.map fun a => a.id), user.id, question.id,
          jsString (body.getProp "answerText"),
          (evaluateAttempt P.parse env (modeOf (body.getProp "mode")) question
            (jsString (body.getProp "answerText"))).marksAwarded,
          P.stringify (evaluateAttempt P.parse env (modeOf (body.getProp "mode")) question
            (jsString (body.getProp "answerText"))).feedback.toJVal, P.now⟩,
          ?_, nextId_not_mem _, rfl, rfl, rfl, rfl, rfl⟩
        rw [handleCreateAttempt_recorded P env db request user body question hu hb ht hid ha
          hbind hq]
        rfl

/-- Witness for C21: on the sample store, with no credential, the learner's
60-character answer to question 1 is answered 200 and recorded as the one
attempt row, with the learner's id, the question's id and the Tier-1 mark 5. -/
theorem attempt_appended_once_witness :
    ∃ row : AttemptRow,
      (handleCreateAttempt samplePlatform envNoKey sampleStore attemptRequest).1.status = 200 ∧
        (handleCreateAttempt samplePlatform envNoKey sampleStore attemptRequest).2
          = { sampleStore with attempts := [row] } ∧
        row.user_id = 1 ∧ row.question_id = 1 ∧ row.answer_text = sampleAnswer ∧
        row.marks_awarded = some (.fin 5) := by
  have hid : ((JVal.obj [("questionId", .num (.fin 1)), ("answerText", .str sampleAnswer)]).getProp
      "questionId") = .num (.fin 1) := rfl
  have ha : ((JVal.obj [("questionId", .num (.fin 1)), ("answerText", .str sampleAnswer)]).getProp
      "answerText") = .str sampleAnswer := rfl
  have hm : ((JVal.obj [("questionId", .num (.fin 1)), ("answerText", .str sampleAnswer)]).getProp
      "mode") = .undefined := rfl
  obtain ⟨row, h, -, h1, h2, h3, h4, -⟩ :=
    ((((attempt_appended_once samplePlatform envNoKey sampleStore attemptRequest).2 _
      (getUser_attemptRequest _)).2 _ rfl rfl (by rw [hid]; simp [JVal.truthy])
      (by rw [ha]; decide)).2 (by rw [hid]; rfl)).2 sampleQuestion (by rw [hid]; rfl)
  have hev : (evaluateAttempt samplePlatform.parse envNoKey (modeOf JVal.undefined) sampleQuestion
      sampleAnswer).marksAwarded = some (.fin 5) := by
    simp [evaluateAttempt, maybeRunGemini, envNoKey, modeOf, tier1Marks_sample]
  rw [ha] at h3
  rw [ha, hm] at h4
  refine ⟨row, by rw [h], by rw [h]; rfl, h1, h2, h3, ?_⟩
  rw [h4]
  exact hev

/-! ## Seeding -/

/-- Claim C22, the code at the failing input: `ensureSeedData` does nothing
when a topic exists, and a second run never changes what the first left; but
on a catalogue without topics it writes the topic `algebra-equations` and then
throws, because the topic id it binds into the question inserts is
`result.lastInsertRowid`, which the D1 result does not have: no question is
written, and the first topic list a learner asks for is answered with the 500
of an unhandled exception. -/
theorem seed_writes_topic_without_questions :
    (∀ db : Store, db.topics ≠ [] → ensureSeedData db = (db, none)) ∧
      (∀ db : Store, db.topics = [] →
        ensureSeedData db =
          ({ db with
              topics := [⟨1, "Algebra & Equations", "algebra-equations", "HL", .fin 1, .fin 1,
                "<p>This topic covers basic quadratic equations, factoring, and roots.</p>"⟩] },
            some "Error: D1_TYPE_ERROR: Type 'undefined' not supported for value 'undefined'")) ∧
      (∀ db : Store, ensureSeedData (ensureSeedData db).1 = ((ensureSeedData db).1, none)) ∧
      (ensureSeedData emptyStore).1.topics.length = 1 ∧
      (ensureSeedData emptyStore).1.questions = [] ∧
      (ensureSeedData emptyStore).2
        = some "Error: D1_TYPE_ERROR: Type 'undefined' not supported for value 'undefined'" ∧
      (handleTopics storeNoTopics learnerRequest).1.status = 500 ∧
      (handleTopics storeNoTopics learnerRequest).2.topics.length = 1 ∧
      (handleTopics storeNoTopics learnerRequest).2.questions = [] := by
  have h := ensureSeedData_empty emptyStore rfl
  have hn := ensureSeedData_empty storeNoTopics rfl
  have ht : handleTopics storeNoTopics learnerRequest
      = (unhandledException, (ensureSeedData storeNoTopics).1) := by
    simp only [handleTopics, getUser_learner storeNoTopics rfl rfl, hn]
  refine ⟨ensureSeedData_of_topics, ensureSeedData_empty, ?_, by rw [h]; rfl, by rw [h]; rfl,
    by rw [h], ?_, ?_, ?_⟩
  · intro db
    by_cases hd : db.topics = []
    · rw [ensureSeedData_empty db hd]
      exact ensureSeedData_of_topics _ (by simp)
    · rw [ensureSeedData_of_topics db hd]
      exact ensureSeedData_of_topics db hd
  · rw [ht]; rfl
  · rw [ht, hn]; rfl
  · rw [ht, hn]; rfl

/-! ## Creating questions -/

theorem requireAdmin_sample (body : JVal) :
    requireAdmin sampleStore (adminRequest body) = .ok ⟨2, "root@example.com", true⟩ :=
  requireAdmin_ok sampleStore (adminRequest body) _
    (by
      have hm : matchSessionId "session_id=tok-2".toList = some "tok-2".toList := by decide
      simp only [getUserFromSession, adminRequest, Option.getD_some, hm]
      decide) rfl

theorem adminCreateQuestion_reject (db : Store) (request : Request)
    (h : request.body = none ∨ ∃ body, request.body = some body ∧
      (body.truthy = false ∨ (body.getProp "topic_id").truthy = false ∨
        (body.getProp "text").truthy = false ∨ (body.getProp "marking_scheme").truthy = false ∨
        (body.getProp "max_marks").truthy = false)) :
    adminCreateQuestion db request
      = (⟨400, .obj [("error", .str "topic_id, text, marking_scheme, max_marks are required.")],
          none⟩, db) := by
  rcases h with hb | ⟨body, hb, hcase⟩
  · simp [adminCreateQuestion, hb, json, errorBody]
  · have hcond : (!body.truthy || !(body.getProp "topic_id").truthy
        || !(body.getProp "text").truthy || !(body.getProp "marking_scheme").truthy
        || !(body.getProp "max_marks").truthy) = true := by
      rcases hcase with h | h | h | h | h <;> simp [h]
    simp only [adminCreateQuestion, hb, hcond, if_true, json, errorBody]

theorem adminCreateQuestion_accept (db : Store) (request : Request) (body : JVal)
    (hb : request.body = some body) (ht : body.truthy = true)
    (h1 : (body.getProp "topic_id").truthy = true) (h2 : (body.getProp "text").truthy = true)
    (h3 : (body.getProp "marking_scheme").truthy = true)
    (h4 : (body.getProp "max_marks").truthy = true) :
    adminCreateQuestion db request =
      (⟨200, .obj [("ok", .bool true)], none⟩,
        { db with
          questions := db.questions ++
            [⟨nextId (db.questions.map fun q => q.id), jsNumber (body.getProp "topic_id"),
              jsString (body.getProp "text"), jsString (body.getProp "marking_scheme"),
              jsNumber (body.getProp "max_marks"),
              if (body.getProp "source_ref").truthy then some (jsString (body.getProp "source_ref"))
              else none⟩] }) := by
  simp [adminCreateQuestion, hb, ht, h1, h2, h3, h4, json, okBody, Store.insertQuestion]

/-- Counterexample to C23 as stated: an administrator submits a question whose
`max_marks` is -5; the answer is 200 and the row is inserted with `max_marks`
-5, which is not a positive integer. -/
theorem negative_max_marks_accepted :
    (handleAdminCreateQuestion sampleStore (adminRequest negativeMarksBody)).1.status = 200 ∧
      (handleAdminCreateQuestion sampleStore (adminRequest negativeMarksBody)).2.questions
        = sampleStore.questions ++
            [⟨3, .fin 1, "Solve x + 5 = 0.", "x = -5", .fin (-5), none⟩] ∧
      ¬ ∃ m : ℤ, 0 < m ∧ JNum.fin (-5) = JNum.fin (m : ℚ) := by
  have h1 : (negativeMarksBody.getProp "topic_id").truthy = true := by
    simp [negativeMarksBody, JVal.getProp, List.lookup, JVal.truthy]
  have h2 : (negativeMarksBody.getProp "text").truthy = true := by decide
  have h3 : (negativeMarksBody.getProp "marking_scheme").truthy = true := by decide
  have hm : negativeMarksBody.getProp "max_marks" = .num (.fin (-5)) := rfl
  have h4 : (negativeMarksBody.getProp "max_marks").truthy = true := by
    rw [hm]
    simp [JVal.truthy]
  have ht : negativeMarksBody.getProp "topic_id" = .num (.fin 1) := rfl
  have hs : (negativeMarksBody.getProp "source_ref").truthy = false := by decide
  have hacc := adminCreateQuestion_accept sampleStore (adminRequest negativeMarksBody)
    negativeMarksBody rfl rfl h1 h2 h3 h4
  have hh : handleAdminCreateQuestion sampleStore (adminRequest negativeMarksBody)
      = adminCreateQuestion sampleStore (adminRequest negativeMarksBody) := by
    simp only [handleAdminCreateQuestion, requireAdmin_sample]
  rw [hh, hacc]
  refine ⟨rfl, ?_, ?_⟩
  · simp only [hm, ht, hs, jsNumber]
    rfl
  · rintro ⟨m, hpos, heq⟩
    injection heq with heq
    have : (m : ℚ) = -5 := heq.symm
    have hm5 : m = -5 := by exact_mod_cast this
    omega

/-- Claim C23, amended: for an administrator, `handleAdminCreateQuestion`
answers 400 and inserts nothing when the body is missing or falsy or one of
`topic_id`, `text`, `marking_scheme`, `max_marks` is falsy (the number 0
included); a body with the four of them truthy whose `Number(topic_id)` and
`Number(max_marks)` are finite is answered 200 and appends exactly one row,
with a fresh id, whose `max_marks` is `Number(max_marks)` of that body,
whatever its sign or fractional part, every earlier row unchanged.  A question
row that `ensureSeedData` adds has `max_marks` 10 or 15. -/
theorem question_max_marks_presence_only (db : Store) (request : Request) (u : SessionUser)
    (hu : getUserFromSession db request = some u) (hadm : u.is_admin = true) :
    ((request.body = none ∨ ∃ body, request.body = some body ∧
          (body.truthy = false ∨ (body.getProp "topic_id").truthy = false ∨
            (body.getProp "text").truthy = false ∨
            (body.getProp "marking_scheme").truthy = false ∨
            (body.getProp "max_marks").truthy = false)) →
        handleAdminCreateQuestion db request
          = (⟨400, .obj [("error", .str "topic_id, text, marking_scheme, max_marks are required.")],
              none⟩, db)) ∧
      (∀ (body : JVal) (t m : ℚ), request.body = some body → body.truthy = true →
        (body.getProp "topic_id").truthy = true → (body.getProp "text").truthy = true →
        (body.getProp "marking_scheme").truthy = true →
        (body.getProp "max_marks").truthy = true →
        jsNumber (body.getProp "topic_id") = .fin t →
        jsNumber (body.getProp "max_marks") = .fin m →
        ∃ row : QuestionRow,
          handleAdminCreateQuestion db request
            = (⟨200, .obj [("ok", .bool true)], none⟩,
                { db with questions := db.questions ++ [row] }) ∧
          row.id ∉ db.questions.map (fun q => q.id) ∧
          row.max_marks = .fin m ∧ row.topic_id = .fin t ∧
          row.text = jsString (body.getProp "text") ∧
          row.marking_scheme = jsString (body.getProp "marking_scheme")) ∧
      ∀ q ∈ (ensureSeedData db).1.questions,
        q ∈ db.questions ∨ q.max_marks = .fin 10 ∨ q.max_marks = .fin 15 := by
  have hh : handleAdminCreateQuestion db request = adminCreateQuestion db request := by
    simp only [handleAdminCreateQuestion, requireAdmin_ok db request u hu hadm]
  rw [hh]
  refine ⟨adminCreateQuestion_reject db request, ?_, ?_⟩
  · intro body t m hb ht h1 h2 h3 h4 htn hmn
    rw [adminCreateQuestion_accept db request body hb ht h1 h2 h3 h4, htn, hmn]
    exact ⟨_, rfl, nextId_not_mem _, rfl, rfl, rfl, rfl⟩
  · intro q hq
    rw [ensureSeedData_questions] at hq
    exact Or.inl hq

/-- Witness for C23 amended: for the administrator of the sample store a body
whose `max_marks` is the number 0 is answered 400 and nothing is inserted. -/
theorem question_max_marks_presence_only_witness :
    handleAdminCreateQuestion sampleStore (adminRequest zeroMarksBody)
      = (⟨400, .obj [("error", .str "topic_id, text, marking_scheme, max_marks are required.")],
          none⟩, sampleStore) := by
  have hu : getUserFromSession sampleStore (adminRequest zeroMarksBody)
      = some ⟨2, "root@example.com", true⟩ := by
    have hm : matchSessionId "session_id=tok-2".toList = some "tok-2".toList := by decide
    simp only [getUserFromSession, adminRequest, Option.getD_some, hm]
    decide
  have hz : (zeroMarksBody.getProp "max_marks").truthy = false := by
    have : zeroMarksBody.getProp "max_marks" = .num (.fin 0) := rfl
    rw [this]
    simp [JVal.truthy]
  exact (question_max_marks_presence_only sampleStore (adminRequest zeroMarksBody) _ hu rfl).1
    (Or.inr ⟨zeroMarksBody, rfl, Or.inr (Or.inr (Or.inr (Or.inr hz)))⟩)

/-! ## Scope of the completion figure -/

theorem completedPct_sampleStore : completedPct sampleStore 1 = .fin 0 := by
  have hd : distinctAttempted sampleStore 1 = 0 := by decide
  have hn : sampleStore.questionsCount 1 = 2 := by decide
  have hv : (100 : ℚ) * ((0 : ℕ) : ℚ) / ((2 : ℕ) : ℚ) = ((0 : ℤ) : ℚ) := by norm_num
  have hf : ⌊(((0 : ℤ) : ℚ)) + 1 / 2⌋ = 0 := by
    rw [Int.floor_eq_iff]; norm_num
  have h := completedPct_of_exact sampleStore 1 0 (by decide) (by decide)
    (by rw [hd, hn, hv, hf]) (by rw [hd, hn, hv]; exact not_half_of_intCast 0)
  simpa using h

theorem completedPct_storeOtherLearner : completedPct storeOtherLearner 1 = .fin 50 := by
  have hd : distinctAttempted storeOtherLearner 1 = 1 := by decide
  have hn : storeOtherLearner.questionsCount 1 = 2 := by decide
  have hv : (100 : ℚ) * ((1 : ℕ) : ℚ) / ((2 : ℕ) : ℚ) = ((50 : ℤ) : ℚ) := by norm_num
  have hf : ⌊(((50 : ℤ) : ℚ)) + 1 / 2⌋ = 50 := by
    rw [Int.floor_eq_iff]; norm_num
  have h := completedPct_of_exact storeOtherLearner 1 50 (by decide) (by decide)
    (by rw [hd, hn, hv, hf]) (by rw [hd, hn, hv]; exact not_half_of_intCast 50)
  simpa using h

/-- Claim C24, the code at the failing input: two stores agree on users,
topics, questions and on the attempts of the learner (none), and differ only in
an attempt of another user on question 1; the topic list the learner gets shows
`completedPct` 0 over the first store and 50 over the second. -/
theorem completion_counts_all_users :
    sampleStore.topics = storeOtherLearner.topics ∧
      sampleStore.questions = storeOtherLearner.questions ∧
      (sampleStore.attempts.filter fun a => a.user_id = 1)
        = (storeOtherLearner.attempts.filter fun a => a.user_id = 1) ∧
      getUserFromSession sampleStore learnerRequest = some ⟨1, "ann@example.com", false⟩ ∧
      getUserFromSession storeOtherLearner learnerRequest = some ⟨1, "ann@example.com", false⟩ ∧
      (handleTopics sampleStore learnerRequest).1.body.getProp "topics"
        = .arr [.obj [("id", .num (.fin 1)), ("title", .str "Algebra"), ("slug", .str "algebra"),
            ("level", .str "HL"), ("paper", .num (.fin 1)), ("completedPct", .num (.fin 0))]] ∧
      (handleTopics storeOtherLearner learnerRequest).1.body.getProp "topics"
        = .arr [.obj [("id", .num (.fin 1)), ("title", .str "Algebra"), ("slug", .str "algebra"),
            ("level", .str "HL"), ("paper", .num (.fin 1)), ("completedPct", .num (.fin 50))]] := by
  refine ⟨rfl, rfl, by decide, getUser_learner _ rfl rfl, getUser_learner _ rfl rfl, ?_, ?_⟩
  · rw [handleTopics_sample sampleStore rfl rfl rfl, completedPct_sampleStore]
  · rw [handleTopics_sample storeOtherLearner rfl rfl rfl, completedPct_storeOtherLearner]

/-! ## Registration, then login -/

theorem handleLogin_valid (P : Platform) (db : Store) (request : Request) (body : JVal)
    (hb : request.body = some body) (ht : body.truthy = true)
    (he : (body.getProp "email").truthy = true) (hp : (body.getProp "password").truthy = true) :
    handleLogin P db request =
      match db.userByEmail (P.toLowerCase (jsTrim (jsString (body.getProp "email")))) with
      | none => (json (errorBody "Incorrect email or password.") 401, db)
      | some user =>
        if user.password_hash ≠ P.hashPassword (jsString (body.getProp "password")) then
          (json (errorBody "Incorrect email or password.") 401, db)
        else
          match db.insertSession P.randomUUID user.id with
          | .error _ => (unhandledException, db)
          | .ok db1 => (⟨200, okBody, some (setSessionCookie P.randomUUID)⟩, db1) := by
  simp [handleLogin, hb, ht, he, hp]

theorem userByEmail_none (db : Store) (email : String) (h : ∀ u ∈ db.users, u.email ≠ email) :
    db.userByEmail email = none := by
  have : db.users.filter (fun u => decide (u.email = email)) = [] := by
    rw [List.filter_eq_nil_iff]
    intro u hu
    simpa using h u hu
  simp [Store.userByEmail, this]

theorem userByEmail_appended (users : List UserRow) (sessions : List SessionRow)
    (topics : List TopicRow) (questions : List QuestionRow) (attempts : List AttemptRow)
    (row : UserRow) (h : ∀ u ∈ users, u.email ≠ row.email) :
    (⟨users ++ [row], sessions, topics, questions, attempts⟩ : Store).userByEmail row.email
      = some row := by
  have : users.filter (fun u => decide (u.email = row.email)) = [] := by
    rw [List.filter_eq_nil_iff]
    intro u hu
    simpa using h u hu
  simp [Store.userByEmail, List.filter_append, this]

theorem sessionUser_appended (users : List UserRow) (sessions : List SessionRow)
    (topics : List TopicRow) (questions : List QuestionRow) (attempts : List AttemptRow)
    (row : UserRow) (pre post : List SessionRow) (token : String)
    (hid : ∀ u ∈ users, u.id ≠ row.id) (hs : sessions = pre ++ ⟨token, row.id⟩ :: post)
    (hpre : ∀ s ∈ pre, s.id ≠ token) :
    (⟨users ++ [row], sessions, topics, questions, attempts⟩ : Store).sessionUser token
      = some ⟨row.id, row.email, row.is_admin⟩ := by
  have h1 : pre.filter (fun s => decide (s.id = token)) = [] := by
    rw [List.filter_eq_nil_iff]
    intro s hs'
    simpa using hpre s hs'
  have h2 : users.filter (fun u => decide (u.id = row.id)) = [] := by
    rw [List.filter_eq_nil_iff]
    intro u hu
    simpa using hid u hu
  simp [Store.sessionUser, hs, List.filter_append, h1, h2, List.filter_cons]

theorem matchSessionId_literal (tok : List Char) (hne : tok ≠ [])
    (hsemi : ∀ c ∈ tok, c ≠ Char.ofNat 59) :
    matchSessionId (sessionKey ++ tok) = some tok := by
  have hcons : sessionKey ++ tok = Char.ofNat 115 :: ("ession_id=".toList ++ tok) := rfl
  have hpre : sessionKey.isPrefixOf (sessionKey ++ tok) = true := by
    rw [List.isPrefixOf_iff_prefix]
    exact List.prefix_append _ _
  have hdrop : (sessionKey ++ tok).drop sessionKey.length = tok := List.drop_left _ _
  have htake : tok.takeWhile (fun d => d != Char.ofNat 59) = tok := by
    rw [List.takeWhile_eq_self_iff]
    intro c hc
    simpa using hsemi c hc
  rw [hcons, matchSessionId, ← hcons, if_pos hpre, hdrop, htake]
  cases tok with
  | nil => exact absurd rfl hne
  | cons c cs => rfl

theorem getUserFromSession_cookie (db : Store) (token : String) (body : Option JVal)
    (hne : token ≠ "") (hsemi : ∀ c ∈ token.toList, c ≠ Char.ofNat 59) :
    getUserFromSession db ⟨some ("session_id=" ++ token), body⟩ = db.sessionUser token := by
  have hl : ("session_id=" ++ token).toList = sessionKey ++ token.toList := by
    simp [sessionKey]
  have hne' : token.toList ≠ [] := by
    intro h
    apply hne
    cases token with
    | mk l =>
      simp only [String.toList] at h
      subst h
      rfl
  simp only [getUserFromSession, Option.getD_some, hl, matchSessionId_literal _ hne' hsemi]
  cases token with
  | mk l => rfl

/-- Claim C25: with the same digest at both requests, once `handleRegister`
has written the user row of an email and a password, as it does for every
well-formed registration of an email that is not yet registered, `handleLogin`
with the same password and any email with the same trimmed lower-case form
answers 200 and appends one session that resolves to that user; `handleLogin`
with an unknown email, and with the known email but a password of another
digest, give the identical answer 401 `Incorrect email or password.` and leave
the store as it was.  The token of `crypto.randomUUID()` is not yet a session
id at the login. -/
theorem register_then_login (P1 P2 : Platform) (db : Store) (r1 : Request) (b1 : JVal)
    (h1 : r1.body = some b1) (ht1 : b1.truthy = true)
    (he1 : (b1.getProp "email").truthy = true) (hp1 : (b1.getProp "password").truthy = true)
    (hne1 : P1.toLowerCase (jsTrim (jsString (b1.getProp "email"))) ≠ "")
    (hlen1 : 6 ≤ jsLength (jsString (b1.getProp "password")))
    (hnew : ∀ u ∈ db.users, u.email ≠ P1.toLowerCase (jsTrim (jsString (b1.getProp "email"))))
    (hhash : P2.hashPassword = P1.hashPassword) :
    ∃ user : SessionUser,
      user.email = P1.toLowerCase (jsTrim (jsString (b1.getProp "email"))) ∧
        (∃ row ∈ (handleRegister P1 db r1).2.users, row.id = user.id ∧ row.email = user.email ∧
          row.password_hash = P1.hashPassword (jsString (b1.getProp "password"))) ∧
        (∀ u ∈ db.users, u.id ≠ user.id) ∧
        (∀ r2 b2, r2.body = some b2 → b2.truthy = true →
          (b2.getProp "email").truthy = true → (b2.getProp "password").truthy = true →
          P2.toLowerCase (jsTrim (jsString (b2.getProp "email")))
            = P1.toLowerCase (jsTrim (jsString (b1.getProp "email"))) →
          jsString (b2.getProp "password") = jsString (b1.getProp "password") →
          (∀ s ∈ (handleRegister P1 db r1).2.sessions, s.id ≠ P2.randomUUID) →
          (handleLogin P2 (handleRegister P1 db r1).2 r2).1
              = ⟨200, .obj [("ok", .bool true)],
                  some ("session_id=" ++ P2.randomUUID ++ "; HttpOnly; Path=/; SameSite=Lax")⟩ ∧
            (handleLogin P2 (handleRegister P1 db r1).2 r2).2
              = { (handleRegister P1 db r1).2 with
                  sessions := (handleRegister P1 db r1).2.sessions ++ [⟨P2.randomUUID, user.id⟩] } ∧
            (handleLogin P2 (handleRegister P1 db r1).2 r2).2.sessionUser P2.randomUUID
              = some user ∧
            (P2.randomUUID ≠ "" → (∀ c ∈ P2.randomUUID.toList, c ≠ Char.ofNat 59) →
              getUserFromSession (handleLogin P2 (handleRegister P1 db r1).2 r2).2
                ⟨some ("session_id=" ++ P2.randomUUID), none⟩ = some user)) ∧
        (∀ r2 b2, r2.body = some b2 → b2.truthy = true →
          (b2.getProp "email").truthy = true → (b2.getProp "password").truthy = true →
          (∀ u ∈ (handleRegister P1 db r1).2.users,
            u.email ≠ P2.toLowerCase (jsTrim (jsString (b2.getProp "email")))) →
          handleLogin P2 (handleRegister P1 db r1).2 r2
            = (⟨401, .obj [("error", .str "Incorrect email or password.")], none⟩,
                (handleRegister P1 db r1).2)) ∧
        (∀ r2 b2, r2.body = some b2 → b2.truthy = true →
          (b2.getProp "email").truthy = true → (b2.getProp "password").truthy = true →
          P2.toLowerCase (jsTrim (jsString (b2.getProp "email")))
            = P1.toLowerCase (jsTrim (jsString (b1.getProp "email"))) →
          P2.hashPassword (jsString (b2.getProp "password"))
            ≠ P1.hashPassword (jsString (b1.getProp "password")) →
          handleLogin P2 (handleRegister P1 db r1).2 r2
            = (⟨401, .obj [("error", .str "Incorrect email or password.")], none⟩,
                (handleRegister P1 db r1).2)) := by
  have hreg := handleRegister_new P1 db r1 b1 h1 ht1 he1 hp1 hne1 hlen1 hnew
  have hfresh : ∀ u ∈ db.users, u.id ≠ nextId (db.users.map fun u => u.id) := by
    intro u hu heq
    exact nextId_not_mem (db.users.map fun u => u.id) (heq ▸ List.mem_map_of_mem _ hu)
  obtain ⟨row, hrow⟩ : ∃ row : UserRow, row = ⟨nextId (db.users.map fun u => u.id),
      P1.toLowerCase (jsTrim (jsString (b1.getProp "email"))),
      P1.hashPassword (jsString (b1.getProp "password")), false⟩ := ⟨_, rfl⟩
  obtain ⟨db1, hdb1⟩ : ∃ db1 : Store, db1 = ⟨db.users ++ [row],
      db.sessions, db.topics, db.questions, db.attempts⟩ := ⟨_, rfl⟩
  have hreg1 : (handleRegister P1 db r1).2 = db1 := by
    rw [hreg, hdb1, hrow]
  have hrid : ∀ u ∈ db.users, u.id ≠ row.id := by
    rw [hrow]
    exact hfresh
  have hremail : row.email = P1.toLowerCase (jsTrim (jsString (b1.getProp "email"))) := by
    rw [hrow]
  have hrhash : row.password_hash = P1.hashPassword (jsString (b1.getProp "password")) := by
    rw [hrow]
  have hnew' : ∀ u ∈ db.users, u.email ≠ row.email := by
    rw [hremail]
    exact hnew
  have huser : db1.userByEmail row.email = some row := by
    rw [hdb1]
    exact userByEmail_appended db.users _ db.topics db.questions db.attempts row hnew'
  have hsess1 : db1.sessions = db.sessions := by
    rw [hdb1]
  rw [hreg1]
  refine ⟨⟨row.id, row.email, row.is_admin⟩, hremail,
    ⟨row, by rw [hdb1]; exact List.mem_append_right _ (List.mem_singleton_self _), rfl, rfl,
      hrhash⟩, hrid, ?_, ?_, ?_⟩
  · intro r2 b2 hb2 ht2 he2 hp2 hsame hpw huuid2
    have huuid2' : ∀ s ∈ db1.sessions, s.id ≠ P2.randomUUID := huuid2
    have hres : handleLogin P2 db1 r2
        = (⟨200, okBody, some (setSessionCookie P2.randomUUID)⟩,
            { db1 with sessions := db1.sessions ++ [⟨P2.randomUUID, row.id⟩] }) := by
      rw [handleLogin_valid P2 db1 r2 b2 hb2 ht2 he2 hp2, hsame, ← hremail, huser]
      simp only [hpw, hhash, hrhash, ne_eq, not_true_eq_false, if_false,
        insertSession_ok db1 _ _ huuid2']
    have hsu : ({ db1 with sessions := db1.sessions ++ [⟨P2.randomUUID, row.id⟩] } :
        Store).sessionUser P2.randomUUID = some ⟨row.id, row.email, row.is_admin⟩ := by
      have hpre : ∀ s ∈ db.sessions, s.id ≠ P2.randomUUID := by
        rw [← hsess1]
        exact huuid2'
      rw [hdb1]
      exact sessionUser_appended db.users _ db.topics db.questions db.attempts row
        db.sessions [] P2.randomUUID hrid rfl hpre
    rw [hres]
    refine ⟨rfl, rfl, hsu, ?_⟩
    intro hne hsemi
    rw [getUserFromSession_cookie _ _ _ hne hsemi]
    exact hsu
  · intro r2 b2 hb2 ht2 he2 hp2 hunknown
    rw [handleLogin_valid P2 db1 r2 b2 hb2 ht2 he2 hp2, userByEmail_none _ _ hunknown]
    rfl
  · intro r2 b2 hb2 ht2 he2 hp2 hsame hwrong
    rw [handleLogin_valid P2 db1 r2 b2 hb2 ht2 he2 hp2, hsame, ← hremail, huser]
    simp only [ne_eq]
    rw [if_pos (fun h => hwrong (by rw [← h, hrhash]))]
    rfl

/-- Witness for C25: on the sample store, after the registration of
`bob@example.com` with the password `abcdef` has written the user row, a login
as ` BOB@Example.COM ` with that password is answered 200 with a new session
cookie, and a login with the password `abcdeg` is answered 401. -/
theorem register_then_login_witness :
    (handleRegister samplePlatform sampleStore (registerRequest "bob@example.com" "abcdef")).2.users
        = sampleStore.users ++ [⟨3, "bob@example.com", "sha:abcdef", false⟩] ∧
      (handleLogin laterPlatform
          (handleRegister samplePlatform sampleStore (registerRequest "bob@example.com" "abcdef")).2
          (loginRequest " BOB@Example.COM " "abcdef")).1
        = ⟨200, .obj [("ok", .bool true)],
            some "session_id=tok-10; HttpOnly; Path=/; SameSite=Lax"⟩ ∧
      (handleLogin laterPlatform
          (handleRegister samplePlatform sampleStore (registerRequest "bob@example.com" "abcdef")).2
          (loginRequest "bob@example.com" "abcdeg")).1
        = ⟨401, .obj [("error", .str "Incorrect email or password.")], none⟩ := by
  have hreg := handleRegister_new samplePlatform sampleStore
    (registerRequest "bob@example.com" "abcdef") _ rfl rfl (by decide) (by decide) (by decide)
    (by decide) (by decide)
  obtain ⟨user, _, _, _, hlogin, _, hwrong⟩ :=
    register_then_login samplePlatform laterPlatform sampleStore
      (registerRequest "bob@example.com" "abcdef") _ rfl rfl rfl rfl (by decide) (by decide)
      (by decide) rfl
  refine ⟨?_, ?_, ?_⟩
  · rw [hreg]
    decide
  · exact (hlogin (loginRequest " BOB@Example.COM " "abcdef") _ rfl rfl rfl rfl (by decide) rfl
      (by
        intro s hs
        rw [hreg] at hs
        revert s
        decide)).1
  · rw [hwrong (loginRequest "bob@example.com" "abcdeg") _ rfl rfl rfl rfl (by decide) (by decide)]

end LCMaths
